import Mathlib

/-!
# ParPhase: fractional-step solver with direct-forcing immersed boundaries

A shallow embedding of the parts of the ParPhase sources that the specification's
testable properties talk about, followed by the theorems that settle them.

Conventions of the embedding.

* `Scalar` (a C++ `double`) is modelled by a real number. Division by zero follows
  Lean's convention `x / 0 = 0`; theorems whose C++ counterpart would divide by zero
  carry a hypothesis that excludes it.
* C++ integer sub-expressions are kept as integer expressions: `3/2`, `9/20` and
  `3/56` are written as natural-number divisions, exactly as the source writes them.
* A C++ `throw Exception(...)` is modelled by the `Except.error` result.
* Collaborators that are outside the sources at hand (the sparse linear solver, the
  CICSAM operators, the containment queries of a body) enter as parameters.
-/

noncomputable section

namespace ParPhase

/-! ## Geometry: `Vector2D`, `Circle`, shapes -/

/-- The scalar type of the solver (`typedef double Scalar`). -/
abbrev Scalar := ℝ

/-- A cell or face label. -/
abbrev Label := ℕ

/-- Plane vector with public components `x` and `y` (`Geometry/Vector2D.h`). -/
@[ext]
structure Vector2D where
  x : Scalar
  y : Scalar

/-- Points are vectors (`typedef Vector2D Point2D`). -/
abbrev Point2D := Vector2D

namespace Vector2D

/-- Source `Vector2D::magSqr`. -/
def magSqr (v : Vector2D) : Scalar := v.x * v.x + v.y * v.y

/-- Source `Vector2D::mag`. -/
def mag (v : Vector2D) : Scalar := Real.sqrt (v.x * v.x + v.y * v.y)

/-- Source `operator+=` through `operator+`. -/
def add (u v : Vector2D) : Vector2D := ⟨u.x + v.x, u.y + v.y⟩

/-- Source `operator-=` through `operator-`. -/
def sub (u v : Vector2D) : Vector2D := ⟨u.x - v.x, u.y - v.y⟩

/-- Unary `operator-`. -/
def neg (v : Vector2D) : Vector2D := ⟨-v.x, -v.y⟩

/-- Source `operator*=` through `operator*(Vector2D, Scalar)`. -/
def smulRight (v : Vector2D) (s : Scalar) : Vector2D := ⟨v.x * s, v.y * s⟩

/-- Source `operator/=` through `operator/(Vector2D, Scalar)`. -/
def divScalar (v : Vector2D) (s : Scalar) : Vector2D := ⟨v.x / s, v.y / s⟩

instance : Zero Vector2D := ⟨⟨0, 0⟩⟩
instance : Add Vector2D := ⟨add⟩
instance : Sub Vector2D := ⟨sub⟩
instance : Neg Vector2D := ⟨neg⟩
instance : HMul Vector2D Scalar Vector2D := ⟨smulRight⟩
/-- Source `operator*(Scalar lhs, Vector2D rhs)` returns `rhs * lhs`. -/
instance : HMul Scalar Vector2D Vector2D := ⟨fun s v => smulRight v s⟩
instance : HDiv Vector2D Scalar Vector2D := ⟨divScalar⟩

/-- Source `Vector2D::unitVec`. -/
def unitVec (v : Vector2D) : Vector2D := v / v.mag

/-- Free function `dot`. -/
def dot (u v : Vector2D) : Scalar := u.x * v.x + u.y * v.y

/-- Free function `cross`. -/
def cross (u v : Vector2D) : Scalar := u.x * v.y - u.y * v.x

end Vector2D

/-- Source `Circle` (`Geometry/Circle.cpp`): centre and radius. -/
structure Circle where
  center_ : Point2D
  radius_ : Scalar

namespace Circle

/-- Accessor `Circle::centroid`: the centre. -/
def centroid (c : Circle) : Point2D := c.center_

/-- Accessor `Circle::radius`. -/
def radius (c : Circle) : Scalar := c.radius_

/-- Source `Circle::isInside`: strict containment, compared through squared lengths. -/
def isInside (c : Circle) (testPoint : Point2D) : Bool :=
  decide ((testPoint - c.center_).magSqr < c.radius_ * c.radius_)

/-- Source `Circle::nearestIntersect`. -/
def nearestIntersect (c : Circle) (testPoint : Point2D) : Point2D :=
  c.center_ + (testPoint - c.center_).unitVec * c.radius_

end Circle

/-- A body shape: either a circle (`type() == Shape2D::CIRCLE`) or a shape of any
other type, which the force models do not implement. A shape of another type is
given by its containment test and its nearest-boundary-point query. -/
inductive Shape2D where
  | circle (c : Circle)
  | other (isInside : Point2D → Bool) (nearestIntersect : Point2D → Point2D)

/-- A group of cells (`CellGroup`): the labels of its cells in insertion order. -/
abbrev CellGroup := List Label

/-- Modelled from the spec: `CellGroup::add` is not among the sources; a group is a set
of cells, so the cells not yet in the group are appended and the others are skipped. -/
def CellGroup.add (g items : CellGroup) : CellGroup :=
  items.foldl (fun acc c => if c ∈ acc then acc else acc ++ [c]) g

/-- The exception object thrown by the solver: class, method and message. -/
structure Exception where
  className : String
  method : String
  message : String
deriving DecidableEq

/-- An `ImmersedBoundaryObject`: its shape, its rigid-body velocity field
`velocity(point)`, and the two cell groups that classification assigns to it. -/
structure ImmersedBoundaryObject where
  shape : Shape2D
  velocity : Point2D → Vector2D
  ibCells_ : CellGroup := []
  solidCells_ : CellGroup := []

/-! ## Collision models -/

/-- Source `CollisionModel`: the pure-spring model and its four parameters. -/
structure CollisionModel where
  eps_particle_ : Scalar
  range_particle_ : Scalar
  eps_wall_ : Scalar
  range_wall_ : Scalar

/-- Source `CollisionModel::force(ibObjP, ibObjQ)`. -/
def CollisionModel.force (m : CollisionModel) (ibObjP ibObjQ : ImmersedBoundaryObject) :
    Except Exception Vector2D :=
  match ibObjP.shape, ibObjQ.shape with
  | Shape2D.circle c1, Shape2D.circle c2 =>
    let xp := c1.centroid
    let xq := c2.centroid
    let r1 := c1.radius
    let r2 := c2.radius
    let d := (xp - xq).mag
    Except.ok (if d > r1 + r2 + m.range_particle_ then (⟨0, 0⟩ : Vector2D)
      else (xp - xq) / m.eps_particle_ * (r1 + r2 + m.range_particle_ - d) ^ (2 : ℕ))
  | _, _ => Except.error ⟨"CollisionModel", "force", "unsupported shape type."⟩

/-- Source `SoftSphereCollisionModel` and its six parameters. -/
structure SoftSphereCollisionModel where
  k_particle_ : Scalar
  eta_particle_ : Scalar
  range_particle_ : Scalar
  k_wall_ : Scalar
  eta_wall_ : Scalar
  range_wall_ : Scalar

/-- Source `SoftSphereCollisionModel::force(ibObjP, ibObjQ)`. The exponent is the integer
expression `3/2` of the source; `vq` is read from `ibObjP`, as the source does. -/
def SoftSphereCollisionModel.force (m : SoftSphereCollisionModel)
    (ibObjP ibObjQ : ImmersedBoundaryObject) : Except Exception Vector2D :=
  match ibObjP.shape, ibObjQ.shape with
  | Shape2D.circle c1, Shape2D.circle c2 =>
    let xp := c1.centroid
    let xq := c2.centroid
    let vp := ibObjP.velocity xp
    let vq := ibObjP.velocity xq
    let r1 := c1.radius
    let r2 := c2.radius
    let d := (xp - xq).mag
    let norm_d := (xp - xq) / d
    let f_pq := (m.k_particle_ * (r1 + r2 + m.range_particle_ - d) ^ (3 / 2 : ℕ)) * norm_d
      + m.eta_particle_ * (vp - vq)
    Except.ok (if d > r1 + r2 + m.range_particle_ then (⟨0, 0⟩ : Vector2D) else f_pq)
  | _, _ => Except.error ⟨"CollisionModel", "force", "unsupported shape type."⟩

/-- Source `LubricationCorrection` and its three parameters. -/
structure LubricationCorrection where
  mu_ : Scalar
  range_particle_ : Scalar
  range_wall_ : Scalar

/-- Source `LubricationCorrection::force(ibObjP, ibObjQ)`. The factors `9/20` and `3/56` are
the integer expressions of the source, converted to `Scalar` when multiplied. -/
def LubricationCorrection.force (m : LubricationCorrection)
    (ibObjP ibObjQ : ImmersedBoundaryObject) : Except Exception Vector2D :=
  match ibObjP.shape, ibObjQ.shape with
  | Shape2D.circle c1, Shape2D.circle c2 =>
    let xp := c1.centroid
    let xq := c2.centroid
    let vp := ibObjP.velocity xp
    let vq := ibObjP.velocity xq
    let r1 := c1.radius
    let r2 := c2.radius
    let r_eff := (r1 * r2) / (r1 + r2)
    let d := (xp - xq).mag
    let delta := r1 + r2 + m.range_particle_ - d
    let epsilon := delta / r_eff
    let epsilon_0 := m.range_particle_ / r_eff
    let lambda := 1 / (2 * epsilon) - ((9 / 20 : ℕ) : Scalar) * Real.log epsilon
      - ((3 / 56 : ℕ) : Scalar) * epsilon * Real.log epsilon
    let lambda_0 := 1 / (2 * epsilon_0) - ((9 / 20 : ℕ) : Scalar) * Real.log epsilon_0
      - ((3 / 56 : ℕ) : Scalar) * epsilon_0 * Real.log epsilon_0
    let f_lubrication := (6 * Real.pi * m.mu_ * r_eff) * (vp - vq) * (lambda - lambda_0)
    Except.ok (if d > r1 + r2 + m.range_particle_ then (⟨0, 0⟩ : Vector2D) else f_lubrication)
  | _, _ => Except.error ⟨"CollisionModel", "force", "unsupported shape type."⟩

/-- A circular body with centre `c`, radius `r` and velocity field `v`. -/
def circleBody (c : Point2D) (r : Scalar) (v : Point2D → Vector2D) : ImmersedBoundaryObject :=
  { shape := Shape2D.circle ⟨c, r⟩, velocity := v }

/-- A body at rest: its velocity field vanishes everywhere. -/
def AtRest (b : ImmersedBoundaryObject) : Prop := ∀ p, b.velocity p = ⟨0, 0⟩


/-! ## Grid and immersed-boundary classification -/

/-- A grid cell as the immersed-boundary code reads it: its global id, its centroid,
its face-adjacent links `neighbours()` and its diagonal links `diagonals()`; links
are stored as the labels of the cells they lead to. -/
structure Cell where
  globalId : Label
  centroid : Point2D
  neighbours : List Label
  diagonals : List Label

/-- Modelled from the spec: `Cell::cellLinks` is not among the sources; the spec's
ordered list of neighbour links, the face-adjacent ones followed by the diagonal ones. -/
def Cell.cellLinks (c : Cell) : List Label := c.neighbours ++ c.diagonals

/-- A face as the solvers read it: its centroid and the labels of its left and right
cells (a boundary face only has a left cell). -/
structure Face where
  centroid : Point2D
  lCell : Label
  rCell : Label

/-- A group of faces (`FaceGroup`, a boundary patch): its faces in order. -/
abbrev FaceGroup := List Face

/-- The grid as an arena of cells addressed by label, with the cells local to this
partition, the rank of the partition, the gathering of a cell group over all
partitions (`globalCellGroup`), the interior faces and the boundary patches. -/
structure FiniteVolumeGrid2D where
  cell : Label → Cell
  localCells : CellGroup
  rank : ℕ
  globalCellGroup : CellGroup → CellGroup
  interiorFaces : List Face := []
  patches : List FaceGroup := []

/-- The three cell classes of the `cellStatus` field. -/
inductive CellStatus where
  | FLUID_CELLS
  | IB_CELLS
  | SOLID_CELLS
deriving DecidableEq

namespace ImmersedBoundaryObject

/-- Modelled from the spec: `ImmersedBoundaryObject::isInIb` is not among the sources;
it is the containment test of the shape (`Circle::isInside` for a circle). -/
def isInIb (b : ImmersedBoundaryObject) (p : Point2D) : Bool :=
  match b.shape with
  | Shape2D.circle c => c.isInside p
  | Shape2D.other inside _ => inside p

/-- Modelled from the spec: `ImmersedBoundaryObject::nearestIntersect` is not among the
sources; it is the nearest-boundary-point query of the shape
(`Circle::nearestIntersect` for a circle). -/
def nearestIntersect (b : ImmersedBoundaryObject) (p : Point2D) : Point2D :=
  match b.shape with
  | Shape2D.circle c => c.nearestIntersect p
  | Shape2D.other _ nearest => nearest p

/-- Modelled from the spec: `ImmersedBoundaryObject::clear` is not among the sources;
classification is rebuilt from nothing, so both cell groups of the body are emptied. -/
def clear (b : ImmersedBoundaryObject) : ImmersedBoundaryObject :=
  { b with ibCells_ := [], solidCells_ := [] }

/-- Modelled from the spec: `ImmersedBoundaryObject::cellsWithin` is not among the
sources; SOLID cells are the cells whose centroid satisfies the containment predicate
of the shape under the current pose of the body. -/
def cellsWithin (b : ImmersedBoundaryObject) (grid : FiniteVolumeGrid2D)
    (cells : CellGroup) : CellGroup :=
  cells.filter (fun c => b.isInIb (grid.cell c).centroid)

/-- Modelled from the spec: `ImmersedBoundaryObject::outerPerimeterCells` is not among
the sources; IB cells are the one-ring of non-solid neighbours of the SOLID cells (the
flag tells whether diagonal links count as neighbours). -/
def outerPerimeterCells (_b : ImmersedBoundaryObject) (grid : FiniteVolumeGrid2D)
    (solid : CellGroup) (includeDiagonals : Bool) : CellGroup :=
  solid.foldl (fun acc c =>
    CellGroup.add acc
      ((if includeDiagonals then (grid.cell c).cellLinks else (grid.cell c).neighbours).filter
        (fun nb => nb ∉ solid))) []

end ImmersedBoundaryObject

/-- The state of `DirectForcingImmersedBoundary` that classification touches. -/
structure DirectForcingImmersedBoundary where
  grid_ : FiniteVolumeGrid2D
  domainCells_ : CellGroup
  ibObjs_ : List ImmersedBoundaryObject
  ibCells_ : CellGroup
  solidCells_ : CellGroup
  cellStatus_ : Label → CellStatus

/-- The three values carried through the loop over the bodies in `updateCells`. -/
structure Classification where
  ibObjs : List ImmersedBoundaryObject
  ibCells : CellGroup
  solidCells : CellGroup

/-- The body of the loop over the bodies in `updateCells`. -/
def classifyBody (grid : FiniteVolumeGrid2D) (domainCells : CellGroup)
    (acc : Classification) (ibObj : ImmersedBoundaryObject) : Classification :=
  let solidCells := ibObj.cellsWithin grid domainCells
  let ibCells := ibObj.outerPerimeterCells grid solidCells false
  { ibObjs := acc.ibObjs ++ [{ ibObj with ibCells_ := ibCells, solidCells_ := solidCells }]
    ibCells := CellGroup.add acc.ibCells ibCells
    solidCells := CellGroup.add acc.solidCells solidCells }

/-- Writes `status` at every cell of `cells`: the loops
`for(const Cell& cell: group) (*cellStatus_)(cell) = status`. -/
def markCells (cells : CellGroup) (status : CellStatus) (field : Label → CellStatus) :
    Label → CellStatus :=
  cells.foldl (fun f c => Function.update f c status) field

/-- Source `DirectForcingImmersedBoundary::updateCells`. -/
def DirectForcingImmersedBoundary.updateCells (ib : DirectForcingImmersedBoundary) :
    DirectForcingImmersedBoundary :=
  let cleared := ib.ibObjs_.map ImmersedBoundaryObject.clear
  let cls := cleared.foldl (classifyBody ib.grid_ ib.domainCells_) ⟨[], [], []⟩
  let filled : Label → CellStatus := fun _ => CellStatus.FLUID_CELLS
  let withIb := markCells cls.ibCells CellStatus.IB_CELLS filled
  let withSolid := markCells cls.solidCells CellStatus.SOLID_CELLS withIb
  { ib with
    ibObjs_ := cls.ibObjs
    ibCells_ := cls.ibCells
    solidCells_ := cls.solidCells
    cellStatus_ := withSolid }

/-- The damping term of `SoftSphereCollisionModel::force`, `eta_particle_ * (vp - vq)`
with `vp` and `vq` as the source reads them, for centres `xp` and `xq`. -/
def SoftSphereCollisionModel.dampingTerm (m : SoftSphereCollisionModel)
    (ibObjP : ImmersedBoundaryObject) (xp xq : Point2D) : Vector2D :=
  m.eta_particle_ * (ibObjP.velocity xp - ibObjP.velocity xq)

/-- The soft-sphere force as a function of the centre separation `d`, everything else
fixed: body `Q` has its centre at `xq`, body `P` at `xq + dir * d`. -/
def softSphereForceAt (m : SoftSphereCollisionModel) (xq dir : Point2D) (r1 r2 : Scalar)
    (vP vQ : Point2D → Vector2D) (d : Scalar) : Vector2D :=
  match m.force (circleBody (xq + dir * d) r1 vP) (circleBody xq r2 vQ) with
  | Except.ok f => f
  | Except.error _ => ⟨0, 0⟩

/-! ## Collision models: body against wall -/

/-- The exception thrown by the three force models for a shape that is not a circle. -/
def unsupportedShape : Exception := ⟨"CollisionModel", "force", "unsupported shape type."⟩

/-- The test `shape().type() == Shape2D::CIRCLE`. -/
def Shape2D.isCircle : Shape2D → Bool
  | Shape2D.circle _ => true
  | Shape2D.other _ _ => false

/-- Modelled from the spec: `FaceGroup::itemsCoveredBy(Circle)` is not among the
sources; a model is active only within its interaction range, so the faces covered are
the faces of the patch whose centroid lies inside the circle. -/
def itemsCoveredBy (p : FaceGroup) (c : Circle) : List Face :=
  p.filter (fun f => c.isInside f.centroid)

/-- The faces visited by the two nested loops of the wall overloads, in order: for
every patch the faces covered by the circle, without the faces whose left cell is not
local (`continue`). -/
def wallFaces (grid : FiniteVolumeGrid2D) (c : Circle) : List Face :=
  (grid.patches.map (fun p =>
    (itemsCoveredBy p c).filter (fun f => f.lCell ∈ grid.localCells))).flatten

/-- Source `CollisionModel::force(ibObj, grid)`: the wall contributions are summed in
`fc`, and `fc_zero` is returned. -/
def CollisionModel.forceWall (m : CollisionModel) (ibObj : ImmersedBoundaryObject)
    (grid : FiniteVolumeGrid2D) : Except Exception Vector2D :=
  let fc_zero : Vector2D := ⟨0, 0⟩
  match ibObj.shape with
  | Shape2D.circle c =>
    let xp := c.centroid
    let r := c.radius
    let _fc : Vector2D := (wallFaces grid ⟨xp, r + m.range_wall_⟩).foldl (fun fc f =>
      let xq := f.centroid
      let d := (xp - xq).mag
      fc + (xp - xq) / m.eps_wall_ * (r + m.range_wall_ - d) ^ (2 : ℕ)) ⟨0, 0⟩
    Except.ok fc_zero
  | Shape2D.other _ _ => Except.error ⟨"CollisionModel", "force", "unsupported shape type."⟩

/-- Source `SoftSphereCollisionModel::force(ibObj, grid)`: the wall contributions are
summed in `fc`, and `fc_zero` is returned. -/
def SoftSphereCollisionModel.forceWall (m : SoftSphereCollisionModel)
    (ibObj : ImmersedBoundaryObject) (grid : FiniteVolumeGrid2D) : Except Exception Vector2D :=
  let fc_zero : Vector2D := ⟨0, 0⟩
  match ibObj.shape with
  | Shape2D.circle c =>
    let xp := c.centroid
    let vp := ibObj.velocity xp
    let r := c.radius
    let _fc : Vector2D := (wallFaces grid ⟨xp, r + m.range_wall_⟩).foldl (fun fc f =>
      let xq := f.centroid
      let d := (xp - xq).mag
      let norm_d := (xp - xq) / d
      fc + ((m.k_particle_ * (r + m.range_particle_ - d) ^ (3 / 2 : ℕ)) * norm_d
        + m.eta_particle_ * vp)) ⟨0, 0⟩
    Except.ok fc_zero
  | Shape2D.other _ _ => Except.error ⟨"CollisionModel", "force", "unsupported shape type."⟩

/-- Source `LubricationCorrection::force(ibObj, grid)`: every covered face overwrites
`f_lubrication` and adds to it once more, and `f_zero` is returned. -/
def LubricationCorrection.forceWall (m : LubricationCorrection)
    (ibObj : ImmersedBoundaryObject) (grid : FiniteVolumeGrid2D) : Except Exception Vector2D :=
  let f_zero : Vector2D := ⟨0, 0⟩
  match ibObj.shape with
  | Shape2D.circle c =>
    let xp := c.centroid
    let vp := ibObj.velocity xp
    let r := c.radius
    let _f_lubrication : Vector2D :=
      (wallFaces grid ⟨xp, r + m.range_wall_⟩).foldl (fun _ f =>
        let xq := f.centroid
        let d := (xp - xq).mag
        let delta := r + m.range_particle_ - d
        let epsilon := delta / r
        let epsilon_0 := m.range_particle_ / r
        let lambda := 1 / epsilon - ((1 / 5 : ℕ) : Scalar) * Real.log epsilon
          - ((1 / 21 : ℕ) : Scalar) * epsilon * Real.log epsilon
        let lambda_0 := 1 / epsilon_0 - ((1 / 5 : ℕ) : Scalar) * Real.log epsilon_0
          - ((1 / 21 : ℕ) : Scalar) * epsilon_0 * Real.log epsilon_0
        let f1 : Vector2D := (6 * Real.pi * m.mu_ * r) * vp * (lambda - lambda_0)
        f1 + (6 * Real.pi * m.mu_ * r) * vp * (lambda - lambda_0)) ⟨0, 0⟩
    Except.ok f_zero
  | Shape2D.other _ _ => Except.error ⟨"CollisionModel", "force", "unsupported shape type."⟩

/-! ## Direct forcing: stencils, weights and the forcing equation -/

/-- Queries of the base class `ImmersedBoundary` and the sparse solver, which are not
among the sources: the body nearest to a point, the body that contains a point, and
the solution of an assembled equation for the field it was built on. -/
structure ForcingCollaborators where
  nearestIbObj : Point2D → ImmersedBoundaryObject
  ibObj : Point2D → ImmersedBoundaryObject
  solve : (Label → Label → Scalar) → (Label → Vector2D) → (Label → Vector2D)
    → (Label → Vector2D)

/-- The two vectors filled for an IB cell: `stCells` and `compatPts`. -/
structure Stencil where
  stCells : List Label
  compatPts : List (Point2D × Vector2D)

/-- The body of the loop over `cell.cellLinks()` in `computeForcingTerm`. -/
def stencilStep (grid : FiniteVolumeGrid2D) (q : ForcingCollaborators)
    (ibCells solidCells : CellGroup) (st : Stencil) (nb : Label) : Stencil :=
  if nb ∉ solidCells then
    let st1 : Stencil := { st with stCells := st.stCells ++ [nb] }
    if nb ∈ ibCells then
      let ibObj := q.nearestIbObj (grid.cell nb).centroid
      let bp := ibObj.nearestIntersect (grid.cell nb).centroid
      let bu := ibObj.velocity bp
      { st1 with compatPts := st1.compatPts ++ [(bp, bu)] }
    else st1
  else st

/-- The stencil of an IB cell: the loop over its links, then the compatibility point
of the cell itself (lines 59 to 82 and 154 to 177, the same text in both overloads). -/
def ibStencil (grid : FiniteVolumeGrid2D) (q : ForcingCollaborators)
    (ibCells solidCells : CellGroup) (cell : Label) : Stencil :=
  let st := (grid.cell cell).cellLinks.foldl (stencilStep grid q ibCells solidCells) ⟨[], []⟩
  let ibObj := q.nearestIbObj (grid.cell cell).centroid
  let bp := ibObj.nearestIntersect (grid.cell cell).centroid
  let bu := ibObj.velocity bp
  { st with compatPts := st.compatPts ++ [(bp, bu)] }

/-- The support points of a stencil in the order of the rows of `A`: the centroids of
the stencil cells, then the compatibility points. -/
def Stencil.supportPoints (grid : FiniteVolumeGrid2D) (st : Stencil) : List Point2D :=
  st.stCells.map (fun c => (grid.cell c).centroid) ++ st.compatPts.map Prod.fst

/-- The row `{x.x * x.x, x.y * x.y, x.x * x.y, x.x, x.y, 1.}` of the source. -/
def quadraticBasis (x : Point2D) : Fin 6 → Scalar :=
  ![x.x * x.x, x.y * x.y, x.x * x.y, x.x, x.y, 1]

/-- The matrix `A` of the source: one basis row for every support point. -/
def designMatrix (pts : List Point2D) : Matrix (Fin pts.length) (Fin 6) Scalar :=
  Matrix.of (fun i j => quadraticBasis (pts.get i) j)

/-- The four Penrose equations, which say that `X` is the Moore-Penrose
pseudo-inverse of `A`. -/
def IsPseudoInverse {m n : ℕ} (A : Matrix (Fin m) (Fin n) Scalar)
    (X : Matrix (Fin n) (Fin m) Scalar) : Prop :=
  A * X * A = A ∧ X * A * X = X ∧ (A * X).transpose = A * X ∧ (X * A).transpose = X * A

/-- Modelled from the spec: `pseudoInverse` of the `Matrix` class is not among the
sources; it is the Moore-Penrose pseudo-inverse, here the matrix that satisfies the
four Penrose equations. -/
def pseudoInverse {m n : ℕ} (A : Matrix (Fin m) (Fin n) Scalar) :
    Matrix (Fin n) (Fin m) Scalar :=
  Classical.epsilon (IsPseudoInverse A)

/-- The weight row of the source,
`beta = Matrix(1, 6, basis at the centroid) * pseudoInverse(A)`. -/
def beta (pts : List Point2D) (x : Point2D) : Matrix (Fin 1) (Fin pts.length) Scalar :=
  Matrix.of (fun (_ : Fin 1) j => quadraticBasis x j) * pseudoInverse (designMatrix pts)

/-- The entry `beta(0, i)`; the source only reads it for `i` below the row count. -/
def betaAt (pts : List Point2D) (x : Point2D) (i : ℕ) : Scalar :=
  if h : i < pts.length then beta pts x 0 ⟨i, h⟩ else 0

/-- The value interpolated at `x` from the samples of a scalar field `f` at the
support points: the sum of `beta(0, i) * f(support_i)`. -/
def interpolate (pts : List Point2D) (x : Point2D) (f : Point2D → Scalar) : Scalar :=
  ∑ i : Fin pts.length, beta pts x 0 i * f (pts.get i)

/-- The test field of the exactness property, `f(x, y) = x^2 + 2xy + y`. -/
def testField (p : Point2D) : Scalar := p.x * p.x + 2 * p.x * p.y + p.y

/-- The equation under assembly: matrix coefficients by (row, column) and one source
vector per row. -/
structure FiniteVolumeEquation where
  coeffs : Label → Label → Scalar
  sources : Label → Vector2D

namespace FiniteVolumeEquation

/-- The equation freshly constructed on a field: no coefficient, no source. -/
def empty : FiniteVolumeEquation := ⟨fun _ _ => 0, fun _ => ⟨0, 0⟩⟩

/-- Modelled from the spec: `FiniteVolumeEquation::add` is not among the sources; it
adds `val` to the coefficient at `(row, col)` of the equation rows. -/
def add (eqn : FiniteVolumeEquation) (row col : Label) (val : Scalar) : FiniteVolumeEquation :=
  { eqn with coeffs := fun r c => if r = row ∧ c = col then eqn.coeffs r c + val
      else eqn.coeffs r c }

/-- Modelled from the spec: `FiniteVolumeEquation::set` is not among the sources; it
replaces the coefficient at `(row, col)` by `val`. -/
def set (eqn : FiniteVolumeEquation) (row col : Label) (val : Scalar) : FiniteVolumeEquation :=
  { eqn with coeffs := fun r c => if r = row ∧ c = col then val else eqn.coeffs r c }

/-- Modelled from the spec: `FiniteVolumeEquation::addSource` is not among the sources;
it adds `val` to the source of the row of `cell`. -/
def addSource (eqn : FiniteVolumeEquation) (cell : Label) (val : Vector2D) :
    FiniteVolumeEquation :=
  { eqn with sources := fun c => if c = cell then eqn.sources c + val else eqn.sources c }

/-- Modelled from the spec: `FiniteVolumeEquation::setSource` is not among the sources;
it replaces the source of the row of `cell` by `val`. -/
def setSource (eqn : FiniteVolumeEquation) (cell : Label) (val : Vector2D) :
    FiniteVolumeEquation :=
  { eqn with sources := fun c => if c = cell then val else eqn.sources c }

end FiniteVolumeEquation

/-- The exception thrown for an IB cell with fewer than six support points. -/
def notEnoughCells (grid : FiniteVolumeGrid2D) (cell : Label) : Exception :=
  ⟨"DirectForcingImmersedBoundary", "computeForcingTerm",
    "not enough cells to perform velocity interpolation. Cell id = "
      ++ toString (grid.cell cell).globalId ++ ", proc = " ++ toString grid.rank⟩

/-- The loop `for(const Cell& cell: grid_->localCells())` with a body that may throw:
the first exception ends the loop. -/
def forEachCell (step : Label → FiniteVolumeEquation → Except Exception FiniteVolumeEquation) :
    List Label → FiniteVolumeEquation → Except Exception FiniteVolumeEquation
  | [], eqn => Except.ok eqn
  | cell :: rest, eqn =>
    match step cell eqn with
    | Except.error e => Except.error e
    | Except.ok eqn1 => forEachCell step rest eqn1

/-- The body of the cell loop of `computeForcingTerm(u, timeStep, fib)`. -/
def forcingRow (grid : FiniteVolumeGrid2D) (q : ForcingCollaborators)
    (ibCells solidCells : CellGroup) (u : Label → Vector2D) (timeStep : Scalar)
    (cell : Label) (eqn : FiniteVolumeEquation) : Except Exception FiniteVolumeEquation :=
  if cell ∈ ibCells then
    let st := ibStencil grid q ibCells solidCells cell
    if st.stCells.length + st.compatPts.length < 6 then
      Except.error (notEnoughCells grid cell)
    else
      let pts := st.supportPoints grid
      let x := (grid.cell cell).centroid
      let eqn1 := eqn.add cell cell (-timeStep)
      let eqn2 := st.stCells.enum.foldl (fun e p =>
        (e.add cell p.2 (betaAt pts x p.1 * timeStep)).addSource cell
          (betaAt pts x p.1 * u p.2)) eqn1
      let eqn3 := st.compatPts.enum.foldl (fun e p =>
        e.addSource cell (betaAt pts x (p.1 + st.stCells.length) * p.2.2)) eqn2
      Except.ok (eqn3.addSource cell (-(u cell)))
  else if cell ∈ solidCells then
    Except.ok ((eqn.set cell cell (-1)).setSource cell
      (((q.ibObj (grid.cell cell).centroid).velocity (grid.cell cell).centroid - u cell)
        / timeStep))
  else
    Except.ok ((eqn.set cell cell (-1)).setSource cell ⟨0, 0⟩)

/-- Source `DirectForcingImmersedBoundary::computeForcingTerm(u, timeStep, fib)`: the
result is the solved forcing field, or the exception that was thrown. -/
def DirectForcingImmersedBoundary.computeForcingTerm (ib : DirectForcingImmersedBoundary)
    (q : ForcingCollaborators) (u : Label → Vector2D) (timeStep : Scalar)
    (fib : Label → Vector2D) : Except Exception (Label → Vector2D) :=
  let ibCells := ib.grid_.globalCellGroup ib.ibCells_
  let solidCells := ib.grid_.globalCellGroup ib.solidCells_
  match forEachCell (forcingRow ib.grid_ q ibCells solidCells u timeStep)
      ib.grid_.localCells FiniteVolumeEquation.empty with
  | Except.error e => Except.error e
  | Except.ok eqn => Except.ok (q.solve eqn.coeffs eqn.sources fib)

/-- The body of the cell loop of `computeForcingTerm(rho, u, timeStep, fib)`. -/
def forcingRowRho (grid : FiniteVolumeGrid2D) (q : ForcingCollaborators)
    (ibCells solidCells : CellGroup) (rho : Label → Scalar) (u : Label → Vector2D)
    (timeStep : Scalar) (cell : Label) (eqn : FiniteVolumeEquation) :
    Except Exception FiniteVolumeEquation :=
  if cell ∈ ibCells then
    let st := ibStencil grid q ibCells solidCells cell
    if st.stCells.length + st.compatPts.length < 6 then
      Except.error (notEnoughCells grid cell)
    else
      let pts := st.supportPoints grid
      let x := (grid.cell cell).centroid
      let eqn1 := eqn.add cell cell (-timeStep / rho cell)
      let eqn2 := st.stCells.enum.foldl (fun e p =>
        (e.add cell p.2 (betaAt pts x p.1 * timeStep / rho p.2)).addSource cell
          (betaAt pts x p.1 * u p.2)) eqn1
      let eqn3 := st.compatPts.enum.foldl (fun e p =>
        e.addSource cell (betaAt pts x (p.1 + st.stCells.length) * p.2.2)) eqn2
      Except.ok (eqn3.addSource cell (-(u cell)))
  else if cell ∈ solidCells then
    Except.ok ((eqn.set cell cell (-timeStep / rho cell)).setSource cell
      ((q.ibObj (grid.cell cell).centroid).velocity (grid.cell cell).centroid - u cell))
  else
    Except.ok ((eqn.set cell cell (-1)).setSource cell ⟨0, 0⟩)

/-- Source `DirectForcingImmersedBoundary::computeForcingTerm(rho, u, timeStep, fib)`. -/
def DirectForcingImmersedBoundary.computeForcingTermRho (ib : DirectForcingImmersedBoundary)
    (q : ForcingCollaborators) (rho : Label → Scalar) (u : Label → Vector2D)
    (timeStep : Scalar) (fib : Label → Vector2D) : Except Exception (Label → Vector2D) :=
  let ibCells := ib.grid_.globalCellGroup ib.ibCells_
  let solidCells := ib.grid_.globalCellGroup ib.solidCells_
  match forEachCell (forcingRowRho ib.grid_ q ibCells solidCells rho u timeStep)
      ib.grid_.localCells FiniteVolumeEquation.empty with
  | Except.error e => Except.error e
  | Except.ok eqn => Except.ok (q.solve eqn.coeffs eqn.sources fib)

/-- The equation assembled by the cell loop of `computeForcingTerm(u, timeStep, fib)`,
as it stands when `eqn.solve()` is reached, or the exception that was thrown. -/
def DirectForcingImmersedBoundary.forcingEquation (ib : DirectForcingImmersedBoundary)
    (q : ForcingCollaborators) (u : Label → Vector2D) (timeStep : Scalar) :
    Except Exception FiniteVolumeEquation :=
  forEachCell (forcingRow ib.grid_ q (ib.grid_.globalCellGroup ib.ibCells_)
    (ib.grid_.globalCellGroup ib.solidCells_) u timeStep)
    ib.grid_.localCells FiniteVolumeEquation.empty

/-- The equation assembled by the cell loop of
`computeForcingTerm(rho, u, timeStep, fib)`, as it stands when `eqn.solve()` is
reached, or the exception that was thrown. -/
def DirectForcingImmersedBoundary.forcingEquationRho (ib : DirectForcingImmersedBoundary)
    (q : ForcingCollaborators) (rho : Label → Scalar) (u : Label → Vector2D)
    (timeStep : Scalar) : Except Exception FiniteVolumeEquation :=
  forEachCell (forcingRowRho ib.grid_ q (ib.grid_.globalCellGroup ib.ibCells_)
    (ib.grid_.globalCellGroup ib.solidCells_) rho u timeStep)
    ib.grid_.localCells FiniteVolumeEquation.empty

/-- The weight `beta(0, i)` that `computeForcingTerm` builds for an IB cell, either
overload: the weight row of the stencil of the cell, evaluated at its centroid. -/
def DirectForcingImmersedBoundary.stencilWeight (ib : DirectForcingImmersedBoundary)
    (q : ForcingCollaborators) (cell : Label) (i : ℕ) : Scalar :=
  let st := ibStencil ib.grid_ q (ib.grid_.globalCellGroup ib.ibCells_)
    (ib.grid_.globalCellGroup ib.solidCells_) cell
  betaAt (st.supportPoints ib.grid_) (ib.grid_.cell cell).centroid i

/-- The support points of a cell in the order of the rows of `A`, as
`computeForcingTerm` collects them, either overload. -/
def DirectForcingImmersedBoundary.supportPoints (ib : DirectForcingImmersedBoundary)
    (q : ForcingCollaborators) (cell : Label) : List Point2D :=
  (ibStencil ib.grid_ q (ib.grid_.globalCellGroup ib.ibCells_)
    (ib.grid_.globalCellGroup ib.solidCells_) cell).supportPoints ib.grid_

/-- The number of support points of a cell: stencil cells plus compatibility points. -/
def DirectForcingImmersedBoundary.supportCount (ib : DirectForcingImmersedBoundary)
    (q : ForcingCollaborators) (cell : Label) : ℕ :=
  let st := ibStencil ib.grid_ q (ib.grid_.globalCellGroup ib.ibCells_)
    (ib.grid_.globalCellGroup ib.solidCells_) cell
  st.stCells.length + st.compatPts.length

/-- A local IB cell: a cell of `grid_->localCells()` that is in the gathered IB group. -/
def DirectForcingImmersedBoundary.IsLocalIbCell (ib : DirectForcingImmersedBoundary)
    (cell : Label) : Prop :=
  cell ∈ ib.grid_.localCells ∧ cell ∈ ib.grid_.globalCellGroup ib.ibCells_

/-! ## Phase advection in `FractionalStepDirectForcingMultiphase` -/

/-- The phase indicator `gamma_` as `solveGammaEqn` reads and writes it: cell values,
face values, the values kept by `savePreviousIteration` and by
`savePreviousTimeStep`. -/
structure ScalarFiniteVolumeField where
  cells : Label → Scalar
  faces : Label → Scalar
  prevIteration : Label → Scalar
  oldField : Label → Scalar

/-- Collaborators of `solveGammaEqn` that are not among the sources. The two linear
solves return whatever cell values they return, as functions of the field they are
built on, the corrector source and the time step; the contact-line extension and the
face interpolation are functions of the cell values. -/
structure PhaseCollaborators where
  predictorSolve : ScalarFiniteVolumeField → Scalar → Label → Scalar
  computeContactLineExtension : (Label → Scalar) → Label → Scalar
  correctorSolve : ScalarFiniteVolumeField → (Label → Scalar) → Scalar → Label → Scalar
  interpolateFaces : (Label → Scalar) → Label → Scalar

/-- The fields `gamma_` and `gammaSrc_` of the multiphase solver. -/
structure PhaseState where
  gamma_ : ScalarFiniteVolumeField
  gammaSrc_ : Label → Scalar

/-- Source `FractionalStepDirectForcingMultiphase::solveGammaEqn`, as far as it writes
`gamma_` and `gammaSrc_` (the momentum fluxes and the gradient, computed afterwards,
only read `gamma_`). -/
def solveGammaEqn (env : PhaseCollaborators) (fluid : CellGroup) (st : PhaseState)
    (timeStep : Scalar) : PhaseState :=
  let g0 : ScalarFiniteVolumeField := { st.gamma_ with oldField := st.gamma_.cells }
  let g1 : ScalarFiniteVolumeField := { g0 with cells := env.predictorSolve g0 timeStep }
  let g2 : ScalarFiniteVolumeField := { g1 with prevIteration := g1.cells }
  let g3 : ScalarFiniteVolumeField :=
    { g2 with cells := env.computeContactLineExtension g2.cells }
  let gammaSrc := fluid.foldl (fun src c =>
    Function.update src c ((g3.cells c - g3.prevIteration c) / timeStep)) st.gammaSrc_
  let g4 : ScalarFiniteVolumeField := { g3 with cells := env.correctorSolve g3 gammaSrc timeStep }
  let g5 : ScalarFiniteVolumeField := { g4 with faces := env.interpolateFaces g4.cells }
  { gamma_ := g5, gammaSrc_ := gammaSrc }

/-! ## Physical properties in `FractionalStepDirectForcingMultiphase` -/

/-- Modelled from the spec: `clamp` of `Math/Algorithm.h` is not among the sources;
`clamp(x, lo, hi)` bounds `x` to the interval from `lo` to `hi`. -/
def clamp (x lo hi : Scalar) : Scalar := max lo (min x hi)

/-- Where the loops of a field run: the cells visited by `computeCells` and by the
loops over the fluid cells, the faces of the grid, and the centroid of each face. -/
structure FieldDomain where
  cells : List Label
  faces : List Label
  faceCentroid : Label → Point2D

/-- The loop of `computeCells` or `computeFaces`: the field is overwritten by `f` at
every item of the list, one item after the other. -/
def computeItems {α : Type} (items : List Label) (f : Label → α) (field : Label → α) :
    Label → α :=
  items.foldl (fun fld i => Function.update fld i (f i)) field

/-- The two-phase constants of the solver: `rho1_`, `rho2_`, `mu1_`, `mu2_`, `g_`. -/
structure PhaseConstants where
  rho1_ : Scalar
  rho2_ : Scalar
  mu1_ : Scalar
  mu2_ : Scalar
  g_ : Vector2D

/-- Collaborators of `updateProperties` that are not among the sources: the face
gradient of the density (`gradRho_.computeFaces()`, a function of the density field)
and the reconstruction of cell values from face values (`faceToCell`, with its two
weight fields). -/
structure PropertyCollaborators where
  gradRhoFaces : (Label → Scalar) → (Label → Scalar) → Label → Vector2D
  faceToCell : (Label → Scalar) → (Label → Scalar) → (Label → Vector2D) → Label → Vector2D

/-- The fields that `updateProperties` reads and writes: `gamma_`, `rho_`, `mu_`, the
face values of `gradRho_`, and the cell and face values of `sg_`. -/
structure PropertyState where
  gamma_ : ScalarFiniteVolumeField
  rho_ : ScalarFiniteVolumeField
  mu_ : ScalarFiniteVolumeField
  gradRhoFaces_ : Label → Vector2D
  sgCells_ : Label → Vector2D
  sgFaces_ : Label → Vector2D

/-- Source `FractionalStepDirectForcingMultiphase::updateProperties`, as far as it
writes `rho_`, `sg_` and `mu_` (the surface-tension update that follows writes the
fields of `fst_` only). -/
def updateProperties (k : PhaseConstants) (env : PropertyCollaborators) (dom : FieldDomain)
    (st : PropertyState) (_timeStep : Scalar) : PropertyState :=
  let rhoOld := st.rho_.cells
  let rhoCells := computeItems dom.cells
    (fun c => k.rho1_ + clamp (st.gamma_.cells c) 0 1 * (k.rho2_ - k.rho1_)) st.rho_.cells
  let rhoFaces := computeItems dom.faces
    (fun f => k.rho1_ + clamp (st.gamma_.faces f) 0 1 * (k.rho2_ - k.rho1_)) st.rho_.faces
  let gradRho := env.gradRhoFaces rhoCells rhoFaces
  let sgFaces := computeItems dom.faces
    (fun face => (-(Vector2D.dot k.g_ (dom.faceCentroid face))) * gradRho face) st.sgFaces_
  let sgFromFaces := env.faceToCell rhoCells rhoCells sgFaces
  let sgCells := computeItems dom.cells sgFromFaces st.sgCells_
  let muOld := st.mu_.cells
  let muCells := computeItems dom.cells
    (fun c => rhoCells c / (k.rho1_ / k.mu1_
      + clamp (st.gamma_.cells c) 0 1 * (k.rho2_ / k.mu2_ - k.rho1_ / k.mu1_))) st.mu_.cells
  let muFaces := computeItems dom.faces
    (fun f => rhoFaces f / (k.rho1_ / k.mu1_
      + clamp (st.gamma_.faces f) 0 1 * (k.rho2_ / k.mu2_ - k.rho1_ / k.mu1_))) st.mu_.faces
  { st with
    rho_ := { st.rho_ with cells := rhoCells, faces := rhoFaces, oldField := rhoOld }
    mu_ := { st.mu_ with cells := muCells, faces := muFaces, oldField := muOld }
    gradRhoFaces_ := gradRho
    sgCells_ := sgCells
    sgFaces_ := sgFaces }

/-! ## Physical properties in `FractionalStepMultiphase` -/

/-- Where the loops of `FractionalStepMultiphase` run: the cells of the grid
(`grid_.cells()`), the cells of the fluid zone, the faces of the grid, and the
centroids of cells and faces. -/
structure MultiphaseGrid where
  cells : List Label
  fluidCells : List Label
  faces : List Label
  cellCentroid : Label → Point2D
  faceCentroid : Label → Point2D

/-- Collaborator of `computeRho` that is not among the sources:
`fv::computeInverseWeightedGradient(rho, rho, gradRho)`, which gives the cell values
and the face values of `gradRho` as functions of the cell values of `rho`. -/
structure GradientCollaborators where
  gradCells : (Label → Scalar) → Label → Vector2D
  gradFaces : (Label → Scalar) → Label → Vector2D

/-- The fields that `computeRho` and `computeMu` read and write: `gamma`, `rho`, `mu`,
and the cell and face values of `gradRho` and `sg`. -/
structure MultiphaseState where
  gamma : ScalarFiniteVolumeField
  rho : ScalarFiniteVolumeField
  mu : ScalarFiniteVolumeField
  gradRhoCells : Label → Vector2D
  gradRhoFaces : Label → Vector2D
  sgCells : Label → Vector2D
  sgFaces : Label → Vector2D
  sgOldCells : Label → Vector2D

/-- Source `FractionalStepMultiphase::computeRho`. -/
def computeRho (k : PhaseConstants) (env : GradientCollaborators) (grid : MultiphaseGrid)
    (st : MultiphaseState) : MultiphaseState :=
  let w := st.gamma
  let rhoOld := st.rho.cells
  let rhoCells := computeItems grid.cells
    (fun cell => (1 - max 0 (min 1 (w.cells cell))) * k.rho1_
      + max 0 (min 1 (w.cells cell)) * k.rho2_) st.rho.cells
  let gradCells := env.gradCells rhoCells
  let gradFaces := env.gradFaces rhoCells
  let sgOld := st.sgCells
  let sgCells := computeItems grid.fluidCells
    (fun cell => Vector2D.dot k.g_ (-(grid.cellCentroid cell)) * gradCells cell) st.sgCells
  let sgFaces := computeItems grid.faces
    (fun face => Vector2D.dot k.g_ (-(grid.faceCentroid face)) * gradFaces face) st.sgFaces
  let rhoFaces := computeItems grid.faces
    (fun face => (1 - max 0 (min 1 (w.faces face))) * k.rho1_
      + max 0 (min 1 (w.faces face)) * k.rho2_) st.rho.faces
  { st with
    rho := { st.rho with cells := rhoCells, faces := rhoFaces, oldField := rhoOld }
    gradRhoCells := gradCells
    gradRhoFaces := gradFaces
    sgCells := sgCells
    sgFaces := sgFaces
    sgOldCells := sgOld }

/-- Source `FractionalStepMultiphase::computeMu`. -/
def computeMu (k : PhaseConstants) (grid : MultiphaseGrid) (st : MultiphaseState) :
    MultiphaseState :=
  let w := st.gamma
  let muOld := st.mu.cells
  let muCells := computeItems grid.cells
    (fun cell => (1 - max 0 (min 1 (w.cells cell))) * k.mu1_
      + max 0 (min 1 (w.cells cell)) * k.mu2_) st.mu.cells
  let muFaces := computeItems grid.faces
    (fun face => (1 - max 0 (min 1 (w.faces face))) * k.mu1_
      + max 0 (min 1 (w.faces face)) * k.mu2_) st.mu.faces
  { st with mu := { st.mu with cells := muCells, faces := muFaces, oldField := muOld } }

/-! ## Momentum predictor in `FractionalStepDirectForcingMultiphase` -/

/-- The velocity `u_` as `solveUEqn` reads and writes it: cell values, face values,
the values kept by `savePreviousIteration` and by `savePreviousTimeStep`. -/
structure VectorFiniteVolumeField where
  cells : Label → Vector2D
  faces : Label → Vector2D
  prevIteration : Label → Vector2D
  oldField : Label → Vector2D

/-- Collaborators of `solveUEqn` that are not among the sources: the reconstruction
`gradP_.faceToCell(rho_, rho_.oldField(0), fluid)`, the explicit predictor solve (the
momentum equation without boundary-condition rows) and the corrector solve (with the
rows of `ib_->velocityBcs`), each returning whatever cell values it returns. -/
structure MomentumCollaborators where
  gradPFaceToCell : (Label → Scalar) → (Label → Scalar) → (Label → Vector2D) → Label → Vector2D
  predictorSolve : VectorFiniteVolumeField → Scalar → Label → Vector2D
  correctorSolve : VectorFiniteVolumeField → Scalar → Label → Vector2D

/-- The fields of the solver that `solveUEqn` touches up to its loop over the fluid
cells: `u_`, `fb_`, `rho_` and the cell values of `gradP_`. -/
structure MomentumState where
  u_ : VectorFiniteVolumeField
  fb_ : Label → Vector2D
  rho_ : ScalarFiniteVolumeField
  gradP_ : Label → Vector2D

/-- The body of the loop over the fluid cells in `solveUEqn`, on the pair of the cell
values of `u_` and of `fb_`: `fb_(c)` is stored, then `u_(c)` is advanced. -/
def forcingResidualStep (rho : Label → Scalar) (gradP prevIteration : Label → Vector2D)
    (timeStep : Scalar) (s : (Label → Vector2D) × (Label → Vector2D)) (c : Label) :
    (Label → Vector2D) × (Label → Vector2D) :=
  let fb := Function.update s.2 c (rho c * (s.1 c - prevIteration c) / timeStep)
  let u := Function.update s.1 c (s.1 c + (timeStep / rho c) * gradP c)
  (u, fb)

/-- Source `FractionalStepDirectForcingMultiphase::solveUEqn`, up to and including its
loop over the fluid cells (what follows writes the face values of `u_` only). -/
def solveUEqn (env : MomentumCollaborators) (fluid : CellGroup) (st : MomentumState)
    (timeStep : Scalar) : MomentumState :=
  let gradP := env.gradPFaceToCell st.rho_.cells st.rho_.oldField st.gradP_
  let u0 : VectorFiniteVolumeField := { st.u_ with oldField := st.u_.cells }
  let u1 : VectorFiniteVolumeField := { u0 with cells := env.predictorSolve u0 timeStep }
  let u2 : VectorFiniteVolumeField := { u1 with prevIteration := u1.cells }
  let u3 : VectorFiniteVolumeField := { u2 with cells := env.correctorSolve u2 timeStep }
  let looped := fluid.foldl
    (forcingResidualStep st.rho_.cells gradP u3.prevIteration timeStep) (u3.cells, st.fb_)
  { st with
    u_ := { u3 with cells := looped.1 }
    fb_ := looped.2
    gradP_ := gradP }

/-- The velocity returned by the explicit predictor solve in `solveUEqn`. -/
def uUnconstrained (env : MomentumCollaborators) (st : MomentumState) (timeStep : Scalar) :
    Label → Vector2D :=
  env.predictorSolve { st.u_ with oldField := st.u_.cells } timeStep

/-- The velocity returned by the corrector solve in `solveUEqn`. -/
def uConstrained (env : MomentumCollaborators) (st : MomentumState) (timeStep : Scalar) :
    Label → Vector2D :=
  env.correctorSolve
    { st.u_ with
      oldField := st.u_.cells
      cells := uUnconstrained env st timeStep
      prevIteration := uUnconstrained env st timeStep } timeStep

/-! ## Capillary time-step limit -/

/-- A `Scalar` that may also hold `std::numeric_limits<Scalar>::infinity()`, written
`⊤`; `std::min` on it is `min`. -/
abbrev ExtendedScalar := WithTop ℝ

/-- Source `(face.rCell().centroid() - face.lCell().centroid()).mag()`, the `delta` of
both constructors. -/
def Face.delta (grid : FiniteVolumeGrid2D) (face : Face) : Scalar :=
  ((grid.cell face.rCell).centroid - (grid.cell face.lCell).centroid).mag

/-- Modelled from the spec: `Communicator::min` is not among the sources; the spec's
global minimum across all partitions: the least of the values the partitions pass, the
value of this partition first. -/
def Communicator.min (own : ExtendedScalar) (others : List ExtendedScalar) : ExtendedScalar :=
  others.foldl Min.min own

/-- Source: the loop over `grid_.interiorFaces()` in the constructor of
`FractionalStepMultiphase`, from `capillaryTimeStep_ = infinity`; `sigma` is
`surfaceTensionForce_.sigma()`. -/
def FractionalStepMultiphase.localCapillaryTimeStep (k : PhaseConstants) (sigma : Scalar)
    (grid : FiniteVolumeGrid2D) : ExtendedScalar :=
  grid.interiorFaces.foldl
    (fun capillaryTimeStep_ face =>
      let delta := Face.delta grid face
      min capillaryTimeStep_
        ((Real.sqrt (((k.rho1_ + k.rho2_) * delta * delta * delta) / (4 * Real.pi * sigma)) : ℝ) :
          ExtendedScalar))
    ⊤

/-- Source: `capillaryTimeStep_` at the end of the constructor of
`FractionalStepMultiphase`: the local value passed through `comm.min`; `others` are the
grids of the other partitions, whose solvers are constructed from the same input. -/
def FractionalStepMultiphase.capillaryTimeStep (k : PhaseConstants) (sigma : Scalar)
    (grid : FiniteVolumeGrid2D) (others : List FiniteVolumeGrid2D) : ExtendedScalar :=
  Communicator.min (FractionalStepMultiphase.localCapillaryTimeStep k sigma grid)
    (others.map (FractionalStepMultiphase.localCapillaryTimeStep k sigma))

/-- Source: the loop over `grid_->interiorFaces()` in the constructor of
`FractionalStepDirectForcingMultiphase`, with `std::pow(delta, 3)`; `sigma` is
`fst_->sigma()`. -/
def FractionalStepDirectForcingMultiphase.localCapillaryTimeStep (k : PhaseConstants)
    (sigma : Scalar) (grid : FiniteVolumeGrid2D) : ExtendedScalar :=
  grid.interiorFaces.foldl
    (fun capillaryTimeStep_ face =>
      let delta := Face.delta grid face
      min capillaryTimeStep_
        ((Real.sqrt ((k.rho1_ + k.rho2_) * delta ^ (3 : ℝ) / (4 * Real.pi * sigma)) : ℝ) :
          ExtendedScalar))
    ⊤

/-- Source: `capillaryTimeStep_` at the end of the constructor of
`FractionalStepDirectForcingMultiphase`: the local value passed through
`grid_->comm().min`. -/
def FractionalStepDirectForcingMultiphase.capillaryTimeStep (k : PhaseConstants)
    (sigma : Scalar) (grid : FiniteVolumeGrid2D) (others : List FiniteVolumeGrid2D) :
    ExtendedScalar :=
  Communicator.min (FractionalStepDirectForcingMultiphase.localCapillaryTimeStep k sigma grid)
    (others.map (FractionalStepDirectForcingMultiphase.localCapillaryTimeStep k sigma))

/-- Source `FractionalStepMultiphase::computeMaxTimeStep`. The method
`FractionalStep::computeMaxTimeStep` of the base class is not among the sources and
enters as `base`. -/
def FractionalStepMultiphase.computeMaxTimeStep (base : Scalar → Scalar → ExtendedScalar)
    (capillaryTimeStep_ : ExtendedScalar) (maxCo prevTimeStep : Scalar) : ExtendedScalar :=
  min (base maxCo prevTimeStep) capillaryTimeStep_

/-- The capillary limit of one face in the words of the specification:
`sqrt((rho1 + rho2) * delta^3 / (4 * pi * sigma))`, with `delta` the distance between
the centroids of the two cells of the face. -/
def capillaryLimit (k : PhaseConstants) (sigma : Scalar) (grid : FiniteVolumeGrid2D)
    (face : Face) : Scalar :=
  Real.sqrt ((k.rho1_ + k.rho2_) * (Face.delta grid face) ^ 3 / (4 * Real.pi * sigma))

/-! ## One time step of `FractionalStepDirectForcingMultiphase` -/

/-- The calls that `FractionalStepDirectForcingMultiphase::solve` makes on the solver
and on `ib_`, each as a transformer of the solver state `σ` (the `printf` calls and the
two diagnostics printed at the end write no state). -/
structure SolverStages (σ : Type) where
  updateIbPositions : Scalar → σ → σ
  updateCells : σ → σ
  solveGammaEqn : Scalar → σ → σ
  updateProperties : Scalar → σ → σ
  solveUEqn : Scalar → σ → σ
  computeIbForces2 : Scalar → σ → σ
  applyCollisionForce : Bool → σ → σ
  solvePEqn : Scalar → σ → σ
  correctVelocity : Scalar → σ → σ
  computeFieldExtenstions : Scalar → σ → σ

/-- Source `FractionalStepDirectForcingMultiphase::solve`: the state after the step and
the value returned. -/
def FractionalStepDirectForcingMultiphase.solve {σ : Type} (stages : SolverStages σ)
    (timeStep : Scalar) (s : σ) : σ × Scalar :=
  let s1 := stages.updateIbPositions timeStep s
  let s2 := stages.updateCells s1
  let s3 := stages.solveGammaEqn timeStep s2
  let s4 := stages.updateProperties timeStep s3
  let s5 := stages.solveUEqn timeStep s4
  let s6 := stages.computeIbForces2 timeStep s5
  let s7 := stages.applyCollisionForce true s6
  let s8 := stages.solvePEqn timeStep s7
  let s9 := stages.correctVelocity timeStep s8
  let s10 := stages.computeFieldExtenstions timeStep s9
  (s10, 0)

/-- The name of a call made by `solve`. -/
inductive StageCall where
  | updateIbPositions
  | updateCells
  | solveGammaEqn
  | updateProperties
  | solveUEqn
  | computeIbForces2
  | applyCollisionForce
  | solvePEqn
  | correctVelocity
  | computeFieldExtenstions
deriving DecidableEq

/-- Stages that only record their own name: the state is the list of the calls made so
far, oldest first. -/
def recordCalls : SolverStages (List StageCall) :=
  { updateIbPositions := fun _ log => log ++ [StageCall.updateIbPositions]
    updateCells := fun log => log ++ [StageCall.updateCells]
    solveGammaEqn := fun _ log => log ++ [StageCall.solveGammaEqn]
    updateProperties := fun _ log => log ++ [StageCall.updateProperties]
    solveUEqn := fun _ log => log ++ [StageCall.solveUEqn]
    computeIbForces2 := fun _ log => log ++ [StageCall.computeIbForces2]
    applyCollisionForce := fun _ log => log ++ [StageCall.applyCollisionForce]
    solvePEqn := fun _ log => log ++ [StageCall.solvePEqn]
    correctVelocity := fun _ log => log ++ [StageCall.correctVelocity]
    computeFieldExtenstions := fun _ log => log ++ [StageCall.computeFieldExtenstions] }

/-- The calls of one `solve(timeStep)`, in the order in which they are made. -/
def solveTrace (timeStep : Scalar) : List StageCall :=
  (FractionalStepDirectForcingMultiphase.solve recordCalls timeStep []).1

/-! ## Phase advection in `FractionalStepMultiphase` -/

/-- Collaborators of `FractionalStepMultiphase::solveGammaEqn` that are not among the
sources: `cicsam::interpolateFaces` (the face values of `gamma`), the linear solve
`gammaEqn_.solve()` (whatever cell values and error it returns), the ghost-cell exchange
`grid_.sendMessages(comm_, gamma)` (the cell values after the exchange) and
`gamma.setBoundaryFaces()` (the face values). -/
structure AdvectionCollaborators where
  interpolateFaces : ScalarFiniteVolumeField → Scalar → Label → Scalar
  solve : ScalarFiniteVolumeField → Scalar → (Label → Scalar) × Scalar
  sendMessages : (Label → Scalar) → Label → Scalar
  setBoundaryFaces : ScalarFiniteVolumeField → Label → Scalar

/-- Source `FractionalStepMultiphase::solveGammaEqn`, as far as it writes `gamma`, `rho`
and `mu` (the gradient of `gamma` and the surface tension, computed in between, only
read `gamma`): the state when it returns and the error returned. -/
def FractionalStepMultiphase.solveGammaEqn (k : PhaseConstants) (env : AdvectionCollaborators)
    (genv : GradientCollaborators) (grid : MultiphaseGrid) (st : MultiphaseState)
    (timeStep : Scalar) : MultiphaseState × Scalar :=
  let g0 : ScalarFiniteVolumeField := { st.gamma with oldField := st.gamma.cells }
  let g1 : ScalarFiniteVolumeField := { g0 with faces := env.interpolateFaces g0 timeStep }
  let solved := env.solve g1 timeStep
  let error := solved.2
  let g2 : ScalarFiniteVolumeField := { g1 with cells := solved.1 }
  let clamped := grid.cells.foldl
    (fun gamma cell => Function.update gamma cell (max (min (gamma cell) 1) 0)) g2.cells
  let g3 : ScalarFiniteVolumeField := { g2 with cells := clamped }
  let g4 : ScalarFiniteVolumeField := { g3 with cells := env.sendMessages g3.cells }
  let g5 : ScalarFiniteVolumeField := { g4 with faces := env.setBoundaryFaces g4 }
  let st1 : MultiphaseState := { st with gamma := g5 }
  let st2 := computeRho k genv grid st1
  let st3 := computeMu k grid st2
  (st3, error)

/-! ## Mass-flux consistency check in `FractionalStepMultiphase` -/

/-- The `error` of one face in the loop of `checkMassFluxConsistency`:
`fabs(gammaMom - gammaVof)`. -/
def massFluxError (k : PhaseConstants) (st : MultiphaseState) (face : Label) : Scalar :=
  let gammaMom := (st.rho.faces face - k.rho1_) / (k.rho2_ - k.rho1_)
  let gammaVof := st.gamma.faces face
  |gammaMom - gammaVof|

/-- Source `FractionalStepMultiphase::checkMassFluxConsistency`: the value of `max` when
the loop over `grid_.faces()` ends, which is what the method hands to `printf`; the
method writes no field and returns nothing. -/
def FractionalStepMultiphase.checkMassFluxConsistency (k : PhaseConstants)
    (grid : MultiphaseGrid) (st : MultiphaseState) (_timeStep : Scalar) : Scalar :=
  grid.faces.foldl
    (fun max face =>
      let error := massFluxError k st face
      if error > max then error else max)
    0

/-- The number that `printf` writes for the conversion `%.2lf`, counted in hundredths:
the argument rounded to two decimals. -/
def printedHundredths (x : Scalar) : ℤ := round (x * 100)

/-- The line printed by `checkMassFluxConsistency`,
`"Max mass flux error = %.2lf.\n"`, given by the number it shows, in hundredths. -/
def FractionalStepMultiphase.massFluxReport (k : PhaseConstants) (grid : MultiphaseGrid)
    (st : MultiphaseState) (timeStep : Scalar) : ℤ :=
  printedHundredths (FractionalStepMultiphase.checkMassFluxConsistency k grid st timeStep)

/-! ## Field extension in `FractionalStepDirectForcingMultiphase` -/

/-- A `Scalar` with the values that IEEE arithmetic adds to the numbers: a finite value,
`+infinity`, `-infinity` or NaN. Finite values are real numbers: rounding and the sign
of zero are not modelled, and a result beyond the largest `double` is the infinity of
its sign. -/
inductive IeeeScalar where
  | finite (x : ℝ)
  | posInf
  | negInf
  | nan

namespace IeeeScalar

/-- The largest finite `double`, `(2 - 2^(-52)) * 2^1023`. -/
def maxFinite : ℝ := 2 ^ 1024 - 2 ^ 971

/-- The result of an operation whose exact value is `x`: overflow gives an infinity. -/
def ofReal (x : ℝ) : IeeeScalar :=
  if maxFinite < x then posInf else if x < -maxFinite then negInf else finite x

/-- Unary minus. -/
def neg : IeeeScalar → IeeeScalar
  | finite x => finite (-x)
  | posInf => negInf
  | negInf => posInf
  | nan => nan

/-- Addition: infinities of opposite sign and NaN give NaN. -/
def add : IeeeScalar → IeeeScalar → IeeeScalar
  | finite x, finite y => ofReal (x + y)
  | finite _, posInf => posInf
  | finite _, negInf => negInf
  | posInf, finite _ => posInf
  | posInf, posInf => posInf
  | negInf, finite _ => negInf
  | negInf, negInf => negInf
  | _, _ => nan

/-- Multiplication: zero times an infinity and NaN give NaN. -/
def mul : IeeeScalar → IeeeScalar → IeeeScalar
  | finite x, finite y => ofReal (x * y)
  | finite x, posInf => if x = 0 then nan else if 0 < x then posInf else negInf
  | finite x, negInf => if x = 0 then nan else if 0 < x then negInf else posInf
  | posInf, finite y => if y = 0 then nan else if 0 < y then posInf else negInf
  | negInf, finite y => if y = 0 then nan else if 0 < y then negInf else posInf
  | posInf, posInf => posInf
  | posInf, negInf => negInf
  | negInf, posInf => negInf
  | negInf, negInf => posInf
  | _, _ => nan

/-- Division; a zero divisor counts as `+0`: zero by zero, infinity by infinity and
NaN give NaN. -/
def div : IeeeScalar → IeeeScalar → IeeeScalar
  | finite x, finite y =>
    if y = 0 then (if x = 0 then nan else if 0 < x then posInf else negInf) else ofReal (x / y)
  | finite _, posInf => finite 0
  | finite _, negInf => finite 0
  | posInf, finite y => if 0 ≤ y then posInf else negInf
  | negInf, finite y => if 0 ≤ y then negInf else posInf
  | _, _ => nan

instance : Neg IeeeScalar := ⟨neg⟩
instance : Add IeeeScalar := ⟨add⟩
instance : Sub IeeeScalar := ⟨fun a b => add a (neg b)⟩
instance : Mul IeeeScalar := ⟨mul⟩
instance : Div IeeeScalar := ⟨div⟩

/-- The test `std::isnan`. -/
def isnan : IeeeScalar → Bool
  | nan => true
  | _ => false

/-- The test `std::isfinite`. -/
def isFinite : IeeeScalar → Bool
  | finite _ => true
  | _ => false

end IeeeScalar

/-- The scalars that `computeFieldExtenstions` takes, for a body and a solid cell `c`,
from code that is not among the sources (`nearestIntersect`, `nearestEdgeUnitNormal`,
`acceleration`, `ContactLineStencil`): `ubn = dot(velocity(bp), ns)`,
`abn = dot(acceleration(bp), ns)`, `rhob = cl.interpolate(rho_)`,
`pb = stn.interpolate(p_)` and the distance `(c.centroid() - bp).mag()`. -/
structure ExtensionCollaborators where
  ubn : ImmersedBoundaryObject → Label → IeeeScalar
  abn : ImmersedBoundaryObject → Label → IeeeScalar
  rhob : ImmersedBoundaryObject → Label → (Label → IeeeScalar) → IeeeScalar
  pb : ImmersedBoundaryObject → Label → (Label → IeeeScalar) → IeeeScalar
  dist : ImmersedBoundaryObject → Label → IeeeScalar

/-- The lambda `extend` of `computeFieldExtenstions`: the cell has a neighbour or a
diagonal neighbour whose centroid is not in the body. -/
def extend (grid : FiniteVolumeGrid2D) (ibObj : ImmersedBoundaryObject) (c : Label) : Bool :=
  (grid.cell c).neighbours.any (fun nb => !ibObj.isInIb (grid.cell nb).centroid)
    || (grid.cell c).diagonals.any (fun nb => !ibObj.isInIb (grid.cell nb).centroid)

/-- The pressure correction `dP` of `computeFieldExtenstions` for a body and a cell. -/
def pressureCorrection (env : ExtensionCollaborators) (rho_ : Label → IeeeScalar)
    (ibObj : ImmersedBoundaryObject) (c : Label) : IeeeScalar :=
  let ubn := env.ubn ibObj c
  let abn := env.abn ibObj c
  let rhob := env.rhob ibObj c rho_
  let dRho := (rho_ c - rhob) / env.dist ibObj c
  let dP := -(IeeeScalar.finite 2 * ubn * ubn * dRho + rhob * abn)
  dP

/-- The body of the loop over the solid cells of a body in `computeFieldExtenstions`. -/
def extensionStep (grid : FiniteVolumeGrid2D) (env : ExtensionCollaborators)
    (rho_ : Label → IeeeScalar) (ibObj : ImmersedBoundaryObject) (p_ : Label → IeeeScalar)
    (c : Label) : Label → IeeeScalar :=
  if extend grid ibObj c then
    let pb := env.pb ibObj c p_
    let dP := pressureCorrection env rho_ ibObj c
    if !dP.isnan then Function.update p_ c (pb + dP * env.dist ibObj c) else p_
  else p_

/-- Source `FractionalStepDirectForcingMultiphase::computeFieldExtenstions`, as far as
it writes `p_` (the gradient of the pressure is recomputed afterwards). -/
def computeFieldExtenstions (grid : FiniteVolumeGrid2D) (env : ExtensionCollaborators)
    (rho_ : Label → IeeeScalar) (ibObjs : List ImmersedBoundaryObject)
    (p_ : Label → IeeeScalar) (_timeStep : Scalar) : Label → IeeeScalar :=
  ibObjs.foldl (fun p ibObj => ibObj.solidCells_.foldl (extensionStep grid env rho_ ibObj) p) p_

/-! ## Concrete configurations used by the evaluations below -/

/-- Rigid rotation about the origin with unit angular velocity. -/
def spinAboutOrigin : Point2D → Vector2D := fun p => ⟨-p.y, p.x⟩

/-- The velocity field of a body at rest. -/
def restVelocity : Point2D → Vector2D := fun _ => ⟨0, 0⟩

/-- The uniform translation with velocity `(1, 0)`. -/
def driftVelocity : Point2D → Vector2D := fun _ => ⟨1, 0⟩

/-- Soft-sphere model with `k = 1`, `eta = 1` and particle range `range`. -/
def unitSoftSphere (range : Scalar) : SoftSphereCollisionModel := ⟨1, 1, range, 1, 1, range⟩

/-- Lubrication model with `mu = 1` and ranges `1`. -/
def unitLubrication : LubricationCorrection := ⟨1, 1, 1⟩

/-- The `y` component of the lubrication force on a unit circle centred at `(d, 0)`
that turns about the origin, against a unit circle at rest at the origin. -/
def lubricationForceY (d : Scalar) : Scalar :=
  match unitLubrication.force (circleBody ⟨d, 0⟩ 1 spinAboutOrigin)
      (circleBody ⟨0, 0⟩ 1 restVelocity) with
  | Except.ok f => f.y
  | Except.error _ => 0

/-- Three cells in a row with centroids `(0, 0)`, `(1, 0)`, `(2, 0)`, each linked to
the cells next to it, on a single partition. -/
def rowGrid : FiniteVolumeGrid2D :=
  { cell := fun i =>
      { globalId := i
        centroid := ⟨(i : ℝ), 0⟩
        neighbours := if i = 0 then [1] else if i = 1 then [0, 2] else if i = 2 then [1] else []
        diagonals := [] }
    localCells := [0, 1, 2]
    rank := 0
    globalCellGroup := fun g => g }

/-- Two discs of radius one half at rest on `rowGrid`, centred on the first and on
the second cell. -/
def twoDiscs : DirectForcingImmersedBoundary :=
  { grid_ := rowGrid
    domainCells_ := [0, 1, 2]
    ibObjs_ := [circleBody ⟨0, 0⟩ (1 / 2) restVelocity, circleBody ⟨1, 0⟩ (1 / 2) restVelocity]
    ibCells_ := []
    solidCells_ := []
    cellStatus_ := fun _ => CellStatus.FLUID_CELLS }

/-- Linear solves that overshoot: the predictor returns the old values, the
corrector returns `3/2` in every cell; no contact-line extension. -/
def overshootingSolves : PhaseCollaborators :=
  { predictorSolve := fun g _ => g.cells
    computeContactLineExtension := fun g => g
    correctorSolve := fun _ _ _ _ => 3 / 2
    interpolateFaces := fun g => g }

/-- A phase state that is zero everywhere. -/
def zeroPhase : PhaseState :=
  { gamma_ := ⟨fun _ => 0, fun _ => 0, fun _ => 0, fun _ => 0⟩, gammaSrc_ := fun _ => 0 }

/-- Six support points on the two coordinate axes. -/
def axisPoints : List Point2D :=
  [⟨-2, 0⟩, ⟨-1, 0⟩, ⟨1, 0⟩, ⟨2, 0⟩, ⟨0, -1⟩, ⟨0, 1⟩]

/-- The design matrix of `axisPoints`, written out. -/
def axisDesign : Matrix (Fin 6) (Fin 6) Scalar :=
  !![4, 0, 0, -2, 0, 1;
     1, 0, 0, -1, 0, 1;
     1, 0, 0, 1, 0, 1;
     4, 0, 0, 2, 0, 1;
     0, 1, 0, 0, -1, 1;
     0, 1, 0, 0, 1, 1]

/-- The pseudo-inverse of the design matrix of `axisPoints` (the row of the basis
term `xy`, which vanishes at all six points, is zero). -/
def axisPseudoInverse : Matrix (Fin 6) (Fin 6) Scalar :=
  !![1/6, -1/6, -1/6, 1/6, 0, 0;
     1/6, -2/3, -2/3, 1/6, 1/2, 1/2;
     0, 0, 0, 0, 0, 0;
     -1/5, -1/10, 1/10, 1/5, 0, 0;
     0, 0, 0, 0, -1/2, 1/2;
     -1/6, 2/3, 2/3, -1/6, 0, 0]

/-- Six support points in general position: four around the origin, one diagonal
neighbour and the origin itself. -/
def latticePoints : List Point2D :=
  [⟨1, 0⟩, ⟨-1, 0⟩, ⟨0, 1⟩, ⟨0, -1⟩, ⟨1, 1⟩, ⟨0, 0⟩]

/-- The design matrix of `latticePoints`, written out. -/
def latticeDesign : Matrix (Fin 6) (Fin 6) Scalar :=
  !![1, 0, 0, 1, 0, 1;
     1, 0, 0, -1, 0, 1;
     0, 1, 0, 0, 1, 1;
     0, 1, 0, 0, -1, 1;
     1, 1, 1, 1, 1, 1;
     0, 0, 0, 0, 0, 1]

/-- The inverse of the design matrix of `latticePoints`. -/
def latticeInverse : Matrix (Fin 6) (Fin 6) Scalar :=
  !![1/2, 1/2, 0, 0, 0, -1;
     0, 0, 1/2, 1/2, 0, -1;
     -1, 0, -1, 0, 1, 1;
     1/2, -1/2, 0, 0, 0, 0;
     0, 0, 1/2, -1/2, 0, 0;
     0, 0, 0, 0, 0, 1]

/-- A domain of two cells and one face between them. -/
def twoCellDomain : FieldDomain :=
  { cells := [0, 1], faces := [0], faceCentroid := fun _ => ⟨1 / 2, 0⟩ }

/-- Water and air: densities `1000` and `1`, viscosities `1` and `1/50`, gravity
`(0, -10)`. -/
def waterAir : PhaseConstants := ⟨1000, 1, 1, 1 / 50, ⟨0, -10⟩⟩

/-- Gradient and reconstruction that return zero: what the operators of the solver
give on a uniform density. -/
def zeroOperators : PropertyCollaborators :=
  { gradRhoFaces := fun _ _ _ => ⟨0, 0⟩, faceToCell := fun _ _ _ _ => ⟨0, 0⟩ }

/-- A property state with `gamma` equal to `g` in every cell and on every face and
every other field zero. -/
def uniformPhase (g : Scalar) : PropertyState :=
  { gamma_ := ⟨fun _ => g, fun _ => g, fun _ => 0, fun _ => 0⟩
    rho_ := ⟨fun _ => 0, fun _ => 0, fun _ => 0, fun _ => 0⟩
    mu_ := ⟨fun _ => 0, fun _ => 0, fun _ => 0, fun _ => 0⟩
    gradRhoFaces_ := fun _ => ⟨0, 0⟩
    sgCells_ := fun _ => ⟨0, 0⟩
    sgFaces_ := fun _ => ⟨0, 0⟩ }

/-- Two phases with densities `1` and `2` and viscosities `1` and `4`, so that the
kinematic viscosities `1` and `1/2` differ; no gravity. -/
def unequalPhases : PhaseConstants := ⟨1, 2, 1, 4, ⟨0, 0⟩⟩

/-- A grid of one cell and one face, both at the origin. -/
def oneCellGrid : MultiphaseGrid :=
  { cells := [0], fluidCells := [0], faces := [0],
    cellCentroid := fun _ => ⟨0, 0⟩, faceCentroid := fun _ => ⟨0, 0⟩ }

/-- Gradient operators that return zero. -/
def zeroGradient : GradientCollaborators :=
  { gradCells := fun _ _ => ⟨0, 0⟩, gradFaces := fun _ _ => ⟨0, 0⟩ }

/-- A multiphase state with `gamma` equal to `g` in every cell and on every face and
every other field zero. -/
def uniformMultiphase (g : Scalar) : MultiphaseState :=
  { gamma := ⟨fun _ => g, fun _ => g, fun _ => 0, fun _ => 0⟩
    rho := ⟨fun _ => 0, fun _ => 0, fun _ => 0, fun _ => 0⟩
    mu := ⟨fun _ => 0, fun _ => 0, fun _ => 0, fun _ => 0⟩
    gradRhoCells := fun _ => ⟨0, 0⟩
    gradRhoFaces := fun _ => ⟨0, 0⟩
    sgCells := fun _ => ⟨0, 0⟩
    sgFaces := fun _ => ⟨0, 0⟩
    sgOldCells := fun _ => ⟨0, 0⟩ }

/-- Seven cells: cell `0` at the origin, linked to five cells beside and above it and to
cell `6` below it. -/
def starGrid : FiniteVolumeGrid2D :=
  { cell := fun i =>
      { globalId := i
        centroid := if i = 1 then ⟨1, 0⟩ else if i = 2 then ⟨-1, 0⟩ else if i = 3 then ⟨0, 1⟩
          else if i = 4 then ⟨1, 1⟩ else if i = 5 then ⟨-1, 1⟩ else if i = 6 then ⟨0, -1⟩
          else ⟨0, 0⟩
        neighbours := if i = 0 then [1, 2, 3, 6]
          else if i = 1 ∨ i = 2 ∨ i = 3 ∨ i = 6 then [0] else []
        diagonals := if i = 0 then [4, 5] else if i = 4 ∨ i = 5 then [0] else [] }
    localCells := [0, 1, 2, 3, 4, 5, 6]
    rank := 0
    globalCellGroup := fun g => g }

/-- A disc at rest centred on cell `6` of `starGrid`, as classification leaves it: its
solid cell is cell `6` and its IB cell is cell `0`. -/
def starBoundary : DirectForcingImmersedBoundary :=
  { grid_ := starGrid
    domainCells_ := [0, 1, 2, 3, 4, 5, 6]
    ibObjs_ := [circleBody ⟨0, -1⟩ (1 / 2) restVelocity]
    ibCells_ := [0]
    solidCells_ := [6]
    cellStatus_ := fun _ => CellStatus.FLUID_CELLS }

/-- Lookups that always find the body of `starBoundary`, and a solver for diagonal
systems. -/
def starCollaborators : ForcingCollaborators :=
  { nearestIbObj := fun _ => circleBody ⟨0, -1⟩ (1 / 2) restVelocity
    ibObj := fun _ => circleBody ⟨0, -1⟩ (1 / 2) restVelocity
    solve := fun coeffs sources _ c => sources c / coeffs c c }

/-- Solves for a body that stops the flow: the predictor returns the velocity
`(1, 0)` in every cell and the corrector returns zero; the pressure gradient is kept. -/
def stoppingSolves : MomentumCollaborators :=
  { gradPFaceToCell := fun _ _ g => g
    predictorSolve := fun _ _ _ => ⟨1, 0⟩
    correctorSolve := fun _ _ _ => ⟨0, 0⟩ }

/-- A momentum state at rest with unit density and no pressure gradient. -/
def restingFlow : MomentumState :=
  { u_ := ⟨fun _ => ⟨0, 0⟩, fun _ => ⟨0, 0⟩, fun _ => ⟨0, 0⟩, fun _ => ⟨0, 0⟩⟩
    fb_ := fun _ => ⟨0, 0⟩
    rho_ := ⟨fun _ => 1, fun _ => 1, fun _ => 1, fun _ => 1⟩
    gradP_ := fun _ => ⟨0, 0⟩ }

/-- The three cells of `rowGrid` with the two interior faces between them. -/
def rowGridWithFaces : FiniteVolumeGrid2D :=
  { rowGrid with interiorFaces := [⟨⟨1 / 2, 0⟩, 0, 1⟩, ⟨⟨3 / 2, 0⟩, 1, 2⟩] }

/-- A base time-step rule that imposes no limit. -/
def unlimitedBase : Scalar → Scalar → ExtendedScalar := fun _ _ => ⊤

/-- Advection collaborators on one partition whose linear solve overshoots: it returns
`5` in every cell; nothing is exchanged and the faces take the value of cell `0`. -/
def overshootingAdvection : AdvectionCollaborators :=
  { interpolateFaces := fun g _ => g.faces
    solve := fun _ _ => (fun _ => 5, 0)
    sendMessages := fun g => g
    setBoundaryFaces := fun g _ => g.cells 0 }

/-- A multiphase state with density `r` and phase indicator `g` on every face. -/
def faceState (r g : Scalar) : MultiphaseState :=
  { uniformMultiphase g with rho := ⟨fun _ => r, fun _ => r, fun _ => r, fun _ => r⟩ }

/-- A disc of radius one half on the first cell of `rowGrid`, which is its only solid
cell. -/
def solidDisc : ImmersedBoundaryObject :=
  { shape := Shape2D.circle ⟨⟨0, 0⟩, 1 / 2⟩, velocity := driftVelocity, solidCells_ := [0] }

/-- The scalars of a body that moves at the normal speed `2^600` without acceleration:
boundary density 1, boundary pressure 0, boundary at distance one half. -/
def fastBody : ExtensionCollaborators :=
  { ubn := fun _ _ => IeeeScalar.finite (2 ^ 600)
    abn := fun _ _ => IeeeScalar.finite 0
    rhob := fun _ _ _ => IeeeScalar.finite 1
    pb := fun _ _ _ => IeeeScalar.finite 0
    dist := fun _ _ => IeeeScalar.finite (1 / 2) }

/-- The scalars of a body at rest, for the same cell. -/
def restingBody : ExtensionCollaborators :=
  { fastBody with ubn := fun _ _ => IeeeScalar.finite 0 }

/-- The support points of cell `0` of `starBoundary`: five cell centroids and the
boundary point below the cell. -/
def starPoints : List Point2D :=
  [⟨1, 0⟩, ⟨-1, 0⟩, ⟨0, 1⟩, ⟨1, 1⟩, ⟨-1, 1⟩, ⟨0, -(1 / 2)⟩]

/-- The design matrix of `starPoints`, written out. -/
def starDesign : Matrix (Fin 6) (Fin 6) Scalar :=
  !![1, 0, 0, 1, 0, 1;
     1, 0, 0, -1, 0, 1;
     0, 1, 0, 0, 1, 1;
     1, 1, 1, 1, 1, 1;
     1, 1, -1, -1, 1, 1;
     0, 1/4, 0, 0, -(1/2), 1]

/-- The inverse of the design matrix of `starPoints`. -/
def starInverse : Matrix (Fin 6) (Fin 6) Scalar :=
  !![0, 0, -1, 1/2, 1/2, 0;
     -1, -1, -(4/3), 1, 1, 4/3;
     -(1/2), 1/2, 0, 1/2, -(1/2), 0;
     1/2, -(1/2), 0, 0, 0, 0;
     1/2, 1/2, 4/3, -(1/2), -(1/2), -(4/3);
     1/2, 1/2, 1, -(1/2), -(1/2), 0]

/-- A pure-spring model with all four parameters equal to one. -/
def unitCollision : CollisionModel := ⟨1, 1, 1, 1⟩

/-- The grid `rowGrid` with one wall patch: a face below the first cell. -/
def walledGrid : FiniteVolumeGrid2D :=
  { rowGrid with patches := [[⟨⟨0, -(1 / 2)⟩, 0, 0⟩]] }

end ParPhase

end

/-! # Theorems -/

namespace ParPhase

namespace Vector2D

@[simp]
theorem add_x (u v : Vector2D) : (u + v).x = u.x + v.x := rfl

@[simp]
theorem add_y (u v : Vector2D) : (u + v).y = u.y + v.y := rfl

@[simp]
theorem sub_x (u v : Vector2D) : (u - v).x = u.x - v.x := rfl

@[simp]
theorem sub_y (u v : Vector2D) : (u - v).y = u.y - v.y := rfl

@[simp]
theorem neg_x (v : Vector2D) : (-v).x = -v.x := rfl

@[simp]
theorem neg_y (v : Vector2D) : (-v).y = -v.y := rfl

@[simp]
theorem mul_scalar_x (v : Vector2D) (s : Scalar) : (v * s).x = v.x * s := rfl

@[simp]
theorem mul_scalar_y (v : Vector2D) (s : Scalar) : (v * s).y = v.y * s := rfl

@[simp]
theorem scalar_mul_x (s : Scalar) (v : Vector2D) : (s * v).x = v.x * s := rfl

@[simp]
theorem scalar_mul_y (s : Scalar) (v : Vector2D) : (s * v).y = v.y * s := rfl

@[simp]
theorem div_scalar_x (v : Vector2D) (s : Scalar) : (v / s).x = v.x / s := rfl

@[simp]
theorem div_scalar_y (v : Vector2D) (s : Scalar) : (v / s).y = v.y / s := rfl

@[simp]
theorem zero_x : (0 : Vector2D).x = 0 := rfl

@[simp]
theorem zero_y : (0 : Vector2D).y = 0 := rfl

theorem mag_nonneg (v : Vector2D) : 0 ≤ v.mag := Real.sqrt_nonneg _

theorem mag_mul_self (v : Vector2D) : v.mag * v.mag = v.x * v.x + v.y * v.y :=
  Real.mul_self_sqrt (add_nonneg (mul_self_nonneg _) (mul_self_nonneg _))

/-- The distance between `(a, 0)` and the origin is `a` when `a` is not negative. -/
theorem mag_horizontal (a : Scalar) (ha : 0 ≤ a) :
    ((⟨a, 0⟩ : Vector2D) - ⟨0, 0⟩).mag = a := by
  simp only [mag, sub_x, sub_y, sub_zero, mul_zero, add_zero]
  exact Real.sqrt_mul_self ha

end Vector2D

end ParPhase

namespace ParPhase

/-- C5. For each of the three pair-force models and every pair of circular bodies whose
centre distance exceeds `r1 + r2 + range_particle`, `force(P, Q)` returns exactly the
zero vector, whatever the velocities and the stiffness, damping or viscosity are. -/
theorem pair_force_zero_beyond_range (xp xq : Point2D) (r1 r2 : Scalar)
    (vP vQ : Point2D → Vector2D) (range eps epsW rangeW k eta kW etaW mu : Scalar)
    (hd : (xp - xq).mag > r1 + r2 + range) :
    CollisionModel.force ⟨eps, range, epsW, rangeW⟩ (circleBody xp r1 vP)
        (circleBody xq r2 vQ) = Except.ok ⟨0, 0⟩
    ∧ SoftSphereCollisionModel.force ⟨k, eta, range, kW, etaW, rangeW⟩
        (circleBody xp r1 vP) (circleBody xq r2 vQ) = Except.ok ⟨0, 0⟩
    ∧ LubricationCorrection.force ⟨mu, range, rangeW⟩ (circleBody xp r1 vP)
        (circleBody xq r2 vQ) = Except.ok ⟨0, 0⟩ := by
  refine ⟨?_, ?_, ?_⟩
  · simp only [CollisionModel.force, circleBody, Circle.centroid, Circle.radius]
    rw [if_pos hd]
  · simp only [SoftSphereCollisionModel.force, circleBody, Circle.centroid, Circle.radius]
    rw [if_pos hd]
  · simp only [LubricationCorrection.force, circleBody, Circle.centroid, Circle.radius]
    rw [if_pos hd]

/-- Witness of C5: unit circles four apart with range one. -/
theorem pair_force_zero_beyond_range_witness :
    CollisionModel.force ⟨1, 1, 1, 1⟩ (circleBody ⟨4, 0⟩ 1 spinAboutOrigin)
        (circleBody ⟨0, 0⟩ 1 driftVelocity) = Except.ok ⟨0, 0⟩
    ∧ SoftSphereCollisionModel.force ⟨1, 1, 1, 1, 1, 1⟩
        (circleBody ⟨4, 0⟩ 1 spinAboutOrigin) (circleBody ⟨0, 0⟩ 1 driftVelocity)
        = Except.ok ⟨0, 0⟩
    ∧ LubricationCorrection.force ⟨1, 1, 1⟩ (circleBody ⟨4, 0⟩ 1 spinAboutOrigin)
        (circleBody ⟨0, 0⟩ 1 driftVelocity) = Except.ok ⟨0, 0⟩ :=
  pair_force_zero_beyond_range ⟨4, 0⟩ ⟨0, 0⟩ 1 1 spinAboutOrigin driftVelocity
    1 1 1 1 1 1 1 1 1 (by
      rw [Vector2D.mag_horizontal 4 (by norm_num)]
      norm_num)

end ParPhase

namespace ParPhase

/-- Closed form of the lubrication force of the turning-circle configuration inside
the range: the logarithmic terms carry the integer factor zero. -/
theorem lubricationForceY_eq (d : Scalar) (h0 : 0 ≤ d) (h3 : d ≤ 3) :
    lubricationForceY d = d * (3 * Real.pi) * (1 / (4 * (3 - d)) - 1 / 4) := by
  have hmag : ((⟨d, 0⟩ : Vector2D) - ⟨0, 0⟩).mag = d := Vector2D.mag_horizontal d h0
  have hnot : ¬ (d > 1 + 1 + 1) := by linarith
  simp only [lubricationForceY, unitLubrication, LubricationCorrection.force, circleBody,
    Circle.centroid, Circle.radius, hmag, spinAboutOrigin, if_neg hnot,
    Vector2D.mul_scalar_y, Vector2D.scalar_mul_y, Vector2D.sub_y]
  norm_num
  ring

end ParPhase

namespace ParPhase

/-- Inside the last half unit before the cutoff the lubrication force of the
turning-circle configuration stays above one. -/
theorem lubricationForceY_large (d : Scalar) (h1 : 5 / 2 < d) (h3 : d < 3) :
    1 < lubricationForceY d := by
  rw [lubricationForceY_eq d (by linarith) h3.le]
  have hpos : 0 < 3 - d := by linarith
  have hlam : 1 / 4 ≤ 1 / (4 * (3 - d)) - 1 / 4 := by
    have : 1 / 2 ≤ 1 / (4 * (3 - d)) := by
      rw [div_le_div_iff₀ (by norm_num) (by positivity)]
      linarith
    linarith
  have hpi : 3 < Real.pi := Real.pi_gt_three
  have hfac : 4 ≤ d * (3 * Real.pi) := by nlinarith
  nlinarith

/-- C6, evaluated on the code. Unit circles, range one, viscosity one, body `P`
turning about the centre of `Q`: as the centre separation `d` approaches the cutoff
`r1 + r2 + range_particle = 3` from below, the force returned by
`LubricationCorrection::force` does not tend to zero (it stays above one on the last
half unit, because the coefficient is evaluated at the distance to the cutoff and
not at the gap between the surfaces). -/
theorem lubrication_force_not_vanishing_at_cutoff :
    ¬ Filter.Tendsto lubricationForceY (nhdsWithin 3 (Set.Iio 3)) (nhds 0) := by
  intro h
  have hsmall : ∀ᶠ d in nhdsWithin (3 : ℝ) (Set.Iio 3), lubricationForceY d < 1 :=
    h.eventually (gt_mem_nhds (by norm_num : (0 : ℝ) < 1))
  have hnear : ∀ᶠ d in nhdsWithin (3 : ℝ) (Set.Iio 3), d ∈ Set.Ioo (5 / 2 : ℝ) 3 :=
    Ioo_mem_nhdsWithin_Iio (by constructor <;> norm_num)
  obtain ⟨d, hd1, hd2⟩ := (hsmall.and hnear).exists
  exact absurd (lubricationForceY_large d hd2.1 hd2.2) (not_lt.mpr hd1.le)

end ParPhase

namespace ParPhase

/-- C7, evaluated on the code. Unit circles at rest touching at distance two, range
four, stiffness one: the overlap is `r1 + r2 + range_particle - d = 4`, the claimed
force is `4 ^ (3/2) * n = (8, 0)`, and `SoftSphereCollisionModel::force` returns
`(4, 0)`, because the exponent `3/2` is an integer division and equals one. -/
theorem softSphere_force_exponent_is_one :
    (unitSoftSphere 4).force (circleBody ⟨2, 0⟩ 1 restVelocity)
        (circleBody ⟨0, 0⟩ 1 restVelocity) = Except.ok ⟨4, 0⟩
    ∧ ((1 : ℝ) * (1 + 1 + 4 - 2) ^ ((3 : ℝ) / 2)) * (((⟨2, 0⟩ : Vector2D) - ⟨0, 0⟩) / (2 : ℝ))
        = (⟨8, 0⟩ : Vector2D) := by
  have hmag : ((⟨2, 0⟩ : Vector2D) - ⟨0, 0⟩).mag = 2 := Vector2D.mag_horizontal 2 (by norm_num)
  have hnot : ¬ ((2 : ℝ) > 1 + 1 + 4) := by norm_num
  constructor
  · simp only [unitSoftSphere, SoftSphereCollisionModel.force, circleBody, Circle.centroid,
      Circle.radius, hmag, restVelocity, if_neg hnot]
    congr 1
    ext <;> (simp; try norm_num)
  · have h8 : ((1 : ℝ) + 1 + 4 - 2) ^ ((3 : ℝ) / 2) = 8 := by
      have h4 : ((1 : ℝ) + 1 + 4 - 2) = 2 ^ (2 : ℝ) := by norm_num
      rw [h4, ← Real.rpow_mul (by norm_num)]
      norm_num
    rw [h8]
    ext <;> simp

/-- C8, evaluated on the code. Body `P` at rest, body `Q` drifting with velocity
`(1, 0)`, unit circles at distance two, range one, `k = eta = 1`: the claimed damping
part is `eta * (v_P - v_Q) = (-1, 0)`, but `SoftSphereCollisionModel::force` returns
`(1, 0)`, the same value as when `Q` is at rest, because the velocity `vq` is read
from body `P`. -/
theorem softSphere_force_ignores_velocity_of_Q :
    (unitSoftSphere 1).force (circleBody ⟨2, 0⟩ 1 restVelocity)
        (circleBody ⟨0, 0⟩ 1 driftVelocity) = Except.ok ⟨1, 0⟩
    ∧ (unitSoftSphere 1).force (circleBody ⟨2, 0⟩ 1 restVelocity)
        (circleBody ⟨0, 0⟩ 1 restVelocity) = Except.ok ⟨1, 0⟩
    ∧ (1 : ℝ) * (restVelocity ⟨2, 0⟩ - driftVelocity ⟨0, 0⟩) = (⟨-1, 0⟩ : Vector2D) := by
  have hmag : ((⟨2, 0⟩ : Vector2D) - ⟨0, 0⟩).mag = 2 := Vector2D.mag_horizontal 2 (by norm_num)
  have hnot : ¬ ((2 : ℝ) > 1 + 1 + 1) := by norm_num
  refine ⟨?_, ?_, ?_⟩
  · simp only [unitSoftSphere, SoftSphereCollisionModel.force, circleBody, Circle.centroid,
      Circle.radius, hmag, restVelocity, if_neg hnot]
    congr 1
    ext <;> (simp; try norm_num)
  · simp only [unitSoftSphere, SoftSphereCollisionModel.force, circleBody, Circle.centroid,
      Circle.radius, hmag, restVelocity, if_neg hnot]
    congr 1
    ext <;> (simp; try norm_num)
  · ext <;> simp [restVelocity, driftVelocity]

end ParPhase

namespace ParPhase

/-- C9 as stated fails. Unit circles, range one, `e = 1` (so `d = 2`), `k = eta = 1`,
body `P` turning about the centre of `Q`: the force is `(1, 2)`, which is not parallel
to the line of centres `(2, 0)`. -/
theorem softSphere_scenarioA_not_parallel :
    (0 : ℝ) < 1 ∧ (1 : ℝ) < 1 + 1 + 1
    ∧ ((⟨2, 0⟩ : Vector2D) - ⟨0, 0⟩).mag = 1 + 1 + 1 - 1
    ∧ 0 < (unitSoftSphere 1).k_particle_
    ∧ (unitSoftSphere 1).force (circleBody ⟨2, 0⟩ 1 spinAboutOrigin)
        (circleBody ⟨0, 0⟩ 1 restVelocity) = Except.ok ⟨1, 2⟩
    ∧ Vector2D.cross ⟨1, 2⟩ ((⟨2, 0⟩ : Vector2D) - ⟨0, 0⟩) ≠ 0 := by
  have hmag : ((⟨2, 0⟩ : Vector2D) - ⟨0, 0⟩).mag = 2 := Vector2D.mag_horizontal 2 (by norm_num)
  have hnot : ¬ ((2 : ℝ) > 1 + 1 + 1) := by norm_num
  refine ⟨by norm_num, by norm_num, by rw [hmag]; norm_num, by simp [unitSoftSphere], ?_, ?_⟩
  · simp only [unitSoftSphere, SoftSphereCollisionModel.force, circleBody, Circle.centroid,
      Circle.radius, hmag, spinAboutOrigin, if_neg hnot]
    congr 1
    ext <;> (simp; try norm_num)
  · simp [Vector2D.cross]

/-- C9, amended. Two circular bodies at centre separation
`d = r1 + r2 + range_particle - e` with `0 < e < r1 + r2 + range_particle` and
`k_particle > 0`, the damping term being absent (`eta_particle = 0`, or both bodies at
rest): `SoftSphereCollisionModel::force(P, Q)` is returned, is not the zero vector, is
parallel to the line of centres `xp - xq`, and is repulsive on `P`. -/
theorem softSphere_scenarioA_inside_range (m : SoftSphereCollisionModel)
    (P Q : ImmersedBoundaryObject) (c1 c2 : Circle) (e : Scalar)
    (hP : P.shape = Shape2D.circle c1) (hQ : Q.shape = Shape2D.circle c2)
    (he0 : 0 < e) (he : e < c1.radius + c2.radius + m.range_particle_)
    (hd : (c1.centroid - c2.centroid).mag = c1.radius + c2.radius + m.range_particle_ - e)
    (hk : 0 < m.k_particle_)
    (hdamp : m.eta_particle_ = 0 ∨ (AtRest P ∧ AtRest Q)) :
    ∃ f : Vector2D, m.force P Q = Except.ok f ∧ f ≠ ⟨0, 0⟩
      ∧ Vector2D.cross f (c1.centroid - c2.centroid) = 0
      ∧ 0 < Vector2D.dot f (c1.centroid - c2.centroid) := by
  set w : Vector2D := c1.centroid - c2.centroid with hw
  have hdpos : 0 < w.mag := by rw [hd]; linarith
  have hnot : ¬ (w.mag > c1.radius + c2.radius + m.range_particle_) := by rw [hd]; linarith
  have hov : c1.radius + c2.radius + m.range_particle_ - w.mag = e := by rw [hd]; ring
  have hdampx : (P.velocity c1.centroid - P.velocity c2.centroid).x * m.eta_particle_ = 0 := by
    rcases hdamp with h | h
    · rw [h, mul_zero]
    · simp [h.1 c1.centroid, h.1 c2.centroid]
  have hdampy : (P.velocity c1.centroid - P.velocity c2.centroid).y * m.eta_particle_ = 0 := by
    rcases hdamp with h | h
    · rw [h, mul_zero]
    · simp [h.1 c1.centroid, h.1 c2.centroid]
  have hsq := Vector2D.mag_mul_self w
  have hne : w.mag ≠ 0 := hdpos.ne'
  have hforce : m.force P Q = Except.ok ((m.k_particle_ * e ^ (3 / 2 : ℕ)) * (w / w.mag)
      + m.eta_particle_ * (P.velocity c1.centroid - P.velocity c2.centroid)) := by
    simp only [SoftSphereCollisionModel.force, hP, hQ]
    rw [← hw, if_neg hnot, hov]
  have hdot : Vector2D.dot ((m.k_particle_ * e ^ (3 / 2 : ℕ)) * (w / w.mag)
      + m.eta_particle_ * (P.velocity c1.centroid - P.velocity c2.centroid)) w
      = m.k_particle_ * e * w.mag := by
    simp only [Vector2D.dot, Vector2D.add_x, Vector2D.add_y, Vector2D.scalar_mul_x,
      Vector2D.scalar_mul_y, Vector2D.div_scalar_x, Vector2D.div_scalar_y, hdampx, hdampy]
    norm_num
    field_simp
    rw [mul_assoc (m.k_particle_ * e), hsq]
    ring
  have hdotpos : 0 < m.k_particle_ * e * w.mag := by positivity
  refine ⟨_, hforce, ?_, ?_, ?_⟩
  · intro h0
    rw [h0] at hdot
    simp only [Vector2D.dot, zero_mul, add_zero] at hdot
    linarith
  · simp only [Vector2D.cross, Vector2D.add_x, Vector2D.add_y, Vector2D.scalar_mul_x,
      Vector2D.scalar_mul_y, Vector2D.div_scalar_x, Vector2D.div_scalar_y, hdampx, hdampy]
    field_simp
    ring
  · rw [hdot]
    exact hdotpos

end ParPhase

namespace ParPhase

/-- Witness of the amended C9: unit circles at rest, range one, `e = 1`. -/
theorem softSphere_scenarioA_inside_range_witness :
    ∃ f : Vector2D, (unitSoftSphere 1).force (circleBody ⟨2, 0⟩ 1 restVelocity)
        (circleBody ⟨0, 0⟩ 1 restVelocity) = Except.ok f ∧ f ≠ ⟨0, 0⟩
      ∧ Vector2D.cross f ((⟨2, 0⟩ : Vector2D) - ⟨0, 0⟩) = 0
      ∧ 0 < Vector2D.dot f ((⟨2, 0⟩ : Vector2D) - ⟨0, 0⟩) :=
  softSphere_scenarioA_inside_range (unitSoftSphere 1) (circleBody ⟨2, 0⟩ 1 restVelocity)
    (circleBody ⟨0, 0⟩ 1 restVelocity) ⟨⟨2, 0⟩, 1⟩ ⟨⟨0, 0⟩, 1⟩ 1 rfl rfl (by norm_num)
    (by norm_num [Circle.radius, unitSoftSphere])
    (by
      show ((⟨2, 0⟩ : Vector2D) - ⟨0, 0⟩).mag = _
      rw [Vector2D.mag_horizontal 2 (by norm_num)]
      norm_num [Circle.radius, unitSoftSphere])
    (by norm_num [unitSoftSphere])
    (Or.inr ⟨fun _ => rfl, fun _ => rfl⟩)

/-- C10 as stated fails. Unit circles, range one, centre separation exactly
`r1 + r2 + range_particle = 3`, `k = eta = 1`, body `P` turning about the centre of
`Q`: the force is `(0, 3)`, not the zero vector. -/
theorem softSphere_boundary_force_not_zero :
    ((⟨3, 0⟩ : Vector2D) - ⟨0, 0⟩).mag = 1 + 1 + 1
    ∧ (unitSoftSphere 1).force (circleBody ⟨3, 0⟩ 1 spinAboutOrigin)
        (circleBody ⟨0, 0⟩ 1 restVelocity) = Except.ok ⟨0, 3⟩
    ∧ (⟨0, 3⟩ : Vector2D) ≠ ⟨0, 0⟩ := by
  have hmag : ((⟨3, 0⟩ : Vector2D) - ⟨0, 0⟩).mag = 3 := Vector2D.mag_horizontal 3 (by norm_num)
  have hnot : ¬ ((3 : ℝ) > 1 + 1 + 1) := by norm_num
  refine ⟨by rw [hmag]; norm_num, ?_, ?_⟩
  · simp only [unitSoftSphere, SoftSphereCollisionModel.force, circleBody, Circle.centroid,
      Circle.radius, hmag, spinAboutOrigin, if_neg hnot]
    congr 1
    ext <;> (simp; try norm_num)
  · intro h
    have := congrArg Vector2D.y h
    norm_num at this

/-- C10, amended. Two circular bodies at centre separation exactly
`d = r1 + r2 + range_particle`, with `d > 0` and the damping term absent
(`eta_particle = 0`, or both bodies at rest): `SoftSphereCollisionModel::force(P, Q)`
is the zero vector. -/
theorem softSphere_scenarioA_on_boundary (m : SoftSphereCollisionModel)
    (P Q : ImmersedBoundaryObject) (c1 c2 : Circle)
    (hP : P.shape = Shape2D.circle c1) (hQ : Q.shape = Shape2D.circle c2)
    (hd : (c1.centroid - c2.centroid).mag = c1.radius + c2.radius + m.range_particle_)
    (_hpos : 0 < c1.radius + c2.radius + m.range_particle_)
    (hdamp : m.eta_particle_ = 0 ∨ (AtRest P ∧ AtRest Q)) :
    m.force P Q = Except.ok ⟨0, 0⟩ := by
  have hnot : ¬ ((c1.centroid - c2.centroid).mag
      > c1.radius + c2.radius + m.range_particle_) := by rw [hd]; exact lt_irrefl _
  have hov : c1.radius + c2.radius + m.range_particle_ - (c1.centroid - c2.centroid).mag = 0 := by
    rw [hd]; ring
  simp only [SoftSphereCollisionModel.force, hP, hQ]
  rw [if_neg hnot, hov]
  congr 1
  rcases hdamp with h | h
  · ext <;> simp [h]
  · ext <;> simp [h.1 c1.centroid, h.1 c2.centroid]

/-- Witness of the amended C10: unit circles at rest at distance three, range one. -/
theorem softSphere_scenarioA_on_boundary_witness :
    (unitSoftSphere 1).force (circleBody ⟨3, 0⟩ 1 restVelocity)
        (circleBody ⟨0, 0⟩ 1 restVelocity) = Except.ok ⟨0, 0⟩ :=
  softSphere_scenarioA_on_boundary (unitSoftSphere 1) (circleBody ⟨3, 0⟩ 1 restVelocity)
    (circleBody ⟨0, 0⟩ 1 restVelocity) ⟨⟨3, 0⟩, 1⟩ ⟨⟨0, 0⟩, 1⟩ rfl rfl
    (by
      show ((⟨3, 0⟩ : Vector2D) - ⟨0, 0⟩).mag = _
      rw [Vector2D.mag_horizontal 3 (by norm_num)]
      norm_num [Circle.radius, unitSoftSphere])
    (by norm_num [Circle.radius, unitSoftSphere])
    (Or.inr ⟨fun _ => rfl, fun _ => rfl⟩)

end ParPhase

namespace ParPhase

/-- After the loop of `markCells` a cell of the group carries the new status and every
other cell keeps its old one. -/
theorem markCells_apply (cells : CellGroup) (status : CellStatus)
    (field : Label → CellStatus) (c : Label) :
    markCells cells status field c = if c ∈ cells then status else field c := by
  unfold markCells
  induction cells generalizing field with
  | nil => simp
  | cons a rest ih =>
    rw [List.foldl_cons, ih]
    by_cases hc : c ∈ rest
    · simp [hc]
    · by_cases hca : c = a
      · subst hca
        simp [hc]
      · simp [hc, hca, Function.update_noteq hca]

/-- C2 as stated fails. Two discs on three cells in a row: the second cell is an IB
cell of the first disc and a SOLID cell of the second, so after `updateCells` it is in
both accumulated sets, and its status is SOLID although it is in the IB set. -/
theorem updateCells_sets_overlap :
    twoDiscs.updateCells.ibCells_ = [1, 0, 2]
    ∧ twoDiscs.updateCells.solidCells_ = [0, 1]
    ∧ 1 ∈ twoDiscs.updateCells.ibCells_
    ∧ 1 ∈ twoDiscs.updateCells.solidCells_
    ∧ twoDiscs.updateCells.cellStatus_ 1 = CellStatus.SOLID_CELLS := by
  have hib : twoDiscs.updateCells.ibCells_ = [1, 0, 2] := by
    simp [DirectForcingImmersedBoundary.updateCells, twoDiscs, classifyBody, circleBody,
      ImmersedBoundaryObject.clear, ImmersedBoundaryObject.cellsWithin,
      ImmersedBoundaryObject.outerPerimeterCells, ImmersedBoundaryObject.isInIb,
      Circle.isInside, Vector2D.magSqr, rowGrid, CellGroup.add, List.filter]
    norm_num
  have hsolid : twoDiscs.updateCells.solidCells_ = [0, 1] := by
    simp [DirectForcingImmersedBoundary.updateCells, twoDiscs, classifyBody, circleBody,
      ImmersedBoundaryObject.clear, ImmersedBoundaryObject.cellsWithin,
      ImmersedBoundaryObject.outerPerimeterCells, ImmersedBoundaryObject.isInIb,
      Circle.isInside, Vector2D.magSqr, rowGrid, CellGroup.add, List.filter]
    norm_num
  refine ⟨hib, hsolid, by rw [hib]; decide, by rw [hsolid]; decide, ?_⟩
  have hst : twoDiscs.updateCells.cellStatus_ 1
      = markCells twoDiscs.updateCells.solidCells_ CellStatus.SOLID_CELLS
          (markCells twoDiscs.updateCells.ibCells_ CellStatus.IB_CELLS
            (fun _ => CellStatus.FLUID_CELLS)) 1 := rfl
  rw [hst, markCells_apply, hsolid]
  simp

/-- C2, amended. After `updateCells`, for any number of immersed bodies, the status
field gives every cell exactly one class: SOLID iff the cell is in the accumulated
solid set, IB iff it is in the accumulated IB set and not in the solid set, FLUID iff
it is in neither set. -/
theorem updateCells_status_classes (ib : DirectForcingImmersedBoundary) (c : Label) :
    (ib.updateCells.cellStatus_ c = CellStatus.SOLID_CELLS ↔ c ∈ ib.updateCells.solidCells_)
    ∧ (ib.updateCells.cellStatus_ c = CellStatus.IB_CELLS
        ↔ c ∈ ib.updateCells.ibCells_ ∧ c ∉ ib.updateCells.solidCells_)
    ∧ (ib.updateCells.cellStatus_ c = CellStatus.FLUID_CELLS
        ↔ c ∉ ib.updateCells.ibCells_ ∧ c ∉ ib.updateCells.solidCells_) := by
  have hst : ib.updateCells.cellStatus_ c
      = markCells ib.updateCells.solidCells_ CellStatus.SOLID_CELLS
          (markCells ib.updateCells.ibCells_ CellStatus.IB_CELLS
            (fun _ => CellStatus.FLUID_CELLS)) c := rfl
  rw [hst, markCells_apply, markCells_apply]
  by_cases hs : c ∈ ib.updateCells.solidCells_
  · simp [hs]
  · by_cases hi : c ∈ ib.updateCells.ibCells_
    · simp [hs, hi]
    · simp [hs, hi]

end ParPhase

namespace ParPhase

/-- C1, evaluated on the code. With a corrector solve that returns `3/2` in the fluid
cell `0`, the phase indicator left by
`FractionalStepDirectForcingMultiphase::solveGammaEqn` in that cell is `3/2`: no clamp
to `[0, 1]` follows the corrector solve. -/
theorem solveGammaEqn_keeps_overshoot :
    0 ∈ ([0] : CellGroup)
    ∧ (solveGammaEqn overshootingSolves [0] zeroPhase 1).gamma_.cells 0 = 3 / 2
    ∧ ¬ ((solveGammaEqn overshootingSolves [0] zeroPhase 1).gamma_.cells 0 ≤ 1) := by
  have h : (solveGammaEqn overshootingSolves [0] zeroPhase 1).gamma_.cells 0 = 3 / 2 := rfl
  refine ⟨by simp, h, ?_⟩
  rw [h]
  norm_num

end ParPhase

namespace ParPhase

/-- The cell loop either meets a cell whose body throws, and ends with the exception
of such a cell, or meets none and returns an equation. -/
theorem forEachCell_result
    (step : Label → FiniteVolumeEquation → Except Exception FiniteVolumeEquation)
    (bad : Label → Prop) (err : Label → Exception)
    (hbad : ∀ c eqn, bad c → step c eqn = Except.error (err c))
    (hgood : ∀ c eqn, ¬ bad c → ∃ eqn1, step c eqn = Except.ok eqn1)
    (cells : List Label) (eqn : FiniteVolumeEquation) :
    (∃ c ∈ cells, bad c ∧ forEachCell step cells eqn = Except.error (err c))
    ∨ ((∀ c ∈ cells, ¬ bad c) ∧ ∃ eqn1, forEachCell step cells eqn = Except.ok eqn1) := by
  induction cells generalizing eqn with
  | nil => exact Or.inr ⟨by simp, eqn, rfl⟩
  | cons a rest ih =>
    by_cases ha : bad a
    · left
      refine ⟨a, by simp, ha, ?_⟩
      simp only [forEachCell, hbad a eqn ha]
    · obtain ⟨eqn1, h1⟩ := hgood a eqn ha
      rcases ih eqn1 with ⟨c, hc, hcb, hce⟩ | ⟨hall, eqn2, h2⟩
      · left
        refine ⟨c, List.mem_cons_of_mem a hc, hcb, ?_⟩
        simp only [forEachCell, h1, hce]
      · right
        refine ⟨?_, eqn2, ?_⟩
        · intro c hc
          rcases List.mem_cons.mp hc with rfl | hc
          · exact ha
          · exact hall c hc
        · simp only [forEachCell, h1, h2]

/-- The body of the cell loop of the first overload throws exactly at the IB cells
with fewer than six support points. -/
theorem forcingRow_result (grid : FiniteVolumeGrid2D) (q : ForcingCollaborators)
    (ibCells solidCells : CellGroup) (u : Label → Vector2D) (timeStep : Scalar)
    (c : Label) (eqn : FiniteVolumeEquation) :
    (c ∈ ibCells ∧ (ibStencil grid q ibCells solidCells c).stCells.length
        + (ibStencil grid q ibCells solidCells c).compatPts.length < 6
      → forcingRow grid q ibCells solidCells u timeStep c eqn
          = Except.error (notEnoughCells grid c))
    ∧ (¬ (c ∈ ibCells ∧ (ibStencil grid q ibCells solidCells c).stCells.length
        + (ibStencil grid q ibCells solidCells c).compatPts.length < 6)
      → ∃ eqn1, forcingRow grid q ibCells solidCells u timeStep c eqn = Except.ok eqn1) := by
  constructor
  · rintro ⟨hc, hlt⟩
    simp only [forcingRow, if_pos hc, if_pos hlt]
  · intro h
    by_cases hc : c ∈ ibCells
    · have hlt : ¬ ((ibStencil grid q ibCells solidCells c).stCells.length
          + (ibStencil grid q ibCells solidCells c).compatPts.length < 6) := fun hlt => h ⟨hc, hlt⟩
      simp only [forcingRow, if_pos hc, if_neg hlt]
      exact ⟨_, rfl⟩
    · by_cases hs : c ∈ solidCells
      · simp only [forcingRow, if_neg hc, if_pos hs]
        exact ⟨_, rfl⟩
      · simp only [forcingRow, if_neg hc, if_neg hs]
        exact ⟨_, rfl⟩

/-- The body of the cell loop of the overload with `rho` throws exactly at the IB
cells with fewer than six support points. -/
theorem forcingRowRho_result (grid : FiniteVolumeGrid2D) (q : ForcingCollaborators)
    (ibCells solidCells : CellGroup) (rho : Label → Scalar) (u : Label → Vector2D)
    (timeStep : Scalar) (c : Label) (eqn : FiniteVolumeEquation) :
    (c ∈ ibCells ∧ (ibStencil grid q ibCells solidCells c).stCells.length
        + (ibStencil grid q ibCells solidCells c).compatPts.length < 6
      → forcingRowRho grid q ibCells solidCells rho u timeStep c eqn
          = Except.error (notEnoughCells grid c))
    ∧ (¬ (c ∈ ibCells ∧ (ibStencil grid q ibCells solidCells c).stCells.length
        + (ibStencil grid q ibCells solidCells c).compatPts.length < 6)
      → ∃ eqn1, forcingRowRho grid q ibCells solidCells rho u timeStep c eqn
          = Except.ok eqn1) := by
  constructor
  · rintro ⟨hc, hlt⟩
    simp only [forcingRowRho, if_pos hc, if_pos hlt]
  · intro h
    by_cases hc : c ∈ ibCells
    · have hlt : ¬ ((ibStencil grid q ibCells solidCells c).stCells.length
          + (ibStencil grid q ibCells solidCells c).compatPts.length < 6) := fun hlt => h ⟨hc, hlt⟩
      simp only [forcingRowRho, if_pos hc, if_neg hlt]
      exact ⟨_, rfl⟩
    · by_cases hs : c ∈ solidCells
      · simp only [forcingRowRho, if_neg hc, if_pos hs]
        exact ⟨_, rfl⟩
      · simp only [forcingRowRho, if_neg hc, if_neg hs]
        exact ⟨_, rfl⟩

/-- Either outcome of the first overload: the exception of a local IB cell with fewer
than six support points, or a solved field when there is no such cell. -/
theorem computeForcingTerm_outcome (ib : DirectForcingImmersedBoundary)
    (q : ForcingCollaborators) (u : Label → Vector2D) (timeStep : Scalar)
    (fib : Label → Vector2D) :
    (∃ c, ib.IsLocalIbCell c ∧ ib.supportCount q c < 6
        ∧ ib.computeForcingTerm q u timeStep fib = Except.error (notEnoughCells ib.grid_ c))
    ∨ ((∀ c, ib.IsLocalIbCell c → 6 ≤ ib.supportCount q c)
        ∧ ∃ f, ib.computeForcingTerm q u timeStep fib = Except.ok f) := by
  rcases forEachCell_result
      (forcingRow ib.grid_ q (ib.grid_.globalCellGroup ib.ibCells_)
        (ib.grid_.globalCellGroup ib.solidCells_) u timeStep)
      (fun c => c ∈ ib.grid_.globalCellGroup ib.ibCells_ ∧ ib.supportCount q c < 6)
      (notEnoughCells ib.grid_)
      (fun c eqn => (forcingRow_result ib.grid_ q _ _ u timeStep c eqn).1)
      (fun c eqn => (forcingRow_result ib.grid_ q _ _ u timeStep c eqn).2)
      ib.grid_.localCells FiniteVolumeEquation.empty with
    ⟨c, hc, ⟨hib, hlt⟩, he⟩ | ⟨hall, eqn1, h1⟩
  · left
    refine ⟨c, ⟨hc, hib⟩, hlt, ?_⟩
    simp only [DirectForcingImmersedBoundary.computeForcingTerm, he]
  · right
    refine ⟨?_, ?_⟩
    · intro c hc
      by_contra hlt
      exact hall c hc.1 ⟨hc.2, not_le.mp hlt⟩
    · simp only [DirectForcingImmersedBoundary.computeForcingTerm, h1]
      exact ⟨_, rfl⟩

/-- Either outcome of the overload with `rho`, as for the first overload. -/
theorem computeForcingTermRho_outcome (ib : DirectForcingImmersedBoundary)
    (q : ForcingCollaborators) (rho : Label → Scalar) (u : Label → Vector2D)
    (timeStep : Scalar) (fib : Label → Vector2D) :
    (∃ c, ib.IsLocalIbCell c ∧ ib.supportCount q c < 6
        ∧ ib.computeForcingTermRho q rho u timeStep fib
            = Except.error (notEnoughCells ib.grid_ c))
    ∨ ((∀ c, ib.IsLocalIbCell c → 6 ≤ ib.supportCount q c)
        ∧ ∃ f, ib.computeForcingTermRho q rho u timeStep fib = Except.ok f) := by
  rcases forEachCell_result
      (forcingRowRho ib.grid_ q (ib.grid_.globalCellGroup ib.ibCells_)
        (ib.grid_.globalCellGroup ib.solidCells_) rho u timeStep)
      (fun c => c ∈ ib.grid_.globalCellGroup ib.ibCells_ ∧ ib.supportCount q c < 6)
      (notEnoughCells ib.grid_)
      (fun c eqn => (forcingRowRho_result ib.grid_ q _ _ rho u timeStep c eqn).1)
      (fun c eqn => (forcingRowRho_result ib.grid_ q _ _ rho u timeStep c eqn).2)
      ib.grid_.localCells FiniteVolumeEquation.empty with
    ⟨c, hc, ⟨hib, hlt⟩, he⟩ | ⟨hall, eqn1, h1⟩
  · left
    refine ⟨c, ⟨hc, hib⟩, hlt, ?_⟩
    simp only [DirectForcingImmersedBoundary.computeForcingTermRho, he]
  · right
    refine ⟨?_, ?_⟩
    · intro c hc
      by_contra hlt
      exact hall c hc.1 ⟨hc.2, not_le.mp hlt⟩
    · simp only [DirectForcingImmersedBoundary.computeForcingTermRho, h1]
      exact ⟨_, rfl⟩

end ParPhase

namespace ParPhase

/-- C3. Both overloads of `DirectForcingImmersedBoundary::computeForcingTerm` raise
their error if and only if some local IB cell has fewer than six support points
(stencil cells plus compatibility points); the exception raised names the global id of
such a cell and the rank of the partition; a forcing field is solved for if and only
if every local IB cell has at least six support points. -/
theorem computeForcingTerm_error_iff (ib : DirectForcingImmersedBoundary)
    (q : ForcingCollaborators) (rho : Label → Scalar) (u : Label → Vector2D)
    (timeStep : Scalar) (fib : Label → Vector2D) :
    ((∃ e, ib.computeForcingTerm q u timeStep fib = Except.error e)
        ↔ ∃ c, ib.IsLocalIbCell c ∧ ib.supportCount q c < 6)
    ∧ ((∃ e, ib.computeForcingTermRho q rho u timeStep fib = Except.error e)
        ↔ ∃ c, ib.IsLocalIbCell c ∧ ib.supportCount q c < 6)
    ∧ (∀ e, (ib.computeForcingTerm q u timeStep fib = Except.error e
          ∨ ib.computeForcingTermRho q rho u timeStep fib = Except.error e)
        → ∃ c, ib.IsLocalIbCell c ∧ ib.supportCount q c < 6
          ∧ e.className = "DirectForcingImmersedBoundary" ∧ e.method = "computeForcingTerm"
          ∧ e.message = "not enough cells to perform velocity interpolation. Cell id = "
              ++ toString (ib.grid_.cell c).globalId ++ ", proc = " ++ toString ib.grid_.rank)
    ∧ ((∃ f, ib.computeForcingTerm q u timeStep fib = Except.ok f)
        ↔ ∀ c, ib.IsLocalIbCell c → 6 ≤ ib.supportCount q c)
    ∧ ((∃ f, ib.computeForcingTermRho q rho u timeStep fib = Except.ok f)
        ↔ ∀ c, ib.IsLocalIbCell c → 6 ≤ ib.supportCount q c) := by
  have h1 := computeForcingTerm_outcome ib q u timeStep fib
  have h2 := computeForcingTermRho_outcome ib q rho u timeStep fib
  refine ⟨?_, ?_, ?_, ?_, ?_⟩
  · constructor
    · rintro ⟨e, he⟩
      rcases h1 with ⟨c, hc, hlt, _⟩ | ⟨_, f, hf⟩
      · exact ⟨c, hc, hlt⟩
      · rw [hf] at he
        cases he
    · rintro ⟨c, hc, hlt⟩
      rcases h1 with ⟨c1, _, _, he⟩ | ⟨hall, _⟩
      · exact ⟨_, he⟩
      · exact absurd (hall c hc) (not_le.mpr hlt)
  · constructor
    · rintro ⟨e, he⟩
      rcases h2 with ⟨c, hc, hlt, _⟩ | ⟨_, f, hf⟩
      · exact ⟨c, hc, hlt⟩
      · rw [hf] at he
        cases he
    · rintro ⟨c, hc, hlt⟩
      rcases h2 with ⟨c1, _, _, he⟩ | ⟨hall, _⟩
      · exact ⟨_, he⟩
      · exact absurd (hall c hc) (not_le.mpr hlt)
  · rintro e (he | he)
    · rcases h1 with ⟨c, hc, hlt, hc1⟩ | ⟨_, f, hf⟩
      · rw [hc1] at he
        cases he
        exact ⟨c, hc, hlt, rfl, rfl, rfl⟩
      · rw [hf] at he
        cases he
    · rcases h2 with ⟨c, hc, hlt, hc1⟩ | ⟨_, f, hf⟩
      · rw [hc1] at he
        cases he
        exact ⟨c, hc, hlt, rfl, rfl, rfl⟩
      · rw [hf] at he
        cases he
  · constructor
    · rintro ⟨f, hf⟩
      rcases h1 with ⟨c, _, _, he⟩ | ⟨hall, _⟩
      · rw [he] at hf
        cases hf
      · exact hall
    · intro hall
      rcases h1 with ⟨c, hc, hlt, _⟩ | ⟨_, hf⟩
      · exact absurd (hall c hc) (not_le.mpr hlt)
      · exact hf
  · constructor
    · rintro ⟨f, hf⟩
      rcases h2 with ⟨c, _, _, he⟩ | ⟨hall, _⟩
      · rw [he] at hf
        cases hf
      · exact hall
    · intro hall
      rcases h2 with ⟨c, hc, hlt, _⟩ | ⟨_, hf⟩
      · exact absurd (hall c hc) (not_le.mpr hlt)
      · exact hf

end ParPhase

namespace ParPhase

open Matrix

/-- A matrix has at most one pseudo-inverse. -/
theorem IsPseudoInverse.unique {m n : ℕ} {A : Matrix (Fin m) (Fin n) Scalar}
    {X Y : Matrix (Fin n) (Fin m) Scalar} (hX : IsPseudoInverse A X)
    (hY : IsPseudoInverse A Y) : X = Y := by
  obtain ⟨x1, x2, x3, x4⟩ := hX
  obtain ⟨y1, y2, y3, y4⟩ := hY
  have hAX : A * X = A * Y := by
    calc A * X = (A * X).transpose := x3.symm
      _ = ((A * Y * A) * X).transpose := by rw [y1]
      _ = (A * X).transpose * (A * Y).transpose := by
        rw [Matrix.mul_assoc (A * Y) A X, Matrix.transpose_mul]
      _ = A * X * (A * Y) := by rw [x3, y3]
      _ = A * X * A * Y := by simp only [Matrix.mul_assoc]
      _ = A * Y := by rw [x1]
  have hXA : X * A = Y * A := by
    calc X * A = (X * A).transpose := x4.symm
      _ = (X * (A * Y * A)).transpose := by rw [y1]
      _ = (Y * A).transpose * (X * A).transpose := by
        rw [show X * (A * Y * A) = (X * A) * (Y * A) by simp only [Matrix.mul_assoc],
          Matrix.transpose_mul]
      _ = Y * A * (X * A) := by rw [x4, y4]
      _ = Y * (A * X * A) := by simp only [Matrix.mul_assoc]
      _ = Y * A := by rw [x1]
  calc X = X * A * X := x2.symm
    _ = Y * A * X := by rw [hXA]
    _ = Y * (A * X) := by rw [Matrix.mul_assoc]
    _ = Y * (A * Y) := by rw [hAX]
    _ = Y * A * Y := by rw [Matrix.mul_assoc]
    _ = Y := y2

/-- Any matrix that satisfies the four Penrose equations is the value of
`pseudoInverse`. -/
theorem pseudoInverse_eq {m n : ℕ} {A : Matrix (Fin m) (Fin n) Scalar}
    {X : Matrix (Fin n) (Fin m) Scalar} (hX : IsPseudoInverse A X) : pseudoInverse A = X :=
  IsPseudoInverse.unique (Classical.epsilon_spec ⟨X, hX⟩) hX

/-- A square matrix of full rank is invertible. -/
theorem isUnit_of_rank_eq {n : ℕ} (G : Matrix (Fin n) (Fin n) Scalar) (h : G.rank = n) :
    IsUnit G := by
  rw [← Matrix.mulVec_injective_iff_isUnit]
  have hsurj : Function.Surjective G.mulVecLin := by
    rw [← LinearMap.range_eq_top]
    apply Submodule.eq_top_of_finrank_eq
    have : Module.finrank ℝ (LinearMap.range G.mulVecLin) = n := h
    rw [this]
    simp
  exact LinearMap.injective_iff_surjective.mpr hsurj

/-- For a matrix of full column rank the pseudo-inverse is a left inverse. -/
theorem pseudoInverse_mul_self {m n : ℕ} (A : Matrix (Fin m) (Fin n) Scalar)
    (h : A.rank = n) : pseudoInverse A * A = 1 := by
  have hG : IsUnit (A.transpose * A) := by
    apply isUnit_of_rank_eq
    rw [Matrix.rank_transpose_mul_self, h]
  have hdet : IsUnit (A.transpose * A).det := (Matrix.isUnit_iff_isUnit_det _).mp hG
  have hinv : (A.transpose * A)⁻¹ * (A.transpose * A) = 1 := Matrix.nonsing_inv_mul _ hdet
  have hsymm : ((A.transpose * A)⁻¹).transpose = (A.transpose * A)⁻¹ := by
    rw [Matrix.transpose_nonsing_inv, Matrix.transpose_mul, Matrix.transpose_transpose]
  have hXA : (A.transpose * A)⁻¹ * A.transpose * A = 1 := by
    rw [Matrix.mul_assoc, hinv]
  have hX : IsPseudoInverse A ((A.transpose * A)⁻¹ * A.transpose) := by
    refine ⟨?_, ?_, ?_, ?_⟩
    · rw [Matrix.mul_assoc, hXA, Matrix.mul_one]
    · rw [hXA, Matrix.one_mul]
    · rw [Matrix.transpose_mul, Matrix.transpose_mul, Matrix.transpose_transpose, hsymm,
        Matrix.mul_assoc]
    · rw [hXA, Matrix.transpose_one]
  rw [pseudoInverse_eq hX, hXA]

end ParPhase

namespace ParPhase

/-- With a design matrix of full column rank the weights reproduce every polynomial
of the quadratic basis at the point they were built for. -/
theorem interpolate_basis_combination (pts : List Point2D) (x : Point2D)
    (c : Fin 6 → Scalar) (h : (designMatrix pts).rank = 6) :
    interpolate pts x (fun p => ∑ j, quadraticBasis p j * c j)
      = ∑ j, quadraticBasis x j * c j := by
  have hXA := pseudoInverse_mul_self (designMatrix pts) h
  have hsum : interpolate pts x (fun p => ∑ j, quadraticBasis p j * c j)
      = ∑ j, (beta pts x * designMatrix pts) 0 j * c j := by
    simp only [interpolate, Matrix.mul_apply, designMatrix, Matrix.of_apply, Finset.mul_sum,
      Finset.sum_mul]
    rw [Finset.sum_comm]
    refine Finset.sum_congr rfl (fun j _ => Finset.sum_congr rfl (fun i _ => ?_))
    ring
  rw [hsum, beta, Matrix.mul_assoc, hXA, Matrix.mul_one]
  simp only [Matrix.of_apply]

/-- The test field is the combination `x^2 + 2 xy + y` of the basis. -/
theorem testField_eq_combination (p : Point2D) :
    testField p = ∑ j, quadraticBasis p j * (![1, 0, 2, 0, 1, 0] : Fin 6 → Scalar) j := by
  simp [testField, quadraticBasis, Fin.sum_univ_succ]
  ring

end ParPhase

namespace ParPhase

/-- Entry `3` of a vector literal of length six. -/
theorem vecCons_three {α : Type} (a b c d : α) (u : Fin 2 → α) :
    Matrix.vecCons a (Matrix.vecCons b (Matrix.vecCons c (Matrix.vecCons d u))) (3 : Fin 6) = d :=
  rfl

/-- Entry `4` of a vector literal of length six. -/
theorem vecCons_four {α : Type} (a b c d e : α) (u : Fin 1 → α) :
    Matrix.vecCons a (Matrix.vecCons b (Matrix.vecCons c (Matrix.vecCons d (Matrix.vecCons e u))))
      (4 : Fin 6) = e :=
  rfl

/-- Entry `5` of a vector literal of length six. -/
theorem vecCons_five {α : Type} (a b c d e f : α) (u : Fin 0 → α) :
    Matrix.vecCons a (Matrix.vecCons b (Matrix.vecCons c (Matrix.vecCons d (Matrix.vecCons e
      (Matrix.vecCons f u))))) (5 : Fin 6) = f :=
  rfl

/-- The design matrix of `axisPoints`, entry by entry. -/
theorem designMatrix_axisPoints :
    (designMatrix axisPoints : Matrix (Fin 6) (Fin 6) Scalar) = axisDesign := by
  have h3 : ((3 : Fin 6) : ℕ) = 3 := rfl
  have h4 : ((4 : Fin 6) : ℕ) = 4 := rfl
  have h5 : ((5 : Fin 6) : ℕ) = 5 := rfl
  ext i j
  fin_cases i <;> fin_cases j <;>
    simp [designMatrix, axisPoints, axisDesign, quadraticBasis, h3, h4, h5, vecCons_three,
      vecCons_four, vecCons_five, -Matrix.cons_val'] <;>
    norm_num

/-- First Penrose equation for `axisDesign` and `axisPseudoInverse`. -/
theorem axis_penrose_one : axisDesign * axisPseudoInverse * axisDesign = axisDesign := by
  ext i j
  fin_cases i <;> fin_cases j <;>
    simp only [axisDesign, axisPseudoInverse, Matrix.mul_apply, Fin.sum_univ_six,
      Matrix.of_apply, Matrix.transpose_apply, Matrix.cons_val_zero, Matrix.cons_val_one,
      Matrix.cons_val_two, Matrix.head_cons, Matrix.tail_cons, vecCons_three, vecCons_four,
      vecCons_five, Fin.zero_eta, Fin.mk_one, Fin.reduceFinMk] <;>
    norm_num

/-- Second Penrose equation for `axisDesign` and `axisPseudoInverse`. -/
theorem axis_penrose_two :
    axisPseudoInverse * axisDesign * axisPseudoInverse = axisPseudoInverse := by
  ext i j
  fin_cases i <;> fin_cases j <;>
    simp only [axisDesign, axisPseudoInverse, Matrix.mul_apply, Fin.sum_univ_six,
      Matrix.of_apply, Matrix.transpose_apply, Matrix.cons_val_zero, Matrix.cons_val_one,
      Matrix.cons_val_two, Matrix.head_cons, Matrix.tail_cons, vecCons_three, vecCons_four,
      vecCons_five, Fin.zero_eta, Fin.mk_one, Fin.reduceFinMk] <;>
    norm_num

/-- Third Penrose equation for `axisDesign` and `axisPseudoInverse`. -/
theorem axis_penrose_three :
    (axisDesign * axisPseudoInverse).transpose = axisDesign * axisPseudoInverse := by
  ext i j
  fin_cases i <;> fin_cases j <;>
    simp only [axisDesign, axisPseudoInverse, Matrix.mul_apply, Fin.sum_univ_six,
      Matrix.of_apply, Matrix.transpose_apply, Matrix.cons_val_zero, Matrix.cons_val_one,
      Matrix.cons_val_two, Matrix.head_cons, Matrix.tail_cons, vecCons_three, vecCons_four,
      vecCons_five, Fin.zero_eta, Fin.mk_one, Fin.reduceFinMk] <;>
    norm_num

/-- Fourth Penrose equation for `axisDesign` and `axisPseudoInverse`. -/
theorem axis_penrose_four :
    (axisPseudoInverse * axisDesign).transpose = axisPseudoInverse * axisDesign := by
  ext i j
  fin_cases i <;> fin_cases j <;>
    simp only [axisDesign, axisPseudoInverse, Matrix.mul_apply, Fin.sum_univ_six,
      Matrix.of_apply, Matrix.transpose_apply, Matrix.cons_val_zero, Matrix.cons_val_one,
      Matrix.cons_val_two, Matrix.head_cons, Matrix.tail_cons, vecCons_three, vecCons_four,
      vecCons_five, Fin.zero_eta, Fin.mk_one, Fin.reduceFinMk] <;>
    norm_num

/-- The matrix `axisPseudoInverse` is the pseudo-inverse of the design matrix of
`axisPoints`. -/
theorem pseudoInverse_axisPoints :
    (pseudoInverse (designMatrix axisPoints) : Matrix (Fin 6) (Fin 6) Scalar)
      = axisPseudoInverse := by
  apply pseudoInverse_eq
  show @IsPseudoInverse 6 6 (designMatrix axisPoints) axisPseudoInverse
  rw [designMatrix_axisPoints]
  exact ⟨axis_penrose_one, axis_penrose_two, axis_penrose_three, axis_penrose_four⟩

end ParPhase

namespace ParPhase

/-- The weight row built on `axisPoints` for the centroid `(1, 1)`. -/
theorem beta_axisPoints :
    (beta axisPoints ⟨1, 1⟩ : Matrix (Fin 1) (Fin 6) Scalar)
      = Matrix.of (fun _ _ => (1 : Scalar)) * axisPseudoInverse := by
  have hb : (Matrix.of (fun (_ : Fin 1) j => quadraticBasis ⟨1, 1⟩ j) : Matrix (Fin 1) (Fin 6) Scalar)
      = Matrix.of (fun _ _ => (1 : Scalar)) := by
    ext i j
    fin_cases j <;>
      simp [quadraticBasis, vecCons_three, vecCons_four, vecCons_five]
  show Matrix.of (fun (_ : Fin 1) j => quadraticBasis ⟨1, 1⟩ j)
      * (pseudoInverse (designMatrix axisPoints) : Matrix (Fin 6) (Fin 6) Scalar) = _
  rw [pseudoInverse_axisPoints, hb]

/-- C4 as stated fails. Six support points on the two coordinate axes pass the check
of six support points, but their design matrix has rank five (the column of `xy` is
zero); for an IB cell with centroid `(1, 1)` the value interpolated from the samples of
`f(x, y) = x^2 + 2xy + y` is `2`, while `f(1, 1) = 4`. -/
theorem interpolation_inexact_on_axisPoints :
    6 ≤ axisPoints.length
    ∧ interpolate axisPoints ⟨1, 1⟩ testField = 2
    ∧ testField ⟨1, 1⟩ = 4 := by
  have h3 : ((3 : Fin 6) : ℕ) = 3 := rfl
  have h4 : ((4 : Fin 6) : ℕ) = 4 := rfl
  have h5 : ((5 : Fin 6) : ℕ) = 5 := rfl
  refine ⟨by simp [axisPoints], ?_, by simp [testField]; norm_num⟩
  show (∑ i : Fin 6, (beta axisPoints ⟨1, 1⟩ : Matrix (Fin 1) (Fin 6) Scalar) 0 i
      * testField (axisPoints.get i)) = 2
  rw [beta_axisPoints, Fin.sum_univ_six]
  simp only [axisPseudoInverse, Matrix.mul_apply, Fin.sum_univ_six,
    Matrix.of_apply, Matrix.cons_val_zero, Matrix.cons_val_one,
    Matrix.cons_val_two, Matrix.head_cons, Matrix.tail_cons, vecCons_three, vecCons_four,
    vecCons_five]
  simp [axisPoints, testField, h3, h4, h5]
  norm_num

end ParPhase

namespace ParPhase

/-- C4, amended. For every IB cell whose design matrix `A` (rows
`{x^2, y^2, xy, x, y, 1}` at its support points) has full column rank 6, with the
weights `beta = basis(centroid) * pseudoInverse(A)` built by `computeForcingTerm`: if
`f(x, y) = x^2 + 2xy + y` is sampled at every support point, the interpolated value
`sum_i beta_i * f(support_i)` equals `f` at the centroid of the cell. -/
theorem interpolation_exact_on_testField (pts : List Point2D) (x : Point2D)
    (h : (designMatrix pts).rank = 6) :
    interpolate pts x testField = testField x := by
  have hf : testField
      = fun p => ∑ j, quadraticBasis p j * (![1, 0, 2, 0, 1, 0] : Fin 6 → Scalar) j :=
    funext testField_eq_combination
  rw [testField_eq_combination x, hf]
  exact interpolate_basis_combination pts x _ h

/-- The design matrix of `latticePoints`, entry by entry. -/
theorem designMatrix_latticePoints :
    (designMatrix latticePoints : Matrix (Fin 6) (Fin 6) Scalar) = latticeDesign := by
  have h3 : ((3 : Fin 6) : ℕ) = 3 := rfl
  have h4 : ((4 : Fin 6) : ℕ) = 4 := rfl
  have h5 : ((5 : Fin 6) : ℕ) = 5 := rfl
  ext i j
  fin_cases i <;> fin_cases j <;>
    simp [designMatrix, latticePoints, latticeDesign, quadraticBasis, h3, h4, h5,
      vecCons_three, vecCons_four, vecCons_five, -Matrix.cons_val']

/-- The matrix `latticeInverse` is a left inverse of `latticeDesign`. -/
theorem latticeInverse_mul : latticeInverse * latticeDesign = 1 := by
  ext i j
  fin_cases i <;> fin_cases j <;>
    simp only [latticeInverse, latticeDesign, Matrix.mul_apply, Fin.sum_univ_six,
      Matrix.of_apply, Matrix.cons_val_zero, Matrix.cons_val_one, Matrix.cons_val_two,
      Matrix.head_cons, Matrix.tail_cons, vecCons_three, vecCons_four, vecCons_five,
      Fin.zero_eta, Fin.mk_one, Fin.reduceFinMk] <;>
    norm_num [Matrix.one_apply, Fin.ext_iff]

/-- The design matrix of `latticePoints` has full column rank. -/
theorem rank_designMatrix_latticePoints : (designMatrix latticePoints).rank = 6 := by
  show Matrix.rank (designMatrix latticePoints : Matrix (Fin 6) (Fin 6) Scalar) = 6
  rw [designMatrix_latticePoints,
    Matrix.rank_of_isUnit _ (Matrix.isUnit_of_left_inverse latticeInverse_mul)]
  simp

/-- Witness of the amended C4: the six points of `latticePoints` and the centroid
`(1/2, 1/2)`. -/
theorem interpolation_exact_on_testField_witness :
    interpolate latticePoints ⟨1 / 2, 1 / 2⟩ testField = testField ⟨1 / 2, 1 / 2⟩ :=
  interpolation_exact_on_testField latticePoints ⟨1 / 2, 1 / 2⟩
    rank_designMatrix_latticePoints

end ParPhase

namespace ParPhase

/-- C13. For two circular bodies with `d <= r1 + r2 + range_particle` and
`eps_particle > 0`, the pure-spring `CollisionModel::force(P, Q)` is a non-negative
multiple of `xp - xq`, is the same whatever the velocity fields of the two bodies are,
and is the zero vector when `d = r1 + r2 + range_particle`. -/
theorem collision_force_pure_spring (m : CollisionModel) (xp xq : Point2D) (r1 r2 : Scalar)
    (vP vQ : Point2D → Vector2D)
    (hd : (xp - xq).mag ≤ r1 + r2 + m.range_particle_) (heps : 0 < m.eps_particle_) :
    (∃ t : Scalar, 0 ≤ t
        ∧ m.force (circleBody xp r1 vP) (circleBody xq r2 vQ) = Except.ok ((xp - xq) * t))
    ∧ (∀ wP wQ : Point2D → Vector2D,
        m.force (circleBody xp r1 wP) (circleBody xq r2 wQ)
          = m.force (circleBody xp r1 vP) (circleBody xq r2 vQ))
    ∧ ((xp - xq).mag = r1 + r2 + m.range_particle_
        → m.force (circleBody xp r1 vP) (circleBody xq r2 vQ) = Except.ok ⟨0, 0⟩) := by
  have hnot : ¬ ((xp - xq).mag > r1 + r2 + m.range_particle_) := not_lt.mpr hd
  have hforce : ∀ wP wQ : Point2D → Vector2D,
      m.force (circleBody xp r1 wP) (circleBody xq r2 wQ)
        = Except.ok ((xp - xq) / m.eps_particle_
            * (r1 + r2 + m.range_particle_ - (xp - xq).mag) ^ (2 : ℕ)) := by
    intro wP wQ
    simp only [CollisionModel.force, circleBody, Circle.centroid, Circle.radius]
    rw [if_neg hnot]
  refine ⟨⟨(r1 + r2 + m.range_particle_ - (xp - xq).mag) ^ (2 : ℕ) / m.eps_particle_, ?_, ?_⟩,
    ?_, ?_⟩
  · positivity
  · rw [hforce]
    congr 1
    ext
    · simp only [Vector2D.mul_scalar_x, Vector2D.div_scalar_x]
      ring
    · simp only [Vector2D.mul_scalar_y, Vector2D.div_scalar_y]
      ring
  · intro wP wQ
    rw [hforce, hforce]
  · intro hEq
    rw [hforce, hEq]
    congr 1
    ext <;> simp

/-- Witness of C13: unit circles at distance two, range one, `eps_particle = 1`. -/
theorem collision_force_pure_spring_witness :
    (∃ t : Scalar, 0 ≤ t
        ∧ CollisionModel.force ⟨1, 1, 1, 1⟩ (circleBody ⟨2, 0⟩ 1 spinAboutOrigin)
            (circleBody ⟨0, 0⟩ 1 driftVelocity)
          = Except.ok (((⟨2, 0⟩ : Vector2D) - ⟨0, 0⟩) * t))
    ∧ (∀ wP wQ : Point2D → Vector2D,
        CollisionModel.force ⟨1, 1, 1, 1⟩ (circleBody ⟨2, 0⟩ 1 wP) (circleBody ⟨0, 0⟩ 1 wQ)
          = CollisionModel.force ⟨1, 1, 1, 1⟩ (circleBody ⟨2, 0⟩ 1 spinAboutOrigin)
              (circleBody ⟨0, 0⟩ 1 driftVelocity))
    ∧ (((⟨2, 0⟩ : Vector2D) - ⟨0, 0⟩).mag = 1 + 1 + (1 : Scalar)
        → CollisionModel.force ⟨1, 1, 1, 1⟩ (circleBody ⟨2, 0⟩ 1 spinAboutOrigin)
            (circleBody ⟨0, 0⟩ 1 driftVelocity) = Except.ok ⟨0, 0⟩) :=
  collision_force_pure_spring ⟨1, 1, 1, 1⟩ ⟨2, 0⟩ ⟨0, 0⟩ 1 1 spinAboutOrigin driftVelocity
    (by
      rw [Vector2D.mag_horizontal 2 (by norm_num)]
      norm_num)
    (by norm_num)

/-- C14. For each of the three models, `force(P, Q)` raises the unsupported-shape
error if and only if at least one of the two shapes is not a circle, and
`force(body, grid)` raises it if and only if the shape of the body is not a circle;
for circles a force vector is returned, and no other error is ever raised. -/
theorem force_unsupported_shape_iff (cm : CollisionModel) (sm : SoftSphereCollisionModel)
    (lm : LubricationCorrection) (P Q : ImmersedBoundaryObject) (grid : FiniteVolumeGrid2D) :
    ((cm.force P Q = Except.error unsupportedShape
        ↔ ¬ (P.shape.isCircle = true ∧ Q.shape.isCircle = true))
      ∧ ((∃ f, cm.force P Q = Except.ok f)
        ↔ (P.shape.isCircle = true ∧ Q.shape.isCircle = true)))
    ∧ ((sm.force P Q = Except.error unsupportedShape
        ↔ ¬ (P.shape.isCircle = true ∧ Q.shape.isCircle = true))
      ∧ ((∃ f, sm.force P Q = Except.ok f)
        ↔ (P.shape.isCircle = true ∧ Q.shape.isCircle = true)))
    ∧ ((lm.force P Q = Except.error unsupportedShape
        ↔ ¬ (P.shape.isCircle = true ∧ Q.shape.isCircle = true))
      ∧ ((∃ f, lm.force P Q = Except.ok f)
        ↔ (P.shape.isCircle = true ∧ Q.shape.isCircle = true)))
    ∧ ((cm.forceWall P grid = Except.error unsupportedShape ↔ ¬ P.shape.isCircle = true)
      ∧ ((∃ f, cm.forceWall P grid = Except.ok f) ↔ P.shape.isCircle = true))
    ∧ ((sm.forceWall P grid = Except.error unsupportedShape ↔ ¬ P.shape.isCircle = true)
      ∧ ((∃ f, sm.forceWall P grid = Except.ok f) ↔ P.shape.isCircle = true))
    ∧ ((lm.forceWall P grid = Except.error unsupportedShape ↔ ¬ P.shape.isCircle = true)
      ∧ ((∃ f, lm.forceWall P grid = Except.ok f) ↔ P.shape.isCircle = true)) := by
  obtain ⟨sP, vP, iP, soP⟩ := P
  obtain ⟨sQ, vQ, iQ, soQ⟩ := Q
  refine ⟨?_, ?_, ?_, ?_, ?_, ?_⟩
  · cases sP <;> cases sQ <;>
      simp [CollisionModel.force, Shape2D.isCircle, unsupportedShape]
  · cases sP <;> cases sQ <;>
      simp [SoftSphereCollisionModel.force, Shape2D.isCircle, unsupportedShape]
  · cases sP <;> cases sQ <;>
      simp [LubricationCorrection.force, Shape2D.isCircle, unsupportedShape]
  · cases sP <;> simp [CollisionModel.forceWall, Shape2D.isCircle, unsupportedShape]
  · cases sP <;> simp [SoftSphereCollisionModel.forceWall, Shape2D.isCircle, unsupportedShape]
  · cases sP <;> simp [LubricationCorrection.forceWall, Shape2D.isCircle, unsupportedShape]

end ParPhase

namespace ParPhase

/-- The distance between `xq + dir * d` and `xq` is `d` for a unit direction and a
separation that is not negative. -/
theorem mag_along_direction (xq dir : Point2D) (d : Scalar)
    (hdir : dir.x * dir.x + dir.y * dir.y = 1) (hd : 0 ≤ d) :
    (xq + dir * d - xq).mag = d := by
  simp only [Vector2D.mag, Vector2D.sub_x, Vector2D.sub_y, Vector2D.add_x, Vector2D.add_y,
    Vector2D.mul_scalar_x, Vector2D.mul_scalar_y]
  have h : (xq.x + dir.x * d - xq.x) * (xq.x + dir.x * d - xq.x)
      + (xq.y + dir.y * d - xq.y) * (xq.y + dir.y * d - xq.y) = d * d := by
    have : (xq.x + dir.x * d - xq.x) * (xq.x + dir.x * d - xq.x)
        + (xq.y + dir.y * d - xq.y) * (xq.y + dir.y * d - xq.y)
        = (dir.x * dir.x + dir.y * dir.y) * (d * d) := by ring
    rw [this, hdir, one_mul]
  rw [h]
  exact Real.sqrt_mul_self hd

/-- Inside the range the soft-sphere force is the spring part along the direction of
the centres plus the damping term. -/
theorem softSphereForceAt_inside (m : SoftSphereCollisionModel) (xq dir : Point2D)
    (r1 r2 : Scalar) (vP vQ : Point2D → Vector2D) (d : Scalar)
    (hdir : dir.x * dir.x + dir.y * dir.y = 1) (hd0 : 0 < d)
    (hd : d ≤ r1 + r2 + m.range_particle_) :
    softSphereForceAt m xq dir r1 r2 vP vQ d
      = ⟨dir.x * (m.k_particle_ * (r1 + r2 + m.range_particle_ - d))
          + (m.dampingTerm (circleBody (xq + dir * d) r1 vP) (xq + dir * d) xq).x,
        dir.y * (m.k_particle_ * (r1 + r2 + m.range_particle_ - d))
          + (m.dampingTerm (circleBody (xq + dir * d) r1 vP) (xq + dir * d) xq).y⟩ := by
  have hmag := mag_along_direction xq dir d hdir hd0.le
  have hnot : ¬ (d > r1 + r2 + m.range_particle_) := not_lt.mpr hd
  have hne : d ≠ 0 := hd0.ne'
  simp only [softSphereForceAt, SoftSphereCollisionModel.force, circleBody, Circle.centroid,
    Circle.radius, hmag, if_neg hnot, SoftSphereCollisionModel.dampingTerm]
  ext
  · simp only [Vector2D.add_x, Vector2D.scalar_mul_x, Vector2D.div_scalar_x, Vector2D.sub_x,
      Vector2D.mul_scalar_x]
    norm_num
    field_simp
  · simp only [Vector2D.add_y, Vector2D.scalar_mul_y, Vector2D.div_scalar_y, Vector2D.sub_y,
      Vector2D.mul_scalar_y]
    norm_num
    field_simp

/-- Beyond the range the soft-sphere force is the zero vector. -/
theorem softSphereForceAt_beyond (m : SoftSphereCollisionModel) (xq dir : Point2D)
    (r1 r2 : Scalar) (vP vQ : Point2D → Vector2D) (d : Scalar)
    (hdir : dir.x * dir.x + dir.y * dir.y = 1) (hd0 : 0 ≤ d)
    (hd : r1 + r2 + m.range_particle_ < d) :
    softSphereForceAt m xq dir r1 r2 vP vQ d = ⟨0, 0⟩ := by
  have hmag := mag_along_direction xq dir d hdir hd0
  simp only [softSphereForceAt, SoftSphereCollisionModel.force, circleBody, Circle.centroid,
    Circle.radius, hmag]
  rw [if_pos hd]

/-- The limit from below of a component of the soft-sphere force at the range
boundary is the limit of that component of the damping term. -/
theorem softSphere_component_limit (dirc k c : Scalar) (D F : Scalar → Scalar) (w : Scalar)
    (hc : 0 < c)
    (hF : ∀ d, 0 < d → d < c → F d = dirc * (k * (c - d)) + D d)
    (hD : Filter.Tendsto D (nhdsWithin c (Set.Iio c)) (nhds w)) :
    Filter.Tendsto F (nhdsWithin c (Set.Iio c)) (nhds w) := by
  have hspring : Filter.Tendsto (fun d : Scalar => dirc * (k * (c - d)))
      (nhdsWithin c (Set.Iio c)) (nhds 0) := by
    have hcont : Continuous (fun d : Scalar => dirc * (k * (c - d))) := by continuity
    have h0 : dirc * (k * (c - c)) = 0 := by simp
    have := hcont.tendsto c
    simp only [h0] at this
    exact tendsto_nhdsWithin_of_tendsto_nhds this
  have hsum := hspring.add hD
  rw [zero_add] at hsum
  refine hsum.congr' ?_
  have hnear : ∀ᶠ d in nhdsWithin c (Set.Iio c), d ∈ Set.Ioo (0 : Scalar) c :=
    Ioo_mem_nhdsWithin_Iio (by constructor <;> [exact hc; exact le_refl c])
  filter_upwards [hnear] with d hd
  exact (hF d hd.1 hd.2).symm

/-- C11 as stated fails. Unit circles at rest, range one, `k = 1`: as the centre
separation approaches the boundary `r1 + r2 + range_particle = 3` from below, both
components of the soft-sphere force tend to zero, the value beyond the boundary: the
spring part vanishes at the boundary, so without damping there is no step. -/
theorem softSphere_at_rest_continuous_at_boundary :
    (0 : Scalar) < 1 ∧ 0 < (unitSoftSphere 1).range_particle_
    ∧ 0 < (unitSoftSphere 1).k_particle_
    ∧ Filter.Tendsto
        (fun d => (softSphereForceAt (unitSoftSphere 1) ⟨0, 0⟩ ⟨1, 0⟩ 1 1 restVelocity
          restVelocity d).x) (nhdsWithin 3 (Set.Iio 3)) (nhds 0)
    ∧ Filter.Tendsto
        (fun d => (softSphereForceAt (unitSoftSphere 1) ⟨0, 0⟩ ⟨1, 0⟩ 1 1 restVelocity
          restVelocity d).y) (nhdsWithin 3 (Set.Iio 3)) (nhds 0) := by
  have hdir : (⟨1, 0⟩ : Point2D).x * (⟨1, 0⟩ : Point2D).x
      + (⟨1, 0⟩ : Point2D).y * (⟨1, 0⟩ : Point2D).y = 1 := by norm_num
  have hF : ∀ d : Scalar, 0 < d → d < 3 →
      softSphereForceAt (unitSoftSphere 1) ⟨0, 0⟩ ⟨1, 0⟩ 1 1 restVelocity restVelocity d
        = ⟨1 * (1 * (3 - d)) + 0, 0 * (1 * (3 - d)) + 0⟩ := by
    intro d h0 h3
    rw [softSphereForceAt_inside (unitSoftSphere 1) ⟨0, 0⟩ ⟨1, 0⟩ 1 1 restVelocity
      restVelocity d hdir h0 (by simp only [unitSoftSphere]; linarith)]
    simp only [SoftSphereCollisionModel.dampingTerm, unitSoftSphere, circleBody, restVelocity]
    ext <;> (simp; try ring)
  refine ⟨by norm_num, by norm_num [unitSoftSphere], by norm_num [unitSoftSphere], ?_, ?_⟩
  · exact softSphere_component_limit 1 1 3 (fun _ => 0) _ 0 (by norm_num)
      (fun d h0 h3 => by rw [hF d h0 h3]) tendsto_const_nhds
  · exact softSphere_component_limit 0 1 3 (fun _ => 0) _ 0 (by norm_num)
      (fun d h0 h3 => by rw [hF d h0 h3]) tendsto_const_nhds

/-- C11, amended. Two circular bodies with positive radii, positive range and
`k_particle > 0`, seen along a fixed unit direction as a function of the centre
separation `d`: if the damping term `eta_particle * (vp - vq)` tends to a vector `w`
other than zero as `d` approaches `r1 + r2 + range_particle` from below, then the
soft-sphere force tends to `w` there (the spring part tends to zero), while its value
for every `d` beyond the boundary is the zero vector: a step of size `w`. -/
theorem softSphere_step_at_boundary (m : SoftSphereCollisionModel) (xq dir : Point2D)
    (r1 r2 : Scalar) (vP vQ : Point2D → Vector2D) (w : Vector2D)
    (hr1 : 0 < r1) (hr2 : 0 < r2) (hrange : 0 < m.range_particle_)
    (_hk : 0 < m.k_particle_) (hdir : dir.x * dir.x + dir.y * dir.y = 1)
    (hwx : Filter.Tendsto
      (fun d => (m.dampingTerm (circleBody (xq + dir * d) r1 vP) (xq + dir * d) xq).x)
      (nhdsWithin (r1 + r2 + m.range_particle_) (Set.Iio (r1 + r2 + m.range_particle_)))
      (nhds w.x))
    (hwy : Filter.Tendsto
      (fun d => (m.dampingTerm (circleBody (xq + dir * d) r1 vP) (xq + dir * d) xq).y)
      (nhdsWithin (r1 + r2 + m.range_particle_) (Set.Iio (r1 + r2 + m.range_particle_)))
      (nhds w.y))
    (hw : w ≠ ⟨0, 0⟩) :
    Filter.Tendsto (fun d => (softSphereForceAt m xq dir r1 r2 vP vQ d).x)
        (nhdsWithin (r1 + r2 + m.range_particle_) (Set.Iio (r1 + r2 + m.range_particle_)))
        (nhds w.x)
    ∧ Filter.Tendsto (fun d => (softSphereForceAt m xq dir r1 r2 vP vQ d).y)
        (nhdsWithin (r1 + r2 + m.range_particle_) (Set.Iio (r1 + r2 + m.range_particle_)))
        (nhds w.y)
    ∧ w ≠ ⟨0, 0⟩
    ∧ ∀ d, r1 + r2 + m.range_particle_ < d
        → softSphereForceAt m xq dir r1 r2 vP vQ d = ⟨0, 0⟩ := by
  have hc : 0 < r1 + r2 + m.range_particle_ := by linarith
  refine ⟨?_, ?_, hw, ?_⟩
  · exact softSphere_component_limit dir.x m.k_particle_ _ _ _ w.x hc
      (fun d h0 h3 => by
        rw [softSphereForceAt_inside m xq dir r1 r2 vP vQ d hdir h0 h3.le]) hwx
  · exact softSphere_component_limit dir.y m.k_particle_ _ _ _ w.y hc
      (fun d h0 h3 => by
        rw [softSphereForceAt_inside m xq dir r1 r2 vP vQ d hdir h0 h3.le]) hwy
  · intro d hd
    exact softSphereForceAt_beyond m xq dir r1 r2 vP vQ d hdir (by linarith) hd

/-- Witness of the amended C11: unit circles, range one, `k = eta = 1`, body `P`
turning about the centre of `Q`; the damping term tends to `(0, 3)`. -/
theorem softSphere_step_at_boundary_witness :
    Filter.Tendsto
        (fun d => (softSphereForceAt (unitSoftSphere 1) ⟨0, 0⟩ ⟨1, 0⟩ 1 1 spinAboutOrigin
          restVelocity d).x)
        (nhdsWithin (1 + 1 + (unitSoftSphere 1).range_particle_)
          (Set.Iio (1 + 1 + (unitSoftSphere 1).range_particle_)))
        (nhds (⟨0, 3⟩ : Vector2D).x)
    ∧ Filter.Tendsto
        (fun d => (softSphereForceAt (unitSoftSphere 1) ⟨0, 0⟩ ⟨1, 0⟩ 1 1 spinAboutOrigin
          restVelocity d).y)
        (nhdsWithin (1 + 1 + (unitSoftSphere 1).range_particle_)
          (Set.Iio (1 + 1 + (unitSoftSphere 1).range_particle_)))
        (nhds (⟨0, 3⟩ : Vector2D).y)
    ∧ (⟨0, 3⟩ : Vector2D) ≠ ⟨0, 0⟩
    ∧ ∀ d, 1 + 1 + (unitSoftSphere 1).range_particle_ < d
        → softSphereForceAt (unitSoftSphere 1) ⟨0, 0⟩ ⟨1, 0⟩ 1 1 spinAboutOrigin
            restVelocity d = ⟨0, 0⟩ :=
  softSphere_step_at_boundary (unitSoftSphere 1) ⟨0, 0⟩ ⟨1, 0⟩ 1 1 spinAboutOrigin
    restVelocity ⟨0, 3⟩ (by norm_num) (by norm_num) (by norm_num [unitSoftSphere])
    (by norm_num [unitSoftSphere]) (by norm_num)
    (by
      have h : (fun d : Scalar => ((unitSoftSphere 1).dampingTerm
          (circleBody ((⟨0, 0⟩ : Point2D) + (⟨1, 0⟩ : Point2D) * d) 1 spinAboutOrigin)
          ((⟨0, 0⟩ : Point2D) + (⟨1, 0⟩ : Point2D) * d) ⟨0, 0⟩).x) = fun _ => 0 := by
        funext d
        simp [SoftSphereCollisionModel.dampingTerm, unitSoftSphere, circleBody,
          spinAboutOrigin]
      rw [h]
      exact tendsto_const_nhds)
    (by
      have h : (fun d : Scalar => ((unitSoftSphere 1).dampingTerm
          (circleBody ((⟨0, 0⟩ : Point2D) + (⟨1, 0⟩ : Point2D) * d) 1 spinAboutOrigin)
          ((⟨0, 0⟩ : Point2D) + (⟨1, 0⟩ : Point2D) * d) ⟨0, 0⟩).y) = fun d => d := by
        funext d
        simp [SoftSphereCollisionModel.dampingTerm, unitSoftSphere, circleBody,
          spinAboutOrigin]
      rw [h]
      have h3 : (1 : Scalar) + 1 + (unitSoftSphere 1).range_particle_ = 3 := by
        norm_num [unitSoftSphere]
      rw [h3]
      exact tendsto_nhdsWithin_of_tendsto_nhds (continuous_id.tendsto 3))
    (by
      intro h
      have := congrArg Vector2D.y h
      norm_num at this)

/-- C12, evaluated on the code. Unit circles, range one, viscosity one, body `P`
turning about the centre of `Q` (relative velocity `(0, d)`, not zero): as the gap
closes, `d -> r1 + r2 = 2` from above, the force returned by
`LubricationCorrection::force` tends to zero instead of growing without bound,
because the coefficient is evaluated at `(r1 + r2 + range_particle - d) / r_eff`,
which tends to the cutoff value `range_particle / r_eff`. -/
theorem lubrication_force_vanishes_at_contact :
    Filter.Tendsto lubricationForceY (nhdsWithin 2 (Set.Ioi 2)) (nhds 0) := by
  have hcont : ContinuousAt
      (fun d : Scalar => d * (3 * Real.pi) * (1 / (4 * (3 - d)) - 1 / 4)) 2 := by
    have hne : (4 : Scalar) * (3 - 2) ≠ 0 := by norm_num
    fun_prop (disch := assumption)
  have h0 : (2 : Scalar) * (3 * Real.pi) * (1 / (4 * (3 - 2)) - 1 / 4) = 0 := by norm_num
  have hlim := hcont.tendsto
  simp only [h0] at hlim
  refine (tendsto_nhdsWithin_of_tendsto_nhds hlim).congr' ?_
  have hnear : ∀ᶠ d in nhdsWithin (2 : Scalar) (Set.Ioi 2), d ∈ Set.Ioo (2 : Scalar) 3 :=
    Ioo_mem_nhdsWithin_Ioi (by constructor <;> norm_num)
  filter_upwards [hnear] with d hd
  exact (lubricationForceY_eq d (by linarith [hd.1]) hd.2.le).symm

end ParPhase

namespace ParPhase

/-- After the loop of `computeItems` an item of the list carries the value of `f` and
every other item keeps its old value. -/
theorem computeItems_apply {α : Type} (items : List Label) (f : Label → α)
    (field : Label → α) (i : Label) :
    computeItems items f field i = if i ∈ items then f i else field i := by
  unfold computeItems
  induction items generalizing field with
  | nil => simp
  | cons a rest ih =>
    rw [List.foldl_cons, ih]
    by_cases hc : i ∈ rest
    · simp [hc]
    · by_cases hia : i = a
      · subst hia
        simp [hc]
      · simp [hc, hia, Function.update_noteq hia]

/-- C15. After `FractionalStepDirectForcingMultiphase::updateProperties`, at every
cell and every face `x` of the fields, `rho(x) = rho1 + clamp(gamma(x), 0, 1) *
(rho2 - rho1)` and `mu(x) = rho(x) / (rho1/mu1 + clamp(gamma(x), 0, 1) *
(rho2/mu2 - rho1/mu1))`, whatever the value of `gamma(x)` is. -/
theorem updateProperties_blend (k : PhaseConstants) (env : PropertyCollaborators)
    (dom : FieldDomain) (st : PropertyState) (timeStep : Scalar) (x : Label) :
    (x ∈ dom.cells →
      (updateProperties k env dom st timeStep).rho_.cells x
          = k.rho1_ + clamp (st.gamma_.cells x) 0 1 * (k.rho2_ - k.rho1_)
      ∧ (updateProperties k env dom st timeStep).mu_.cells x
          = (updateProperties k env dom st timeStep).rho_.cells x
            / (k.rho1_ / k.mu1_
              + clamp (st.gamma_.cells x) 0 1 * (k.rho2_ / k.mu2_ - k.rho1_ / k.mu1_)))
    ∧ (x ∈ dom.faces →
      (updateProperties k env dom st timeStep).rho_.faces x
          = k.rho1_ + clamp (st.gamma_.faces x) 0 1 * (k.rho2_ - k.rho1_)
      ∧ (updateProperties k env dom st timeStep).mu_.faces x
          = (updateProperties k env dom st timeStep).rho_.faces x
            / (k.rho1_ / k.mu1_
              + clamp (st.gamma_.faces x) 0 1 * (k.rho2_ / k.mu2_ - k.rho1_ / k.mu1_)))
    ∧ (updateProperties k env dom st timeStep).gamma_ = st.gamma_ := by
  refine ⟨?_, ?_, rfl⟩
  · intro hx
    simp only [updateProperties, computeItems_apply, if_pos hx, and_self]
  · intro hx
    simp only [updateProperties, computeItems_apply, if_pos hx, and_self]

/-- Evaluation of C15 with `gamma = 3/2`, outside `[0, 1]`: on the two-cell domain
with water and air the density of cell `0` is `rho2 = 1` and its viscosity is
`mu2 = 1/50`. -/
theorem updateProperties_blend_overshoot :
    (updateProperties waterAir zeroOperators twoCellDomain (uniformPhase (3 / 2)) 1).rho_.cells 0
      = 1
    ∧ (updateProperties waterAir zeroOperators twoCellDomain (uniformPhase (3 / 2)) 1).mu_.cells 0
      = 1 / 50 := by
  have h := (updateProperties_blend waterAir zeroOperators twoCellDomain
    (uniformPhase (3 / 2)) 1 0).1 (by simp [twoCellDomain])
  have hc : clamp ((uniformPhase (3 / 2)).gamma_.cells 0) 0 1 = 1 := by
    simp only [clamp, uniformPhase]
    norm_num
  rw [hc] at h
  constructor
  · rw [h.1]
    norm_num [waterAir]
  · rw [h.2, h.1]
    norm_num [waterAir]

/-- C16. Scenario B: for positive `rho1`, `rho2`, `mu1`, `mu2`, if `gamma = 1` at
every cell and face, the gradient operator returns zero on a uniform density and the
reconstruction of cell values from face values returns zero on a zero face field, then
after `updateProperties` `rho = rho2`, `mu = mu2` and `sg` is the zero vector at every
cell and every face. -/
theorem updateProperties_uniform_phase2 (k : PhaseConstants) (env : PropertyCollaborators)
    (dom : FieldDomain) (st : PropertyState) (timeStep : Scalar)
    (_hrho1 : 0 < k.rho1_) (hrho2 : 0 < k.rho2_) (_hmu1 : 0 < k.mu1_) (hmu2 : 0 < k.mu2_)
    (hgc : ∀ c ∈ dom.cells, st.gamma_.cells c = 1)
    (hgf : ∀ f ∈ dom.faces, st.gamma_.faces f = 1)
    (hgrad : ∀ (rhoC rhoF : Label → Scalar) (r : Scalar), (∀ c ∈ dom.cells, rhoC c = r)
      → (∀ f ∈ dom.faces, rhoF f = r) → ∀ f ∈ dom.faces, env.gradRhoFaces rhoC rhoF f = ⟨0, 0⟩)
    (hrec : ∀ (w1 w2 : Label → Scalar) (F : Label → Vector2D),
      (∀ f ∈ dom.faces, F f = ⟨0, 0⟩) → ∀ c ∈ dom.cells, env.faceToCell w1 w2 F c = ⟨0, 0⟩) :
    (∀ c ∈ dom.cells,
      (updateProperties k env dom st timeStep).rho_.cells c = k.rho2_
      ∧ (updateProperties k env dom st timeStep).mu_.cells c = k.mu2_
      ∧ (updateProperties k env dom st timeStep).sgCells_ c = ⟨0, 0⟩)
    ∧ (∀ f ∈ dom.faces,
      (updateProperties k env dom st timeStep).rho_.faces f = k.rho2_
      ∧ (updateProperties k env dom st timeStep).mu_.faces f = k.mu2_
      ∧ (updateProperties k env dom st timeStep).sgFaces_ f = ⟨0, 0⟩) := by
  have hclamp : clamp 1 0 1 = 1 := by simp [clamp]
  have hrhoC : ∀ c ∈ dom.cells,
      (updateProperties k env dom st timeStep).rho_.cells c = k.rho2_ := by
    intro c hc
    simp only [updateProperties, computeItems_apply, if_pos hc, hgc c hc, hclamp]
    ring
  have hrhoF : ∀ f ∈ dom.faces,
      (updateProperties k env dom st timeStep).rho_.faces f = k.rho2_ := by
    intro f hf
    simp only [updateProperties, computeItems_apply, if_pos hf, hgf f hf, hclamp]
    ring
  have hmu : k.rho2_ / (k.rho1_ / k.mu1_ + 1 * (k.rho2_ / k.mu2_ - k.rho1_ / k.mu1_))
      = k.mu2_ := by
    have h2 : k.rho2_ ≠ 0 := hrho2.ne'
    have h3 : k.mu2_ ≠ 0 := hmu2.ne'
    have : k.rho1_ / k.mu1_ + 1 * (k.rho2_ / k.mu2_ - k.rho1_ / k.mu1_)
        = k.rho2_ / k.mu2_ := by ring
    rw [this]
    field_simp
  have hsgF : ∀ f ∈ dom.faces,
      (updateProperties k env dom st timeStep).sgFaces_ f = ⟨0, 0⟩ := by
    intro f hf
    have hg := hgrad (updateProperties k env dom st timeStep).rho_.cells
      (updateProperties k env dom st timeStep).rho_.faces k.rho2_ hrhoC hrhoF f hf
    have hF : (updateProperties k env dom st timeStep).sgFaces_ f
        = (-(Vector2D.dot k.g_ (dom.faceCentroid f)))
          * env.gradRhoFaces (updateProperties k env dom st timeStep).rho_.cells
              (updateProperties k env dom st timeStep).rho_.faces f := by
      simp only [updateProperties, computeItems_apply, if_pos hf]
    rw [hF, hg]
    ext <;> simp
  have hsgC : ∀ c ∈ dom.cells,
      (updateProperties k env dom st timeStep).sgCells_ c = ⟨0, 0⟩ := by
    intro c hc
    have hC : (updateProperties k env dom st timeStep).sgCells_ c
        = env.faceToCell (updateProperties k env dom st timeStep).rho_.cells
            (updateProperties k env dom st timeStep).rho_.cells
            (updateProperties k env dom st timeStep).sgFaces_ c := by
      simp only [updateProperties, computeItems_apply, if_pos hc]
    rw [hC]
    exact hrec _ _ _ hsgF c hc
  refine ⟨fun c hc => ⟨hrhoC c hc, ?_, hsgC c hc⟩, fun f hf => ⟨hrhoF f hf, ?_, hsgF f hf⟩⟩
  · have hr := hrhoC c hc
    have hm : (updateProperties k env dom st timeStep).mu_.cells c
        = (updateProperties k env dom st timeStep).rho_.cells c
          / (k.rho1_ / k.mu1_
            + clamp (st.gamma_.cells c) 0 1 * (k.rho2_ / k.mu2_ - k.rho1_ / k.mu1_)) := by
      simp only [updateProperties, computeItems_apply, if_pos hc]
    rw [hm, hr, hgc c hc, hclamp, hmu]
  · have hr := hrhoF f hf
    have hm : (updateProperties k env dom st timeStep).mu_.faces f
        = (updateProperties k env dom st timeStep).rho_.faces f
          / (k.rho1_ / k.mu1_
            + clamp (st.gamma_.faces f) 0 1 * (k.rho2_ / k.mu2_ - k.rho1_ / k.mu1_)) := by
      simp only [updateProperties, computeItems_apply, if_pos hf]
    rw [hm, hr, hgf f hf, hclamp, hmu]

/-- Witness of C16: water and air on the two-cell domain with `gamma = 1`. -/
theorem updateProperties_uniform_phase2_witness :
    (∀ c ∈ twoCellDomain.cells,
      (updateProperties waterAir zeroOperators twoCellDomain (uniformPhase 1) 1).rho_.cells c
        = waterAir.rho2_
      ∧ (updateProperties waterAir zeroOperators twoCellDomain (uniformPhase 1) 1).mu_.cells c
        = waterAir.mu2_
      ∧ (updateProperties waterAir zeroOperators twoCellDomain (uniformPhase 1) 1).sgCells_ c
        = ⟨0, 0⟩)
    ∧ (∀ f ∈ twoCellDomain.faces,
      (updateProperties waterAir zeroOperators twoCellDomain (uniformPhase 1) 1).rho_.faces f
        = waterAir.rho2_
      ∧ (updateProperties waterAir zeroOperators twoCellDomain (uniformPhase 1) 1).mu_.faces f
        = waterAir.mu2_
      ∧ (updateProperties waterAir zeroOperators twoCellDomain (uniformPhase 1) 1).sgFaces_ f
        = ⟨0, 0⟩) :=
  updateProperties_uniform_phase2 waterAir zeroOperators twoCellDomain (uniformPhase 1) 1
    (by norm_num [waterAir]) (by norm_num [waterAir]) (by norm_num [waterAir])
    (by norm_num [waterAir]) (fun _ _ => rfl) (fun _ _ => rfl)
    (fun _ _ _ _ _ _ _ => rfl) (fun _ _ _ _ _ _ => rfl)

end ParPhase

namespace ParPhase

/-- The clamp written with `std::max` and `std::min` in `FractionalStepMultiphase` is
`clamp(x, 0, 1)`. -/
theorem max_min_eq_clamp (x : Scalar) : max 0 (min 1 x) = clamp x 0 1 := by
  rw [clamp, min_comm]

/-- C17 as stated fails. With densities `1`, `2`, viscosities `1`, `4` and
`gamma = 1/2` in cell `0`, `computeRho` gives `rho = 3/2` and `computeMu` gives
`mu = 5/2`, while the harmonic blend through the kinematic viscosity gives
`(3/2) / (1 + (1/2) * (1/2 - 1)) = 2`. -/
theorem computeMu_not_harmonic :
    (computeMu unequalPhases oneCellGrid
      (computeRho unequalPhases zeroGradient oneCellGrid (uniformMultiphase (1 / 2)))).rho.cells 0
      = 3 / 2
    ∧ (computeMu unequalPhases oneCellGrid
      (computeRho unequalPhases zeroGradient oneCellGrid (uniformMultiphase (1 / 2)))).mu.cells 0
      = 5 / 2
    ∧ (3 / 2 : Scalar) / (unequalPhases.rho1_ / unequalPhases.mu1_
        + clamp (1 / 2) 0 1 * (unequalPhases.rho2_ / unequalPhases.mu2_
          - unequalPhases.rho1_ / unequalPhases.mu1_)) = 2
    ∧ (5 / 2 : Scalar) ≠ 2 := by
  have hm : max (0 : Scalar) (min 1 (1 / 2)) = 1 / 2 := by
    rw [min_eq_right (by norm_num), max_eq_right (by norm_num)]
  have hc : clamp (1 / 2) 0 1 = 1 / 2 := by
    rw [← max_min_eq_clamp, hm]
  refine ⟨?_, ?_, ?_, by norm_num⟩
  · simp only [computeMu, computeRho, computeItems_apply, oneCellGrid, uniformMultiphase,
      unequalPhases, List.mem_singleton, if_true, hm]
    norm_num
  · simp only [computeMu, computeRho, computeItems_apply, oneCellGrid, uniformMultiphase,
      unequalPhases, List.mem_singleton, if_true, hm]
    norm_num
  · rw [hc]
    norm_num [unequalPhases]

/-- C17, amended. `FractionalStepMultiphase::computeMu` blends viscosity linearly in
the clamped phase indicator: after `computeRho` and `computeMu`, at every cell and
face `x`, `mu(x) = (1 - g) * mu1 + g * mu2` and `rho(x) = (1 - g) * rho1 + g * rho2`
with `g = clamp(gamma(x), 0, 1)`. -/
theorem computeMu_linear_blend (k : PhaseConstants) (env : GradientCollaborators)
    (grid : MultiphaseGrid) (st : MultiphaseState) (x : Label) :
    (x ∈ grid.cells →
      (computeMu k grid (computeRho k env grid st)).mu.cells x
          = (1 - clamp (st.gamma.cells x) 0 1) * k.mu1_ + clamp (st.gamma.cells x) 0 1 * k.mu2_
      ∧ (computeMu k grid (computeRho k env grid st)).rho.cells x
          = (1 - clamp (st.gamma.cells x) 0 1) * k.rho1_
            + clamp (st.gamma.cells x) 0 1 * k.rho2_)
    ∧ (x ∈ grid.faces →
      (computeMu k grid (computeRho k env grid st)).mu.faces x
          = (1 - clamp (st.gamma.faces x) 0 1) * k.mu1_ + clamp (st.gamma.faces x) 0 1 * k.mu2_
      ∧ (computeMu k grid (computeRho k env grid st)).rho.faces x
          = (1 - clamp (st.gamma.faces x) 0 1) * k.rho1_
            + clamp (st.gamma.faces x) 0 1 * k.rho2_) := by
  constructor
  · intro hx
    simp only [computeMu, computeRho, computeItems_apply, if_pos hx, max_min_eq_clamp,
      and_self]
  · intro hx
    simp only [computeMu, computeRho, computeItems_apply, if_pos hx, max_min_eq_clamp,
      and_self]

/-- Evaluation of the amended C17 on the one-cell grid with `gamma = 1/2`: the
viscosity of the face is the mean `5/2` of `1` and `4`. -/
theorem computeMu_linear_blend_face :
    (computeMu unequalPhases oneCellGrid
      (computeRho unequalPhases zeroGradient oneCellGrid (uniformMultiphase (1 / 2)))).mu.faces 0
      = 5 / 2 := by
  have h := ((computeMu_linear_blend unequalPhases zeroGradient oneCellGrid
    (uniformMultiphase (1 / 2)) 0).2 (by simp [oneCellGrid])).1
  have hc : clamp ((uniformMultiphase (1 / 2)).gamma.faces 0) 0 1 = 1 / 2 := by
    simp only [clamp, uniformMultiphase]
    norm_num
  rw [h, hc]
  norm_num [unequalPhases]

end ParPhase

namespace ParPhase

/-- The sum of two zero vectors is the zero vector. -/
theorem Vector2D.zero_add_zero : (⟨0, 0⟩ : Vector2D) + ⟨0, 0⟩ = ⟨0, 0⟩ := by
  ext <;> simp

/-- A scalar multiple of the zero vector is the zero vector. -/
theorem Vector2D.scalar_mul_zero (s : Scalar) : s * (⟨0, 0⟩ : Vector2D) = ⟨0, 0⟩ := by
  ext <;> simp

/-- A property kept by every step of a left fold over the items of the list holds at
its end. -/
theorem foldl_invariant {α β : Type} (P : β → Prop) (f : β → α → β) (l : List α)
    (hf : ∀ b a, a ∈ l → P b → P (f b a)) (b : β) (hb : P b) : P (l.foldl f b) := by
  induction l generalizing b with
  | nil => exact hb
  | cons a rest ih =>
    exact ih (fun b1 a1 ha1 => hf b1 a1 (List.mem_cons_of_mem a ha1)) (f b a)
      (hf b a (List.mem_cons_self a rest) hb)

/-- A property of the equation kept by every cell body that returns is kept by the
cell loop. -/
theorem forEachCell_invariant
    (step : Label → FiniteVolumeEquation → Except Exception FiniteVolumeEquation)
    (P : FiniteVolumeEquation → Prop)
    (hstep : ∀ c eqn eqn1, P eqn → step c eqn = Except.ok eqn1 → P eqn1)
    (cells : List Label) (eqn eqn1 : FiniteVolumeEquation) (h : P eqn)
    (hres : forEachCell step cells eqn = Except.ok eqn1) : P eqn1 := by
  induction cells generalizing eqn with
  | nil =>
    simp only [forEachCell] at hres
    cases hres
    exact h
  | cons a rest ih =>
    simp only [forEachCell] at hres
    cases hs : step a eqn with
    | error e =>
      rw [hs] at hres
      cases hres
    | ok eqn2 =>
      rw [hs] at hres
      exact ih eqn2 (hstep a eqn eqn2 h hs) hres

/-- With bodies at rest every compatibility point of a stencil carries the zero
velocity. -/
theorem ibStencil_compat_zero (grid : FiniteVolumeGrid2D) (q : ForcingCollaborators)
    (ibCells solidCells : CellGroup) (cell : Label)
    (hnear : ∀ p x, (q.nearestIbObj p).velocity x = ⟨0, 0⟩) :
    ∀ p ∈ (ibStencil grid q ibCells solidCells cell).compatPts, p.2 = ⟨0, 0⟩ := by
  have hfold : ∀ p ∈ ((grid.cell cell).cellLinks.foldl
      (stencilStep grid q ibCells solidCells) ⟨[], []⟩).compatPts, p.2 = ⟨0, 0⟩ := by
    apply foldl_invariant (fun st : Stencil => ∀ p ∈ st.compatPts, p.2 = ⟨0, 0⟩)
    · intro st nb _ hst
      unfold stencilStep
      by_cases h1 : nb ∉ solidCells
      · by_cases h2 : nb ∈ ibCells
        · simp only [if_pos h1, if_pos h2]
          intro p hp
          rcases List.mem_append.mp hp with hp | hp
          · exact hst p hp
          · rw [List.mem_singleton.mp hp]
            exact hnear _ _
        · simp only [if_pos h1, if_neg h2]
          exact hst
      · simp only [if_neg h1]
        exact hst
    · intro p hp
      cases hp
  intro p hp
  simp only [ibStencil] at hp
  rcases List.mem_append.mp hp with hp | hp
  · exact hfold p hp
  · rw [List.mem_singleton.mp hp]
    exact hnear _ _

/-- Adding the zero vector to the source of a row keeps all sources zero. -/
theorem addSource_zero (eqn : FiniteVolumeEquation) (cell : Label)
    (h : ∀ c, eqn.sources c = ⟨0, 0⟩) : ∀ c, (eqn.addSource cell ⟨0, 0⟩).sources c = ⟨0, 0⟩ := by
  intro c
  simp only [FiniteVolumeEquation.addSource]
  by_cases hc : c = cell
  · rw [if_pos hc, h c, Vector2D.zero_add_zero]
  · rw [if_neg hc, h c]

/-- Setting the source of a row to the zero vector keeps all sources zero. -/
theorem setSource_zero (eqn : FiniteVolumeEquation) (cell : Label)
    (h : ∀ c, eqn.sources c = ⟨0, 0⟩) : ∀ c, (eqn.setSource cell ⟨0, 0⟩).sources c = ⟨0, 0⟩ := by
  intro c
  simp only [FiniteVolumeEquation.setSource]
  by_cases hc : c = cell
  · rw [if_pos hc]
  · rw [if_neg hc, h c]

/-- The source assembled for an IB cell in quiescent flow with bodies at rest is
zero: the two loops over the stencil and the last `addSource` all add the zero
vector. -/
theorem ibRow_sources_zero (st : Stencil) (cell : Label) (w : ℕ → Scalar)
    (coef : ℕ → Label → Scalar) (u : Label → Vector2D) (eqn : FiniteVolumeEquation)
    (hu : ∀ c, u c = ⟨0, 0⟩) (hcompat : ∀ p ∈ st.compatPts, p.2 = ⟨0, 0⟩)
    (h : ∀ c, eqn.sources c = ⟨0, 0⟩) :
    ∀ c, ((st.compatPts.enum.foldl (fun e p =>
        e.addSource cell (w (p.1 + st.stCells.length) * p.2.2))
      (st.stCells.enum.foldl (fun e p =>
        (e.add cell p.2 (coef p.1 p.2)).addSource cell (w p.1 * u p.2)) eqn)).addSource cell
          (-(u cell))).sources c = ⟨0, 0⟩ := by
  have hneg : -(u cell) = (⟨0, 0⟩ : Vector2D) := by
    rw [hu cell]
    ext <;> simp
  rw [hneg]
  apply addSource_zero
  apply foldl_invariant (fun e : FiniteVolumeEquation => ∀ c, e.sources c = ⟨0, 0⟩)
  · intro e p hp he
    rw [hcompat p.2 (List.snd_mem_of_mem_enum hp), Vector2D.scalar_mul_zero]
    exact addSource_zero e cell he
  · apply foldl_invariant (fun e : FiniteVolumeEquation => ∀ c, e.sources c = ⟨0, 0⟩)
    · intro e p _ he
      rw [hu p.2, Vector2D.scalar_mul_zero]
      exact addSource_zero (e.add cell p.2 (coef p.1 p.2)) cell he
    · exact h

/-- In quiescent flow with bodies at rest the cell body of the first overload keeps
all sources zero. -/
theorem forcingRow_sources_zero (grid : FiniteVolumeGrid2D) (q : ForcingCollaborators)
    (ibCells solidCells : CellGroup) (u : Label → Vector2D) (timeStep : Scalar)
    (hu : ∀ c, u c = ⟨0, 0⟩) (hnear : ∀ p x, (q.nearestIbObj p).velocity x = ⟨0, 0⟩)
    (hin : ∀ p x, (q.ibObj p).velocity x = ⟨0, 0⟩)
    (cell : Label) (eqn eqn1 : FiniteVolumeEquation) (h : ∀ c, eqn.sources c = ⟨0, 0⟩)
    (hres : forcingRow grid q ibCells solidCells u timeStep cell eqn = Except.ok eqn1) :
    ∀ c, eqn1.sources c = ⟨0, 0⟩ := by
  unfold forcingRow at hres
  by_cases hc : cell ∈ ibCells
  · by_cases hlt : (ibStencil grid q ibCells solidCells cell).stCells.length
        + (ibStencil grid q ibCells solidCells cell).compatPts.length < 6
    · simp only [if_pos hc, if_pos hlt] at hres
      cases hres
    · simp only [if_pos hc, if_neg hlt] at hres
      cases hres
      exact ibRow_sources_zero (ibStencil grid q ibCells solidCells cell) cell
        (betaAt ((ibStencil grid q ibCells solidCells cell).supportPoints grid)
          (grid.cell cell).centroid)
        (fun i _ => betaAt ((ibStencil grid q ibCells solidCells cell).supportPoints grid)
          (grid.cell cell).centroid i * timeStep)
        u (eqn.add cell cell (-timeStep)) hu
        (ibStencil_compat_zero grid q ibCells solidCells cell hnear) h
  · by_cases hs : cell ∈ solidCells
    · simp only [if_neg hc, if_pos hs] at hres
      cases hres
      have hz : ((q.ibObj (grid.cell cell).centroid).velocity (grid.cell cell).centroid
          - u cell) / timeStep = (⟨0, 0⟩ : Vector2D) := by
        rw [hin, hu]
        ext <;> simp
      rw [hz]
      exact setSource_zero _ cell h
    · simp only [if_neg hc, if_neg hs] at hres
      cases hres
      exact setSource_zero _ cell h

/-- In quiescent flow with bodies at rest the cell body of the overload with `rho`
keeps all sources zero. -/
theorem forcingRowRho_sources_zero (grid : FiniteVolumeGrid2D) (q : ForcingCollaborators)
    (ibCells solidCells : CellGroup) (rho : Label → Scalar) (u : Label → Vector2D)
    (timeStep : Scalar)
    (hu : ∀ c, u c = ⟨0, 0⟩) (hnear : ∀ p x, (q.nearestIbObj p).velocity x = ⟨0, 0⟩)
    (hin : ∀ p x, (q.ibObj p).velocity x = ⟨0, 0⟩)
    (cell : Label) (eqn eqn1 : FiniteVolumeEquation) (h : ∀ c, eqn.sources c = ⟨0, 0⟩)
    (hres : forcingRowRho grid q ibCells solidCells rho u timeStep cell eqn
      = Except.ok eqn1) :
    ∀ c, eqn1.sources c = ⟨0, 0⟩ := by
  unfold forcingRowRho at hres
  by_cases hc : cell ∈ ibCells
  · by_cases hlt : (ibStencil grid q ibCells solidCells cell).stCells.length
        + (ibStencil grid q ibCells solidCells cell).compatPts.length < 6
    · simp only [if_pos hc, if_pos hlt] at hres
      cases hres
    · simp only [if_pos hc, if_neg hlt] at hres
      cases hres
      exact ibRow_sources_zero (ibStencil grid q ibCells solidCells cell) cell
        (betaAt ((ibStencil grid q ibCells solidCells cell).supportPoints grid)
          (grid.cell cell).centroid)
        (fun i nb => betaAt ((ibStencil grid q ibCells solidCells cell).supportPoints grid)
          (grid.cell cell).centroid i * timeStep / rho nb)
        u (eqn.add cell cell (-timeStep / rho cell)) hu
        (ibStencil_compat_zero grid q ibCells solidCells cell hnear) h
  · by_cases hs : cell ∈ solidCells
    · simp only [if_neg hc, if_pos hs] at hres
      cases hres
      have hz : (q.ibObj (grid.cell cell).centroid).velocity (grid.cell cell).centroid
          - u cell = (⟨0, 0⟩ : Vector2D) := by
        rw [hin, hu]
        ext <;> simp
      rw [hz]
      exact setSource_zero _ cell h
    · simp only [if_neg hc, if_neg hs] at hres
      cases hres
      exact setSource_zero _ cell h

/-- C18. Scenario C: if the velocity field is zero at every cell, every immersed body
has zero velocity, every local IB cell has at least six support points and the time
step is not zero, then both overloads of `computeForcingTerm` assemble an equation
whose source is the zero vector at every cell; with a sparse solver that returns the
zero field for zero sources, the solved forcing field is the zero vector at every
cell. -/
theorem computeForcingTerm_quiescent (ib : DirectForcingImmersedBoundary)
    (q : ForcingCollaborators) (rho : Label → Scalar) (u : Label → Vector2D)
    (timeStep : Scalar) (fib : Label → Vector2D)
    (hu : ∀ c, u c = ⟨0, 0⟩)
    (hnear : ∀ p x, (q.nearestIbObj p).velocity x = ⟨0, 0⟩)
    (hin : ∀ p x, (q.ibObj p).velocity x = ⟨0, 0⟩)
    (hsupport : ∀ c, ib.IsLocalIbCell c → 6 ≤ ib.supportCount q c)
    (_hdt : timeStep ≠ 0)
    (hsolve : ∀ coeffs fib0, q.solve coeffs (fun _ => ⟨0, 0⟩) fib0 = fun _ => ⟨0, 0⟩) :
    (∃ eqn, ib.forcingEquation q u timeStep = Except.ok eqn
        ∧ (∀ c, eqn.sources c = ⟨0, 0⟩)
        ∧ ib.computeForcingTerm q u timeStep fib = Except.ok (fun _ => ⟨0, 0⟩))
    ∧ (∃ eqn, ib.forcingEquationRho q rho u timeStep = Except.ok eqn
        ∧ (∀ c, eqn.sources c = ⟨0, 0⟩)
        ∧ ib.computeForcingTermRho q rho u timeStep fib = Except.ok (fun _ => ⟨0, 0⟩)) := by
  have hgood : ∀ c ∈ ib.grid_.localCells,
      ¬ (c ∈ ib.grid_.globalCellGroup ib.ibCells_ ∧ ib.supportCount q c < 6) :=
    fun c hc hbad => absurd (hsupport c ⟨hc, hbad.1⟩) (not_le.mpr hbad.2)
  constructor
  · rcases forEachCell_result
        (forcingRow ib.grid_ q (ib.grid_.globalCellGroup ib.ibCells_)
          (ib.grid_.globalCellGroup ib.solidCells_) u timeStep)
        (fun c => c ∈ ib.grid_.globalCellGroup ib.ibCells_ ∧ ib.supportCount q c < 6)
        (notEnoughCells ib.grid_)
        (fun c eqn => (forcingRow_result ib.grid_ q _ _ u timeStep c eqn).1)
        (fun c eqn => (forcingRow_result ib.grid_ q _ _ u timeStep c eqn).2)
        ib.grid_.localCells FiniteVolumeEquation.empty with
      ⟨c, hc, hbad, _⟩ | ⟨_, eqn1, h1⟩
    · exact absurd hbad (hgood c hc)
    · have hzero : ∀ c, eqn1.sources c = ⟨0, 0⟩ :=
        forEachCell_invariant _ (fun e => ∀ c, e.sources c = ⟨0, 0⟩)
          (fun c eqn eqn2 h hres =>
            forcingRow_sources_zero ib.grid_ q _ _ u timeStep hu hnear hin c eqn eqn2 h hres)
          ib.grid_.localCells FiniteVolumeEquation.empty eqn1 (fun _ => rfl) h1
      refine ⟨eqn1, h1, hzero, ?_⟩
      have hsrc : eqn1.sources = fun _ => ⟨0, 0⟩ := funext hzero
      simp only [DirectForcingImmersedBoundary.computeForcingTerm, h1, hsrc, hsolve]
  · rcases forEachCell_result
        (forcingRowRho ib.grid_ q (ib.grid_.globalCellGroup ib.ibCells_)
          (ib.grid_.globalCellGroup ib.solidCells_) rho u timeStep)
        (fun c => c ∈ ib.grid_.globalCellGroup ib.ibCells_ ∧ ib.supportCount q c < 6)
        (notEnoughCells ib.grid_)
        (fun c eqn => (forcingRowRho_result ib.grid_ q _ _ rho u timeStep c eqn).1)
        (fun c eqn => (forcingRowRho_result ib.grid_ q _ _ rho u timeStep c eqn).2)
        ib.grid_.localCells FiniteVolumeEquation.empty with
      ⟨c, hc, hbad, _⟩ | ⟨_, eqn1, h1⟩
    · exact absurd hbad (hgood c hc)
    · have hzero : ∀ c, eqn1.sources c = ⟨0, 0⟩ :=
        forEachCell_invariant _ (fun e => ∀ c, e.sources c = ⟨0, 0⟩)
          (fun c eqn eqn2 h hres =>
            forcingRowRho_sources_zero ib.grid_ q _ _ rho u timeStep hu hnear hin c eqn eqn2
              h hres)
          ib.grid_.localCells FiniteVolumeEquation.empty eqn1 (fun _ => rfl) h1
      refine ⟨eqn1, h1, hzero, ?_⟩
      have hsrc : eqn1.sources = fun _ => ⟨0, 0⟩ := funext hzero
      simp only [DirectForcingImmersedBoundary.computeForcingTermRho, h1, hsrc, hsolve]

/-- The IB cell of `starBoundary` has six support points: five stencil cells and its
own compatibility point. -/
theorem starBoundary_supportCount : starBoundary.supportCount starCollaborators 0 = 6 := by
  simp [DirectForcingImmersedBoundary.supportCount, ibStencil, stencilStep, starBoundary,
    starGrid, Cell.cellLinks]

/-- Witness of C18: the disc at rest on `starGrid` in quiescent flow, time step one,
unit density. -/
theorem computeForcingTerm_quiescent_witness :
    (∃ eqn, starBoundary.forcingEquation starCollaborators (fun _ => ⟨0, 0⟩) 1 = Except.ok eqn
        ∧ (∀ c, eqn.sources c = ⟨0, 0⟩)
        ∧ starBoundary.computeForcingTerm starCollaborators (fun _ => ⟨0, 0⟩) 1
            (fun _ => ⟨1, 1⟩) = Except.ok (fun _ => ⟨0, 0⟩))
    ∧ (∃ eqn, starBoundary.forcingEquationRho starCollaborators (fun _ => 1)
          (fun _ => ⟨0, 0⟩) 1 = Except.ok eqn
        ∧ (∀ c, eqn.sources c = ⟨0, 0⟩)
        ∧ starBoundary.computeForcingTermRho starCollaborators (fun _ => 1)
            (fun _ => ⟨0, 0⟩) 1 (fun _ => ⟨1, 1⟩) = Except.ok (fun _ => ⟨0, 0⟩)) :=
  computeForcingTerm_quiescent starBoundary starCollaborators (fun _ => 1)
    (fun _ => ⟨0, 0⟩) 1 (fun _ => ⟨1, 1⟩) (fun _ => rfl) (fun _ _ => rfl) (fun _ _ => rfl)
    (by
      intro c hc
      have hc0 : c = 0 := by
        have := hc.2
        simpa [starBoundary, starGrid] using this
      rw [hc0, starBoundary_supportCount])
    (by norm_num)
    (by
      intro coeffs fib0
      funext c
      show (⟨0, 0⟩ : Vector2D) / coeffs c c = ⟨0, 0⟩
      ext <;> simp)

end ParPhase

namespace ParPhase

/-- After the loop over a list of distinct cells, `fb` at a cell of the list is the
residual computed from the velocity the cell had before the loop, and cells outside
the list keep their velocity and their `fb`. -/
theorem forcingResidual_loop (rho : Label → Scalar) (gradP prev : Label → Vector2D)
    (timeStep : Scalar) (l : List Label) (hl : l.Nodup)
    (s : (Label → Vector2D) × (Label → Vector2D)) (c : Label) :
    ((l.foldl (forcingResidualStep rho gradP prev timeStep) s).2 c
        = if c ∈ l then rho c * (s.1 c - prev c) / timeStep else s.2 c)
    ∧ (c ∉ l → (l.foldl (forcingResidualStep rho gradP prev timeStep) s).1 c = s.1 c) := by
  induction l generalizing s with
  | nil => simp
  | cons a rest ih =>
    have ha : a ∉ rest := (List.nodup_cons.mp hl).1
    have hrest : rest.Nodup := (List.nodup_cons.mp hl).2
    obtain ⟨ih1, ih2⟩ := ih hrest (forcingResidualStep rho gradP prev timeStep s a)
    rw [List.foldl_cons]
    constructor
    · rw [ih1]
      by_cases hc : c ∈ rest
      · have hca : c ≠ a := fun h => ha (h ▸ hc)
        simp [hc, forcingResidualStep, Function.update_noteq hca]
      · by_cases hca : c = a
        · subst hca
          simp [hc, forcingResidualStep]
        · simp [hc, hca, forcingResidualStep, Function.update_noteq hca]
    · intro hc
      have hca : c ≠ a := fun h => hc (h ▸ List.mem_cons_self a rest)
      have hcr : c ∉ rest := fun h => hc (List.mem_cons_of_mem a h)
      rw [ih2 hcr]
      simp [forcingResidualStep, Function.update_noteq hca]

/-- C19 as stated fails. One fluid cell with unit density and time step one; the
predictor returns the velocity `(1, 0)` and the corrector, with the boundary rows,
returns zero: `solveUEqn` stores `fb = (-1, 0)`, while
`rho * (u_unconstrained - u_constrained) / timeStep = (1, 0)`. -/
theorem solveUEqn_forcing_sign :
    (solveUEqn stoppingSolves [0] restingFlow 1).fb_ 0 = ⟨-1, 0⟩
    ∧ restingFlow.rho_.cells 0 * (uUnconstrained stoppingSolves restingFlow 1 0
        - uConstrained stoppingSolves restingFlow 1 0) / (1 : Scalar) = (⟨1, 0⟩ : Vector2D)
    ∧ (⟨-1, 0⟩ : Vector2D) ≠ ⟨1, 0⟩ := by
  refine ⟨?_, ?_, ?_⟩
  · simp only [solveUEqn, List.foldl_cons, List.foldl_nil, forcingResidualStep,
      Function.update_same, stoppingSolves, restingFlow]
    ext <;> simp
  · simp only [uUnconstrained, uConstrained, stoppingSolves, restingFlow]
    ext <;> simp
  · intro h
    have := congrArg Vector2D.x h
    norm_num at this

/-- C19, amended. In `FractionalStepDirectForcingMultiphase::solveUEqn`, for every
fluid cell `c` the stored forcing is
`fb(c) = rho(c) * (u_constrained(c) - u_unconstrained(c)) / timeStep`, with
`u_unconstrained` the velocity of the explicit predictor solve and `u_constrained` the
velocity of the corrector solve that includes the immersed-boundary rows. -/
theorem solveUEqn_forcing_residual (env : MomentumCollaborators) (fluid : CellGroup)
    (st : MomentumState) (timeStep : Scalar) (c : Label)
    (hfluid : fluid.Nodup) (hc : c ∈ fluid) :
    (solveUEqn env fluid st timeStep).fb_ c
      = st.rho_.cells c * (uConstrained env st timeStep c - uUnconstrained env st timeStep c)
        / timeStep := by
  have h := (forcingResidual_loop st.rho_.cells
    (env.gradPFaceToCell st.rho_.cells st.rho_.oldField st.gradP_)
    (uUnconstrained env st timeStep) timeStep fluid hfluid
    (uConstrained env st timeStep, st.fb_) c).1
  rw [if_pos hc] at h
  exact h

/-- Witness of the amended C19: the one-cell flow that the body stops. -/
theorem solveUEqn_forcing_residual_witness :
    (solveUEqn stoppingSolves [0] restingFlow 1).fb_ 0
      = restingFlow.rho_.cells 0 * (uConstrained stoppingSolves restingFlow 1 0
          - uUnconstrained stoppingSolves restingFlow 1 0) / (1 : Scalar) :=
  solveUEqn_forcing_residual stoppingSolves [0] restingFlow 1 0 (by simp) (by simp)

end ParPhase

namespace ParPhase

/-- A fold of `min` from `init` is below `init` and below every value folded in. -/
theorem foldl_min_le {α : Type} (f : α → ExtendedScalar) (l : List α) (init : ExtendedScalar) :
    l.foldl (fun acc a => min acc (f a)) init ≤ init
    ∧ ∀ a ∈ l, l.foldl (fun acc a => min acc (f a)) init ≤ f a := by
  induction l generalizing init with
  | nil => simp
  | cons b rest ih =>
    obtain ⟨ih1, ih2⟩ := ih (min init (f b))
    rw [List.foldl_cons]
    refine ⟨le_trans ih1 (min_le_left _ _), ?_⟩
    intro a ha
    rcases List.mem_cons.mp ha with h | h
    · subst h
      exact le_trans ih1 (min_le_right _ _)
    · exact ih2 a h

/-- A fold of `min` from `init` is `init` or one of the values folded in. -/
theorem foldl_min_attained {α : Type} (f : α → ExtendedScalar) (l : List α)
    (init : ExtendedScalar) :
    l.foldl (fun acc a => min acc (f a)) init = init
    ∨ ∃ a ∈ l, l.foldl (fun acc a => min acc (f a)) init = f a := by
  induction l generalizing init with
  | nil => simp
  | cons b rest ih =>
    rw [List.foldl_cons]
    rcases ih (min init (f b)) with h | ⟨a, ha, h⟩
    · rcases min_choice init (f b) with h2 | h2
      · left
        rw [h, h2]
      · right
        exact ⟨b, List.mem_cons_self b rest, by rw [h, h2]⟩
    · right
      exact ⟨a, List.mem_cons_of_mem b ha, h⟩

/-- The local loop of the constructor folds the capillary limits of the interior
faces. -/
theorem localCapillaryTimeStep_eq (k : PhaseConstants) (sigma : Scalar)
    (grid : FiniteVolumeGrid2D) :
    FractionalStepMultiphase.localCapillaryTimeStep k sigma grid
      = grid.interiorFaces.foldl
          (fun acc face => min acc ((capillaryLimit k sigma grid face : ℝ) : ExtendedScalar)) ⊤ := by
  unfold FractionalStepMultiphase.localCapillaryTimeStep capillaryLimit
  congr 1
  funext acc face
  have h : ((k.rho1_ + k.rho2_) * Face.delta grid face * Face.delta grid face
      * Face.delta grid face) / (4 * Real.pi * sigma)
      = (k.rho1_ + k.rho2_) * (Face.delta grid face) ^ 3 / (4 * Real.pi * sigma) := by ring
  simp only [h]

/-- The loops of the two constructors give the same local value. -/
theorem localCapillaryTimeStep_dfib_eq (k : PhaseConstants) (sigma : Scalar)
    (grid : FiniteVolumeGrid2D) :
    FractionalStepDirectForcingMultiphase.localCapillaryTimeStep k sigma grid
      = FractionalStepMultiphase.localCapillaryTimeStep k sigma grid := by
  unfold FractionalStepDirectForcingMultiphase.localCapillaryTimeStep
    FractionalStepMultiphase.localCapillaryTimeStep
  congr 1
  funext acc face
  have h : (Face.delta grid face) ^ (3 : ℝ) = (Face.delta grid face) ^ 3 := by
    rw [show (3 : ℝ) = ((3 : ℕ) : ℝ) by norm_num, Real.rpow_natCast]
  have h2 : ((k.rho1_ + k.rho2_) * Face.delta grid face * Face.delta grid face
      * Face.delta grid face) / (4 * Real.pi * sigma)
      = (k.rho1_ + k.rho2_) * (Face.delta grid face) ^ 3 / (4 * Real.pi * sigma) := by ring
  simp only [h, h2]

/-- The value after `comm.min` is the fold of `min` over the local values. -/
theorem capillaryTimeStep_eq (k : PhaseConstants) (sigma : Scalar)
    (grid : FiniteVolumeGrid2D) (others : List FiniteVolumeGrid2D) :
    FractionalStepMultiphase.capillaryTimeStep k sigma grid others
      = (grid :: others).foldl
          (fun acc g => min acc (FractionalStepMultiphase.localCapillaryTimeStep k sigma g)) ⊤ := by
  unfold FractionalStepMultiphase.capillaryTimeStep Communicator.min
  rw [List.foldl_cons, List.foldl_map, top_inf_eq]

/-- C20. For a positive surface tension and a non-negative density sum, the time step
admitted by `FractionalStepMultiphase::computeMaxTimeStep` never exceeds the capillary
limit computed at construction; that limit is below the capillary limit
`sqrt((rho1 + rho2) * delta^3 / (4 * pi * sigma))` of every interior face of every
partition, is `+infinity` when no partition has an interior face and is otherwise the
capillary limit of one of these faces; and the constructor of
`FractionalStepDirectForcingMultiphase` computes the same value. -/
theorem capillaryTimeStep_global_minimum (k : PhaseConstants) (sigma : Scalar)
    (grid : FiniteVolumeGrid2D) (others : List FiniteVolumeGrid2D)
    (base : Scalar → Scalar → ExtendedScalar) (maxCo prevTimeStep : Scalar)
    (_hsigma : 0 < sigma) (_hrho : 0 ≤ k.rho1_ + k.rho2_) :
    FractionalStepMultiphase.computeMaxTimeStep base
        (FractionalStepMultiphase.capillaryTimeStep k sigma grid others) maxCo prevTimeStep
      ≤ FractionalStepMultiphase.capillaryTimeStep k sigma grid others
    ∧ (∀ g ∈ grid :: others, ∀ face ∈ g.interiorFaces,
        FractionalStepMultiphase.capillaryTimeStep k sigma grid others
          ≤ ((capillaryLimit k sigma g face : ℝ) : ExtendedScalar))
    ∧ ((∀ g ∈ grid :: others, g.interiorFaces = []) →
        FractionalStepMultiphase.capillaryTimeStep k sigma grid others = ⊤)
    ∧ ((∃ g ∈ grid :: others, g.interiorFaces ≠ []) →
        ∃ g ∈ grid :: others, ∃ face ∈ g.interiorFaces,
          FractionalStepMultiphase.capillaryTimeStep k sigma grid others
            = ((capillaryLimit k sigma g face : ℝ) : ExtendedScalar))
    ∧ FractionalStepDirectForcingMultiphase.capillaryTimeStep k sigma grid others
        = FractionalStepMultiphase.capillaryTimeStep k sigma grid others := by
  have hglobal := capillaryTimeStep_eq k sigma grid others
  have hle := foldl_min_le (FractionalStepMultiphase.localCapillaryTimeStep k sigma)
    (grid :: others) ⊤
  have hlocal_le : ∀ g : FiniteVolumeGrid2D, ∀ face ∈ g.interiorFaces,
      FractionalStepMultiphase.localCapillaryTimeStep k sigma g
        ≤ ((capillaryLimit k sigma g face : ℝ) : ExtendedScalar) := by
    intro g face hface
    rw [localCapillaryTimeStep_eq]
    exact (foldl_min_le (fun face => ((capillaryLimit k sigma g face : ℝ) : ExtendedScalar))
      g.interiorFaces ⊤).2 face hface
  have hlocal_att : ∀ g : FiniteVolumeGrid2D,
      FractionalStepMultiphase.localCapillaryTimeStep k sigma g = ⊤
      ∨ ∃ face ∈ g.interiorFaces, FractionalStepMultiphase.localCapillaryTimeStep k sigma g
          = ((capillaryLimit k sigma g face : ℝ) : ExtendedScalar) := by
    intro g
    rw [localCapillaryTimeStep_eq]
    exact foldl_min_attained
      (fun face => ((capillaryLimit k sigma g face : ℝ) : ExtendedScalar)) g.interiorFaces ⊤
  refine ⟨min_le_right _ _, ?_, ?_, ?_, ?_⟩
  · intro g hg face hface
    rw [hglobal]
    exact le_trans (hle.2 g hg) (hlocal_le g face hface)
  · intro hnone
    rw [hglobal]
    rcases foldl_min_attained (FractionalStepMultiphase.localCapillaryTimeStep k sigma)
      (grid :: others) ⊤ with h | ⟨g, hg, h⟩
    · exact h
    · rw [h]
      simp [FractionalStepMultiphase.localCapillaryTimeStep, hnone g hg]
  · rintro ⟨g0, hg0, hne⟩
    rw [hglobal]
    rcases foldl_min_attained (FractionalStepMultiphase.localCapillaryTimeStep k sigma)
      (grid :: others) ⊤ with h | ⟨g, hg, h⟩
    · obtain ⟨face, hface⟩ := List.exists_mem_of_ne_nil _ hne
      have h1 := le_trans (hle.2 g0 hg0) (hlocal_le g0 face hface)
      rw [h] at h1
      exact absurd (top_le_iff.mp h1) (WithTop.coe_ne_top)
    · rcases hlocal_att g with h2 | ⟨face, hface, h2⟩
      · obtain ⟨face, hface⟩ := List.exists_mem_of_ne_nil _ hne
        have h1 := le_trans (hle.2 g0 hg0) (hlocal_le g0 face hface)
        rw [h, h2] at h1
        exact absurd (top_le_iff.mp h1) (WithTop.coe_ne_top)
      · exact ⟨g, hg, face, hface, by rw [h, h2]⟩
  · unfold FractionalStepDirectForcingMultiphase.capillaryTimeStep
      FractionalStepMultiphase.capillaryTimeStep
    rw [localCapillaryTimeStep_dfib_eq]
    congr 1
    exact List.map_congr_left (fun g _ => localCapillaryTimeStep_dfib_eq k sigma g)

/-- Witness of C20: water and air with surface tension one on the three cells in a
row, one partition, no limit from the base class. -/
theorem capillaryTimeStep_global_minimum_witness :
    (0 : Scalar) < 1 ∧ 0 ≤ waterAir.rho1_ + waterAir.rho2_
    ∧ FractionalStepMultiphase.computeMaxTimeStep unlimitedBase
        (FractionalStepMultiphase.capillaryTimeStep waterAir 1 rowGridWithFaces []) 1 1
      ≤ FractionalStepMultiphase.capillaryTimeStep waterAir 1 rowGridWithFaces []
    ∧ FractionalStepDirectForcingMultiphase.capillaryTimeStep waterAir 1 rowGridWithFaces []
        = FractionalStepMultiphase.capillaryTimeStep waterAir 1 rowGridWithFaces [] :=
  have h := capillaryTimeStep_global_minimum waterAir 1 rowGridWithFaces [] unlimitedBase 1 1
    (by norm_num) (by norm_num [waterAir])
  ⟨by norm_num, by norm_num [waterAir], h.1, h.2.2.2.2⟩

end ParPhase

namespace ParPhase

/-- C21 as stated fails. In the calls of one `solve(1)`, `updateCells` is the second
call and `solveUEqn`, the momentum predictor, the fifth: cell reclassification happens
before the momentum predictor, not after it, and no classification call stands between
`solveUEqn` and `applyCollisionForce`. -/
theorem solve_updateCells_before_predictor :
    (solveTrace 1).indexOf StageCall.updateCells = 1
    ∧ (solveTrace 1).indexOf StageCall.solveUEqn = 4
    ∧ ¬ ((solveTrace 1).indexOf StageCall.solveUEqn
          < (solveTrace 1).indexOf StageCall.updateCells)
    ∧ (solveTrace 1).get? 5 = some StageCall.computeIbForces2
    ∧ (solveTrace 1).get? 6 = some StageCall.applyCollisionForce := by
  have h : solveTrace 1 = [StageCall.updateIbPositions, StageCall.updateCells,
      StageCall.solveGammaEqn, StageCall.updateProperties, StageCall.solveUEqn,
      StageCall.computeIbForces2, StageCall.applyCollisionForce, StageCall.solvePEqn,
      StageCall.correctVelocity, StageCall.computeFieldExtenstions] := rfl
  rw [h]
  decide

/-- C21, amended. One call of `FractionalStepDirectForcingMultiphase::solve(timeStep)`
makes these calls exactly once each and in this order: `updateIbPositions`,
`updateCells`, `solveGammaEqn`, `updateProperties`, `solveUEqn`, `computeIbForces2`,
`applyCollisionForce(true)`, `solvePEqn`, `correctVelocity`,
`computeFieldExtenstions`, and returns 0; cell reclassification (`updateCells`) happens
right after the body positions are updated, before phase advection and before the
momentum predictor. -/
theorem solve_stage_order {σ : Type} (stages : SolverStages σ) (timeStep : Scalar) (s : σ) :
    (FractionalStepDirectForcingMultiphase.solve stages timeStep s).1
      = stages.computeFieldExtenstions timeStep
          (stages.correctVelocity timeStep
            (stages.solvePEqn timeStep
              (stages.applyCollisionForce true
                (stages.computeIbForces2 timeStep
                  (stages.solveUEqn timeStep
                    (stages.updateProperties timeStep
                      (stages.solveGammaEqn timeStep
                        (stages.updateCells
                          (stages.updateIbPositions timeStep s)))))))))
    ∧ (FractionalStepDirectForcingMultiphase.solve stages timeStep s).2 = 0
    ∧ solveTrace timeStep = [StageCall.updateIbPositions, StageCall.updateCells,
        StageCall.solveGammaEqn, StageCall.updateProperties, StageCall.solveUEqn,
        StageCall.computeIbForces2, StageCall.applyCollisionForce, StageCall.solvePEqn,
        StageCall.correctVelocity, StageCall.computeFieldExtenstions]
    ∧ (solveTrace timeStep).Nodup
    ∧ (solveTrace timeStep).indexOf StageCall.updateCells
        = (solveTrace timeStep).indexOf StageCall.updateIbPositions + 1
    ∧ (solveTrace timeStep).indexOf StageCall.updateCells
        < (solveTrace timeStep).indexOf StageCall.solveGammaEqn
    ∧ (solveTrace timeStep).indexOf StageCall.updateCells
        < (solveTrace timeStep).indexOf StageCall.solveUEqn := by
  have h : solveTrace timeStep = [StageCall.updateIbPositions, StageCall.updateCells,
      StageCall.solveGammaEqn, StageCall.updateProperties, StageCall.solveUEqn,
      StageCall.computeIbForces2, StageCall.applyCollisionForce, StageCall.solvePEqn,
      StageCall.correctVelocity, StageCall.computeFieldExtenstions] := rfl
  refine ⟨rfl, rfl, h, ?_, ?_, ?_, ?_⟩ <;> rw [h] <;> decide

end ParPhase

namespace ParPhase

/-- The clamping loop of `solveGammaEqn`: a cell of the list ends between 0 and 1, and
a cell outside the list keeps its value. -/
theorem clampLoop_apply (cells : List Label) (gamma : Label → Scalar) (c : Label) :
    (c ∈ cells →
      0 ≤ cells.foldl (fun g cell => Function.update g cell (max (min (g cell) 1) 0)) gamma c
      ∧ cells.foldl (fun g cell => Function.update g cell (max (min (g cell) 1) 0)) gamma c ≤ 1)
    ∧ (0 ≤ gamma c ∧ gamma c ≤ 1 →
      0 ≤ cells.foldl (fun g cell => Function.update g cell (max (min (g cell) 1) 0)) gamma c
      ∧ cells.foldl (fun g cell => Function.update g cell (max (min (g cell) 1) 0)) gamma c ≤ 1) := by
  induction cells generalizing gamma with
  | nil => simp
  | cons a rest ih =>
    simp only [List.foldl_cons]
    obtain ⟨ih1, ih2⟩ := ih (Function.update gamma a (max (min (gamma a) 1) 0))
    constructor
    · intro hc
      rcases List.mem_cons.mp hc with h | h
      · subst h
        exact ih2 (by simp)
      · exact ih1 h
    · intro hb
      apply ih2
      by_cases hca : c = a
      · subst hca
        simp
      · simpa [Function.update_noteq hca] using hb

/-- C22. When `FractionalStepMultiphase::solveGammaEqn` returns, whatever cell values the
linear solve returned, every cell of the grid satisfies `0 <= gamma(cell) <= 1`,
provided the ghost-cell exchange that follows the clamping hands over values between 0
and 1 whenever the values it is given are. -/
theorem solveGammaEqn_bounded (k : PhaseConstants) (env : AdvectionCollaborators)
    (genv : GradientCollaborators) (grid : MultiphaseGrid) (st : MultiphaseState)
    (timeStep : Scalar) (c : Label)
    (hexchange : ∀ f : Label → Scalar, (∀ i ∈ grid.cells, 0 ≤ f i ∧ f i ≤ 1) →
      ∀ i ∈ grid.cells, 0 ≤ env.sendMessages f i ∧ env.sendMessages f i ≤ 1)
    (hc : c ∈ grid.cells) :
    0 ≤ (FractionalStepMultiphase.solveGammaEqn k env genv grid st timeStep).1.gamma.cells c
    ∧ (FractionalStepMultiphase.solveGammaEqn k env genv grid st timeStep).1.gamma.cells c ≤ 1 := by
  have h : (FractionalStepMultiphase.solveGammaEqn k env genv grid st timeStep).1.gamma.cells
      = env.sendMessages (grid.cells.foldl
          (fun g cell => Function.update g cell (max (min (g cell) 1) 0))
          (env.solve { st.gamma with
            oldField := st.gamma.cells
            faces := env.interpolateFaces { st.gamma with oldField := st.gamma.cells } timeStep }
            timeStep).1) := rfl
  rw [h]
  exact hexchange _ (fun i hi => (clampLoop_apply grid.cells _ i).1 hi) c hc

/-- Witness of C22: a linear solve that returns 5 in the only cell of the grid. -/
theorem solveGammaEqn_bounded_witness :
    (overshootingAdvection.solve
        { (uniformMultiphase 0).gamma with oldField := (uniformMultiphase 0).gamma.cells } 1).1 0 = 5
    ∧ 0 ≤ (FractionalStepMultiphase.solveGammaEqn waterAir overshootingAdvection zeroGradient
        oneCellGrid (uniformMultiphase 0) 1).1.gamma.cells 0
    ∧ (FractionalStepMultiphase.solveGammaEqn waterAir overshootingAdvection zeroGradient
        oneCellGrid (uniformMultiphase 0) 1).1.gamma.cells 0 ≤ 1 :=
  ⟨rfl, solveGammaEqn_bounded waterAir overshootingAdvection zeroGradient oneCellGrid
    (uniformMultiphase 0) 1 0 (fun _ hf i hi => hf i hi) (by simp [oneCellGrid])⟩

end ParPhase

namespace ParPhase

/-- The running maximum of the loop of `checkMassFluxConsistency` is above its start
value and above the error of every face visited. -/
theorem foldl_max_ge (f : Label → Scalar) (l : List Label) (init : Scalar) :
    init ≤ l.foldl (fun m a => if f a > m then f a else m) init
    ∧ ∀ a ∈ l, f a ≤ l.foldl (fun m a => if f a > m then f a else m) init := by
  induction l generalizing init with
  | nil => simp
  | cons b rest ih =>
    obtain ⟨ih1, ih2⟩ := ih (if f b > init then f b else init)
    rw [List.foldl_cons]
    have hinit : init ≤ (if f b > init then f b else init) := by
      split_ifs with h
      · exact le_of_lt h
      · exact le_refl _
    have hb : f b ≤ (if f b > init then f b else init) := by
      split_ifs with h
      · exact le_refl _
      · exact not_lt.mp h
    refine ⟨le_trans hinit ih1, ?_⟩
    intro a ha
    rcases List.mem_cons.mp ha with h | h
    · subst h
      exact le_trans hb ih1
    · exact ih2 a h

/-- The running maximum of the loop of `checkMassFluxConsistency` ends at its start
value or at the error of one of the faces visited. -/
theorem foldl_max_attained (f : Label → Scalar) (l : List Label) (init : Scalar) :
    l.foldl (fun m a => if f a > m then f a else m) init = init
    ∨ ∃ a ∈ l, l.foldl (fun m a => if f a > m then f a else m) init = f a := by
  induction l generalizing init with
  | nil => simp
  | cons b rest ih =>
    rw [List.foldl_cons]
    rcases ih (if f b > init then f b else init) with h | ⟨a, ha, h⟩
    · by_cases hb : f b > init
      · right
        exact ⟨b, List.mem_cons_self b rest, by rw [h, if_pos hb]⟩
      · left
        rw [h, if_neg hb]
    · right
      exact ⟨a, List.mem_cons_of_mem b ha, h⟩

/-- The error of a face vanishes exactly when its density is the blend of the two
phase densities by its phase indicator. -/
theorem massFluxError_eq_zero_iff (k : PhaseConstants) (st : MultiphaseState) (face : Label)
    (h : k.rho1_ ≠ k.rho2_) :
    massFluxError k st face = 0
      ↔ st.rho.faces face = k.rho1_ + st.gamma.faces face * (k.rho2_ - k.rho1_) := by
  have hne : k.rho2_ - k.rho1_ ≠ 0 := sub_ne_zero.mpr (Ne.symm h)
  unfold massFluxError
  simp only [abs_eq_zero, sub_eq_zero]
  rw [div_eq_iff hne]
  constructor
  · intro h1
    linarith
  · intro h1
    linarith

/-- C23 as stated fails. With `rho1 = 1` and `rho2 = 2`, a face with `gamma = 0` and
`rho = 1001/1000` is mismatched and the diagnostic is `1/1000`; the check compares it
with no threshold, and the line it prints shows `0.00`, the same as for the consistent
face with `rho = 1`. -/
theorem checkMassFluxConsistency_small_mismatch :
    (faceState (1001 / 1000) 0).rho.faces 0
      ≠ unequalPhases.rho1_
        + (faceState (1001 / 1000) 0).gamma.faces 0 * (unequalPhases.rho2_ - unequalPhases.rho1_)
    ∧ FractionalStepMultiphase.checkMassFluxConsistency unequalPhases oneCellGrid
        (faceState (1001 / 1000) 0) 1 = 1 / 1000
    ∧ FractionalStepMultiphase.checkMassFluxConsistency unequalPhases oneCellGrid
        (faceState 1 0) 1 = 0
    ∧ FractionalStepMultiphase.massFluxReport unequalPhases oneCellGrid
        (faceState (1001 / 1000) 0) 1 = 0
    ∧ FractionalStepMultiphase.massFluxReport unequalPhases oneCellGrid (faceState 1 0) 1 = 0 := by
  have h1 : FractionalStepMultiphase.checkMassFluxConsistency unequalPhases oneCellGrid
      (faceState (1001 / 1000) 0) 1 = 1 / 1000 := by
    simp only [FractionalStepMultiphase.checkMassFluxConsistency, oneCellGrid, List.foldl_cons,
      List.foldl_nil, massFluxError, faceState, uniformMultiphase, unequalPhases]
    norm_num [abs_of_pos]
  have h2 : FractionalStepMultiphase.checkMassFluxConsistency unequalPhases oneCellGrid
      (faceState 1 0) 1 = 0 := by
    simp only [FractionalStepMultiphase.checkMassFluxConsistency, oneCellGrid, List.foldl_cons,
      List.foldl_nil, massFluxError, faceState, uniformMultiphase, unequalPhases]
    norm_num
  refine ⟨?_, h1, h2, ?_, ?_⟩
  · simp only [faceState, uniformMultiphase, unequalPhases]
    norm_num
  · rw [FractionalStepMultiphase.massFluxReport, h1, printedHundredths, round_eq_zero_iff]
    constructor <;> norm_num
  · rw [FractionalStepMultiphase.massFluxReport, h2, printedHundredths]
    simp

/-- C23, amended. For `rho1 != rho2` the diagnostic of
`FractionalStepMultiphase::checkMassFluxConsistency` is the maximum over all faces of
`|(rho(face) - rho1)/(rho2 - rho1) - gamma(face)|` (zero when there is no face); it is
zero if and only if `rho(face) = rho1 + gamma(face)*(rho2 - rho1)` on every face, so it
is positive for a mismatched pair of face fields; the check compares it with no
threshold and only prints it with two decimals, and the printed number is `0.00`
exactly when the diagnostic is below `0.005`. -/
theorem checkMassFluxConsistency_maximum (k : PhaseConstants) (grid : MultiphaseGrid)
    (st : MultiphaseState) (timeStep : Scalar) (h : k.rho1_ ≠ k.rho2_) :
    (∀ face ∈ grid.faces, massFluxError k st face
        ≤ FractionalStepMultiphase.checkMassFluxConsistency k grid st timeStep)
    ∧ (grid.faces = [] →
        FractionalStepMultiphase.checkMassFluxConsistency k grid st timeStep = 0)
    ∧ (grid.faces ≠ [] → ∃ face ∈ grid.faces,
        FractionalStepMultiphase.checkMassFluxConsistency k grid st timeStep
          = massFluxError k st face)
    ∧ (FractionalStepMultiphase.checkMassFluxConsistency k grid st timeStep = 0
        ↔ ∀ face ∈ grid.faces,
            st.rho.faces face = k.rho1_ + st.gamma.faces face * (k.rho2_ - k.rho1_))
    ∧ ((∃ face ∈ grid.faces,
          st.rho.faces face ≠ k.rho1_ + st.gamma.faces face * (k.rho2_ - k.rho1_)) →
        0 < FractionalStepMultiphase.checkMassFluxConsistency k grid st timeStep)
    ∧ (FractionalStepMultiphase.massFluxReport k grid st timeStep = 0
        ↔ FractionalStepMultiphase.checkMassFluxConsistency k grid st timeStep < 1 / 200) := by
  have hge := foldl_max_ge (massFluxError k st) grid.faces 0
  have hatt := foldl_max_attained (massFluxError k st) grid.faces 0
  have hnonneg : ∀ face, 0 ≤ massFluxError k st face := fun face => abs_nonneg _
  have hdef : FractionalStepMultiphase.checkMassFluxConsistency k grid st timeStep
      = grid.faces.foldl
          (fun m a => if massFluxError k st a > m then massFluxError k st a else m) 0 := rfl
  have hzero : FractionalStepMultiphase.checkMassFluxConsistency k grid st timeStep = 0
      ↔ ∀ face ∈ grid.faces,
          st.rho.faces face = k.rho1_ + st.gamma.faces face * (k.rho2_ - k.rho1_) := by
    rw [hdef]
    constructor
    · intro h0 face hface
      have h1 := hge.2 face hface
      rw [h0] at h1
      exact (massFluxError_eq_zero_iff k st face h).mp (le_antisymm h1 (hnonneg face))
    · intro hall
      rcases hatt with h0 | ⟨face, hface, h0⟩
      · exact h0
      · rw [h0]
        exact (massFluxError_eq_zero_iff k st face h).mpr (hall face hface)
  refine ⟨fun face hface => hdef ▸ hge.2 face hface, ?_, ?_, hzero, ?_, ?_⟩
  · intro hnil
    rw [hdef, hnil]
    rfl
  · intro hne
    rw [hdef]
    rcases hatt with h0 | ⟨face, hface, h0⟩
    · obtain ⟨face, hface⟩ := List.exists_mem_of_ne_nil _ hne
      refine ⟨face, hface, ?_⟩
      have h1 := hge.2 face hface
      rw [h0] at h1
      rw [h0]
      exact le_antisymm (hnonneg face) h1
    · exact ⟨face, hface, h0⟩
  · rintro ⟨face, hface, hmis⟩
    have h0 : 0 ≤ FractionalStepMultiphase.checkMassFluxConsistency k grid st timeStep :=
      hdef ▸ hge.1
    rcases lt_or_eq_of_le h0 with hlt | heq
    · exact hlt
    · exact absurd (hzero.mp heq.symm face hface) hmis
  · have h0 : 0 ≤ FractionalStepMultiphase.checkMassFluxConsistency k grid st timeStep :=
      hdef ▸ hge.1
    rw [FractionalStepMultiphase.massFluxReport, printedHundredths, round_eq_zero_iff]
    constructor
    · rintro ⟨_, h2⟩
      linarith
    · intro h2
      exact ⟨by linarith, by linarith⟩

/-- Witness of the amended C23: phase densities 1 and 2 on the grid with one face. -/
theorem checkMassFluxConsistency_maximum_witness :
    unequalPhases.rho1_ ≠ unequalPhases.rho2_
    ∧ (FractionalStepMultiphase.checkMassFluxConsistency unequalPhases oneCellGrid
          (faceState 3 (1 / 2)) 1 = 0
        ↔ ∀ face ∈ oneCellGrid.faces, (faceState 3 (1 / 2)).rho.faces face
            = unequalPhases.rho1_
              + (faceState 3 (1 / 2)).gamma.faces face
                * (unequalPhases.rho2_ - unequalPhases.rho1_)) :=
  ⟨by norm_num [unequalPhases],
    (checkMassFluxConsistency_maximum unequalPhases oneCellGrid (faceState 3 (1 / 2)) 1
      (by norm_num [unequalPhases])).2.2.2.1⟩

end ParPhase

namespace ParPhase

/-- Clearing a body twice is clearing it once. -/
theorem clear_clear (b : ImmersedBoundaryObject) : b.clear.clear = b.clear := rfl

/-- The bodies that the classification loop stores are the bodies it was given, up to
their cell groups. -/
theorem classifyBody_foldl_clear (grid : FiniteVolumeGrid2D) (domainCells : CellGroup)
    (l : List ImmersedBoundaryObject) (acc : Classification) :
    (l.foldl (classifyBody grid domainCells) acc).ibObjs.map ImmersedBoundaryObject.clear
      = acc.ibObjs.map ImmersedBoundaryObject.clear ++ l.map ImmersedBoundaryObject.clear := by
  induction l generalizing acc with
  | nil => simp
  | cons b rest ih =>
    rw [List.foldl_cons, ih]
    simp [classifyBody, ImmersedBoundaryObject.clear]

/-- The result of `updateCells` depends on the state only through the grid, the domain
cells and the bodies up to their cell groups. -/
theorem updateCells_congr (ib ib2 : DirectForcingImmersedBoundary)
    (hg : ib.grid_ = ib2.grid_) (hd : ib.domainCells_ = ib2.domainCells_)
    (hobjs : ib.ibObjs_.map ImmersedBoundaryObject.clear
      = ib2.ibObjs_.map ImmersedBoundaryObject.clear) :
    ib.updateCells = ib2.updateCells := by
  obtain ⟨g, d, objs, ic, sc, cs⟩ := ib
  obtain ⟨g2, d2, objs2, ic2, sc2, cs2⟩ := ib2
  simp only at hg hd hobjs
  subst hg hd
  simp only [DirectForcingImmersedBoundary.updateCells, hobjs]

/-- C24. Calling `DirectForcingImmersedBoundary::updateCells` a second time, with the
bodies where they were, gives the state of the first call: the same cell groups of every
body, the same accumulated IB and SOLID cell groups and the same cell-status field; and
the weights `beta` that `computeForcingTerm` then builds for each cell, and the forcing
it computes with either overload, are the same. -/
theorem updateCells_idempotent (ib : DirectForcingImmersedBoundary) :
    ib.updateCells.updateCells = ib.updateCells
    ∧ ib.updateCells.updateCells.ibObjs_ = ib.updateCells.ibObjs_
    ∧ ib.updateCells.updateCells.ibCells_ = ib.updateCells.ibCells_
    ∧ ib.updateCells.updateCells.solidCells_ = ib.updateCells.solidCells_
    ∧ ib.updateCells.updateCells.cellStatus_ = ib.updateCells.cellStatus_
    ∧ (∀ (q : ForcingCollaborators) (cell : Label) (i : ℕ),
        ib.updateCells.updateCells.stencilWeight q cell i = ib.updateCells.stencilWeight q cell i)
    ∧ (∀ (q : ForcingCollaborators) (u : Label → Vector2D) (timeStep : Scalar)
        (fib : Label → Vector2D),
        ib.updateCells.updateCells.computeForcingTerm q u timeStep fib
          = ib.updateCells.computeForcingTerm q u timeStep fib)
    ∧ (∀ (q : ForcingCollaborators) (rho : Label → Scalar) (u : Label → Vector2D)
        (timeStep : Scalar) (fib : Label → Vector2D),
        ib.updateCells.updateCells.computeForcingTermRho q rho u timeStep fib
          = ib.updateCells.computeForcingTermRho q rho u timeStep fib) := by
  have hobjs : ib.updateCells.ibObjs_.map ImmersedBoundaryObject.clear
      = ib.ibObjs_.map ImmersedBoundaryObject.clear := by
    have h := classifyBody_foldl_clear ib.grid_ ib.domainCells_
      (ib.ibObjs_.map ImmersedBoundaryObject.clear) ⟨[], [], []⟩
    have hcl : (ib.ibObjs_.map ImmersedBoundaryObject.clear).map ImmersedBoundaryObject.clear
        = ib.ibObjs_.map ImmersedBoundaryObject.clear := by
      rw [List.map_map]
      exact List.map_congr_left (fun b _ => clear_clear b)
    rw [hcl] at h
    simpa [DirectForcingImmersedBoundary.updateCells] using h
  have h : ib.updateCells.updateCells = ib.updateCells :=
    updateCells_congr ib.updateCells ib rfl rfl hobjs
  refine ⟨h, ?_, ?_, ?_, ?_, ?_, ?_, ?_⟩
  · rw [h]
  · rw [h]
  · rw [h]
  · rw [h]
  · intro q cell i
    rw [h]
  · intro q u timeStep fib
    rw [h]
  · intro q rho u timeStep fib
    rw [h]

end ParPhase

namespace ParPhase

/-- The first cell of `rowGrid` is selected for extension: its neighbour lies outside
the disc. -/
theorem extend_solidDisc : extend rowGrid solidDisc 0 = true := by
  simp [extend, rowGrid, solidDisc, ImmersedBoundaryObject.isInIb, Circle.isInside,
    Vector2D.magSqr]
  norm_num

/-- The pressure correction of the fast body overflows to `-infinity`. -/
theorem pressureCorrection_fastBody :
    pressureCorrection fastBody (fun _ => IeeeScalar.finite 2) solidDisc 0
      = IeeeScalar.negInf := by
  show IeeeScalar.neg (IeeeScalar.add
    (IeeeScalar.mul (IeeeScalar.mul (IeeeScalar.mul (IeeeScalar.finite 2)
      (IeeeScalar.finite (2 ^ 600))) (IeeeScalar.finite (2 ^ 600)))
      (IeeeScalar.div (IeeeScalar.add (IeeeScalar.finite 2)
        (IeeeScalar.neg (IeeeScalar.finite 1))) (IeeeScalar.finite (1 / 2))))
    (IeeeScalar.mul (IeeeScalar.finite 1) (IeeeScalar.finite 0))) = IeeeScalar.negInf
  norm_num [IeeeScalar.neg, IeeeScalar.add, IeeeScalar.mul, IeeeScalar.div, IeeeScalar.ofReal,
    IeeeScalar.maxFinite]

end ParPhase

namespace ParPhase

/-- C25 as stated fails. For a body whose normal speed is `2^600`, the pressure
correction `dP` of the solid cell overflows to `-infinity`: it is not finite, it is not
NaN either, and `computeFieldExtenstions` overwrites the pressure of the cell, which
was 0, by `pb + dP * |centroid - bp| = -infinity`. -/
theorem computeFieldExtenstions_infinite_correction :
    extend rowGrid solidDisc 0 = true
    ∧ (pressureCorrection fastBody (fun _ => IeeeScalar.finite 2) solidDisc 0).isFinite = false
    ∧ computeFieldExtenstions rowGrid fastBody (fun _ => IeeeScalar.finite 2) [solidDisc]
        (fun _ => IeeeScalar.finite 0) 1 0 = IeeeScalar.negInf
    ∧ computeFieldExtenstions rowGrid fastBody (fun _ => IeeeScalar.finite 2) [solidDisc]
        (fun _ => IeeeScalar.finite 0) 1 0 ≠ IeeeScalar.finite 0 := by
  have hp : computeFieldExtenstions rowGrid fastBody (fun _ => IeeeScalar.finite 2) [solidDisc]
      (fun _ => IeeeScalar.finite 0) 1 0 = IeeeScalar.negInf := by
    have h : computeFieldExtenstions rowGrid fastBody (fun _ => IeeeScalar.finite 2) [solidDisc]
        (fun _ => IeeeScalar.finite 0) 1
        = extensionStep rowGrid fastBody (fun _ => IeeeScalar.finite 2) solidDisc
            (fun _ => IeeeScalar.finite 0) 0 := rfl
    rw [h, extensionStep, if_pos extend_solidDisc]
    simp only [pressureCorrection_fastBody, IeeeScalar.isnan, Bool.not_false, if_true,
      Function.update_same]
    show IeeeScalar.add (IeeeScalar.finite 0)
      (IeeeScalar.mul IeeeScalar.negInf (IeeeScalar.finite (1 / 2))) = IeeeScalar.negInf
    norm_num [IeeeScalar.add, IeeeScalar.mul]
  refine ⟨extend_solidDisc, ?_, hp, ?_⟩
  · rw [pressureCorrection_fastBody]
    rfl
  · rw [hp]
    exact fun h => IeeeScalar.noConfusion h

/-- C25, amended. In `computeFieldExtenstions`, for every SOLID cell selected for
extension, if the pressure correction `dP` is NaN the pressure field is left unchanged;
otherwise, also when `dP` is `+infinity` or `-infinity`, `p(c)` is set to
`pb + dP * |centroid - bp|`, with `pb` the interpolated boundary pressure and `bp` the
nearest boundary point, and the pressure of every other cell is kept. -/
theorem extensionStep_guard (grid : FiniteVolumeGrid2D) (env : ExtensionCollaborators)
    (rho_ p_ : Label → IeeeScalar) (ibObj : ImmersedBoundaryObject) (c : Label)
    (hsel : extend grid ibObj c = true) :
    (pressureCorrection env rho_ ibObj c = IeeeScalar.nan →
      extensionStep grid env rho_ ibObj p_ c = p_)
    ∧ (pressureCorrection env rho_ ibObj c ≠ IeeeScalar.nan →
      extensionStep grid env rho_ ibObj p_ c c
          = env.pb ibObj c p_ + pressureCorrection env rho_ ibObj c * env.dist ibObj c
      ∧ ∀ other, other ≠ c → extensionStep grid env rho_ ibObj p_ c other = p_ other) := by
  constructor
  · intro hnan
    simp [extensionStep, hsel, hnan, IeeeScalar.isnan]
  · intro hne
    have hisnan : (pressureCorrection env rho_ ibObj c).isnan = false := by
      cases hdp : pressureCorrection env rho_ ibObj c with
      | nan => exact absurd hdp hne
      | finite x => rfl
      | posInf => rfl
      | negInf => rfl
    constructor
    · simp [extensionStep, hsel, hisnan]
    · intro other hother
      simp [extensionStep, hsel, hisnan, Function.update_noteq hother]

/-- The pressure correction of the body at rest is zero. -/
theorem pressureCorrection_restingBody :
    pressureCorrection restingBody (fun _ => IeeeScalar.finite 2) solidDisc 0
      = IeeeScalar.finite 0 := by
  show IeeeScalar.neg (IeeeScalar.add
    (IeeeScalar.mul (IeeeScalar.mul (IeeeScalar.mul (IeeeScalar.finite 2)
      (IeeeScalar.finite 0)) (IeeeScalar.finite 0))
      (IeeeScalar.div (IeeeScalar.add (IeeeScalar.finite 2)
        (IeeeScalar.neg (IeeeScalar.finite 1))) (IeeeScalar.finite (1 / 2))))
    (IeeeScalar.mul (IeeeScalar.finite 1) (IeeeScalar.finite 0))) = IeeeScalar.finite 0
  norm_num [IeeeScalar.neg, IeeeScalar.add, IeeeScalar.mul, IeeeScalar.div, IeeeScalar.ofReal,
    IeeeScalar.maxFinite]

/-- Witness of the amended C25: the solid cell of the disc, for a body at rest; the
correction is zero, not NaN, and the pressure of the cell is overwritten. -/
theorem extensionStep_guard_witness :
    extend rowGrid solidDisc 0 = true
    ∧ pressureCorrection restingBody (fun _ => IeeeScalar.finite 2) solidDisc 0 ≠ IeeeScalar.nan
    ∧ extensionStep rowGrid restingBody (fun _ => IeeeScalar.finite 2) solidDisc
          (fun _ => IeeeScalar.finite 7) 0 0
        = restingBody.pb solidDisc 0 (fun _ => IeeeScalar.finite 7)
          + pressureCorrection restingBody (fun _ => IeeeScalar.finite 2) solidDisc 0
            * restingBody.dist solidDisc 0 :=
  have hne : pressureCorrection restingBody (fun _ => IeeeScalar.finite 2) solidDisc 0
      ≠ IeeeScalar.nan := by
    rw [pressureCorrection_restingBody]
    exact fun h => IeeeScalar.noConfusion h
  ⟨extend_solidDisc, hne,
    ((extensionStep_guard rowGrid restingBody (fun _ => IeeeScalar.finite 2)
      (fun _ => IeeeScalar.finite 7) solidDisc 0 extend_solidDisc).2 hne).1⟩

end ParPhase

namespace ParPhase

/-- The support points that `computeForcingTerm` collects for cell `0` of
`starBoundary`. -/
theorem starBoundary_supportPoints :
    starBoundary.supportPoints starCollaborators 0 = starPoints := by
  simp [DirectForcingImmersedBoundary.supportPoints, Stencil.supportPoints, ibStencil,
    stencilStep, starBoundary, starGrid, starCollaborators, Cell.cellLinks, starPoints,
    ImmersedBoundaryObject.nearestIntersect, circleBody, Circle.nearestIntersect,
    Vector2D.unitVec, Vector2D.mag]
  ext <;> (simp; try norm_num)

/-- The design matrix of `starPoints`, entry by entry. -/
theorem designMatrix_starPoints :
    (designMatrix starPoints : Matrix (Fin 6) (Fin 6) Scalar) = starDesign := by
  have h3 : ((3 : Fin 6) : ℕ) = 3 := rfl
  have h4 : ((4 : Fin 6) : ℕ) = 4 := rfl
  have h5 : ((5 : Fin 6) : ℕ) = 5 := rfl
  ext i j
  fin_cases i <;> fin_cases j <;>
    simp [designMatrix, starPoints, starDesign, quadraticBasis, h3, h4, h5,
      vecCons_three, vecCons_four, vecCons_five, -Matrix.cons_val']
  norm_num

/-- The matrix `starInverse` is a left inverse of `starDesign`. -/
theorem starInverse_mul : starInverse * starDesign = 1 := by
  ext i j
  fin_cases i <;> fin_cases j <;>
    simp only [starInverse, starDesign, Matrix.mul_apply, Fin.sum_univ_six,
      Matrix.of_apply, Matrix.cons_val_zero, Matrix.cons_val_one, Matrix.cons_val_two,
      Matrix.head_cons, Matrix.tail_cons, vecCons_three, vecCons_four, vecCons_five,
      Fin.zero_eta, Fin.mk_one, Fin.reduceFinMk] <;>
    norm_num [Matrix.one_apply, Fin.ext_iff]

/-- The design matrix of cell `0` of `starBoundary` has full column rank. -/
theorem rank_designMatrix_starBoundary :
    (designMatrix (starBoundary.supportPoints starCollaborators 0)).rank = 6 := by
  rw [starBoundary_supportPoints]
  show Matrix.rank (designMatrix starPoints : Matrix (Fin 6) (Fin 6) Scalar) = 6
  rw [designMatrix_starPoints,
    Matrix.rank_of_isUnit _ (Matrix.isUnit_of_left_inverse starInverse_mul)]
  simp

/-- The weight that `computeForcingTerm` reads at a row of `A` is the entry of the
weight row `beta`. -/
theorem stencilWeight_eq_beta (ib : DirectForcingImmersedBoundary) (q : ForcingCollaborators)
    (cell : Label) (i : Fin (ib.supportPoints q cell).length) :
    ib.stencilWeight q cell i
      = beta (ib.supportPoints q cell) (ib.grid_.cell cell).centroid 0 i := by
  unfold DirectForcingImmersedBoundary.stencilWeight betaAt
  exact dif_pos i.isLt

/-- C28. For every cell whose design matrix `A` (rows `{x^2, y^2, xy, x, y, 1}` at the
support points that `computeForcingTerm` collects, either overload) has full column
rank 6, the weights `beta = basis(centroid) * pseudoInverse(A)` reproduce every
polynomial in the span of the basis: for every quadratic `q` with coefficients `a`,
`sum_i beta_i * q(support_i) = q(centroid)`; in particular the weights sum to 1. -/
theorem stencilWeight_reproduces_quadratics (ib : DirectForcingImmersedBoundary)
    (q : ForcingCollaborators) (cell : Label)
    (h : (designMatrix (ib.supportPoints q cell)).rank = 6) :
    (∀ a : Fin 6 → Scalar,
      ∑ i : Fin (ib.supportPoints q cell).length,
          ib.stencilWeight q cell i
            * (∑ j, quadraticBasis ((ib.supportPoints q cell).get i) j * a j)
        = ∑ j, quadraticBasis (ib.grid_.cell cell).centroid j * a j)
    ∧ ∑ i : Fin (ib.supportPoints q cell).length, ib.stencilWeight q cell i = 1 := by
  have hall : ∀ a : Fin 6 → Scalar,
      ∑ i : Fin (ib.supportPoints q cell).length,
          ib.stencilWeight q cell i
            * (∑ j, quadraticBasis ((ib.supportPoints q cell).get i) j * a j)
        = ∑ j, quadraticBasis (ib.grid_.cell cell).centroid j * a j := by
    intro a
    have hb := interpolate_basis_combination (ib.supportPoints q cell)
      (ib.grid_.cell cell).centroid a h
    rw [← hb, interpolate]
    exact Finset.sum_congr rfl (fun i _ => by rw [stencilWeight_eq_beta])
  refine ⟨hall, ?_⟩
  have h1 := hall (fun j => if j = 5 then 1 else 0)
  have hone : ∀ p : Point2D,
      (∑ j, quadraticBasis p j * (if j = 5 then (1 : Scalar) else 0)) = 1 := by
    intro p
    simp [quadraticBasis]
    rfl
  simp only [hone, mul_one] at h1
  exact h1

/-- Witness of C28: cell `0` of `starBoundary`, whose six support points lie on no
conic. -/
theorem stencilWeight_reproduces_quadratics_witness :
    (designMatrix (starBoundary.supportPoints starCollaborators 0)).rank = 6
    ∧ ∑ i : Fin (starBoundary.supportPoints starCollaborators 0).length,
        starBoundary.stencilWeight starCollaborators 0 i = 1 :=
  ⟨rank_designMatrix_starBoundary,
    (stencilWeight_reproduces_quadratics starBoundary starCollaborators 0
      rank_designMatrix_starBoundary).2⟩

end ParPhase

namespace ParPhase

/-- C26. For every circular body and every grid, whatever wall faces lie within
`range_wall` of the body, the body-versus-wall overload `force(body, grid)` of
`CollisionModel`, of `SoftSphereCollisionModel` and of `LubricationCorrection` returns
exactly the zero vector: the contribution accumulated over the wall faces is dropped. -/
theorem wall_force_zero (cm : CollisionModel) (sm : SoftSphereCollisionModel)
    (lm : LubricationCorrection) (ibObj : ImmersedBoundaryObject) (grid : FiniteVolumeGrid2D)
    (h : ibObj.shape.isCircle = true) :
    cm.forceWall ibObj grid = Except.ok ⟨0, 0⟩
    ∧ sm.forceWall ibObj grid = Except.ok ⟨0, 0⟩
    ∧ lm.forceWall ibObj grid = Except.ok ⟨0, 0⟩ := by
  cases hs : ibObj.shape with
  | circle c =>
    simp [CollisionModel.forceWall, SoftSphereCollisionModel.forceWall,
      LubricationCorrection.forceWall, hs]
  | other inside nearest =>
    rw [hs] at h
    exact absurd h (by simp [Shape2D.isCircle])

/-- Witness of C26: a disc of radius one half on the first cell of `walledGrid`; the
wall face below it is within range, and the three forces are zero. -/
theorem wall_force_zero_witness :
    (circleBody ⟨0, 0⟩ (1 / 2) driftVelocity).shape.isCircle = true
    ∧ wallFaces walledGrid ⟨⟨0, 0⟩, 1 / 2 + unitCollision.range_wall_⟩
        = [⟨⟨0, -(1 / 2)⟩, 0, 0⟩]
    ∧ unitCollision.forceWall (circleBody ⟨0, 0⟩ (1 / 2) driftVelocity) walledGrid
        = Except.ok ⟨0, 0⟩
    ∧ (unitSoftSphere 1).forceWall (circleBody ⟨0, 0⟩ (1 / 2) driftVelocity) walledGrid
        = Except.ok ⟨0, 0⟩
    ∧ unitLubrication.forceWall (circleBody ⟨0, 0⟩ (1 / 2) driftVelocity) walledGrid
        = Except.ok ⟨0, 0⟩ :=
  ⟨rfl,
    by
      simp [wallFaces, walledGrid, rowGrid, itemsCoveredBy, Circle.isInside, Vector2D.magSqr,
        unitCollision]
      norm_num,
    wall_force_zero unitCollision (unitSoftSphere 1) unitLubrication
      (circleBody ⟨0, 0⟩ (1 / 2) driftVelocity) walledGrid rfl⟩

end ParPhase

namespace ParPhase

/-- C27. In `LubricationCorrection::force(P, Q)` the coefficients `9/20` and `3/56` are
integer divisions and equal zero, so the logarithmic terms contribute nothing: for two
circles of positive radii, a positive `range_particle` and a centre distance `d` below
`r1 + r2 + range_particle`, the force is
`6 * pi * mu * r_eff * (vp - vq) * (1/(2*eps) - 1/(2*eps0))`, with
`eps = (r1 + r2 + range_particle - d)/r_eff`, `eps0 = range_particle/r_eff`,
`r_eff = r1*r2/(r1 + r2)`, and `vp`, `vq` as the source reads them, both from body `P`,
at the centre of `P` and at the centre of `Q`. -/
theorem lubrication_force_without_logarithms (m : LubricationCorrection) (xp xq : Point2D)
    (r1 r2 : Scalar) (vP vQ : Point2D → Vector2D)
    (_hr1 : 0 < r1) (_hr2 : 0 < r2) (_hrange : 0 < m.range_particle_)
    (hd : (xp - xq).mag < r1 + r2 + m.range_particle_) :
    m.force (circleBody xp r1 vP) (circleBody xq r2 vQ)
      = Except.ok ((6 * Real.pi * m.mu_ * (r1 * r2 / (r1 + r2))) * (vP xp - vP xq)
          * (1 / (2 * ((r1 + r2 + m.range_particle_ - (xp - xq).mag) / (r1 * r2 / (r1 + r2))))
            - 1 / (2 * (m.range_particle_ / (r1 * r2 / (r1 + r2)))))) := by
  have hnot : ¬ ((xp - xq).mag > r1 + r2 + m.range_particle_) := not_lt.mpr (le_of_lt hd)
  have h1 : ((9 / 20 : ℕ) : Scalar) = 0 := by norm_num
  have h2 : ((3 / 56 : ℕ) : Scalar) = 0 := by norm_num
  simp only [LubricationCorrection.force, circleBody, Circle.centroid, Circle.radius,
    if_neg hnot, h1, h2, zero_mul, sub_zero]

/-- Witness of C27: two unit circles with centres `(5/2, 0)` and `(0, 0)`, the first
one spinning about the origin, `mu = 1` and `range_particle = 1`. -/
theorem lubrication_force_without_logarithms_witness :
    unitLubrication.force (circleBody ⟨5 / 2, 0⟩ 1 spinAboutOrigin)
        (circleBody ⟨0, 0⟩ 1 restVelocity)
      = Except.ok ((6 * Real.pi * unitLubrication.mu_ * (1 * 1 / (1 + 1)))
          * (spinAboutOrigin ⟨5 / 2, 0⟩ - spinAboutOrigin ⟨0, 0⟩)
          * (1 / (2 * ((1 + 1 + unitLubrication.range_particle_
                - ((⟨5 / 2, 0⟩ : Point2D) - ⟨0, 0⟩).mag) / (1 * 1 / (1 + 1))))
            - 1 / (2 * (unitLubrication.range_particle_ / (1 * 1 / (1 + 1)))))) :=
  lubrication_force_without_logarithms unitLubrication ⟨5 / 2, 0⟩ ⟨0, 0⟩ 1 1 spinAboutOrigin
    restVelocity (by norm_num) (by norm_num) (by norm_num [unitLubrication])
    (by
      rw [Vector2D.mag_horizontal (5 / 2) (by norm_num)]
      norm_num [unitLubrication])

end ParPhase

namespace ParPhase

/-- The value of `clamp(x, 0, 1)` lies between 0 and 1. -/
theorem clamp_unit_interval (x : Scalar) : 0 ≤ clamp x 0 1 ∧ clamp x 0 1 ≤ 1 :=
  ⟨le_max_left _ _, max_le zero_le_one (min_le_right _ _)⟩

/-- The blends of `updateProperties` for a weight between 0 and 1 and positive phase
constants: the density and the viscosity stay between the values of the two phases, and
the denominator of the viscosity is positive. -/
theorem harmonic_blend_bounds (rho1 rho2 mu1 mu2 g : Scalar) (h1 : 0 < rho1) (h2 : 0 < rho2)
    (h3 : 0 < mu1) (h4 : 0 < mu2) (hg0 : 0 ≤ g) (hg1 : g ≤ 1) :
    min rho1 rho2 ≤ rho1 + g * (rho2 - rho1)
    ∧ rho1 + g * (rho2 - rho1) ≤ max rho1 rho2
    ∧ 0 < rho1 / mu1 + g * (rho2 / mu2 - rho1 / mu1)
    ∧ min mu1 mu2 ≤ (rho1 + g * (rho2 - rho1)) / (rho1 / mu1 + g * (rho2 / mu2 - rho1 / mu1))
    ∧ (rho1 + g * (rho2 - rho1)) / (rho1 / mu1 + g * (rho2 / mu2 - rho1 / mu1))
        ≤ max mu1 mu2 := by
  have hg1' : 0 ≤ 1 - g := sub_nonneg.mpr hg1
  have hA : 0 < rho1 / mu1 := div_pos h1 h3
  have hB : 0 < rho2 / mu2 := div_pos h2 h4
  have hr1 : rho1 = rho1 / mu1 * mu1 := (div_mul_cancel₀ rho1 (ne_of_gt h3)).symm
  have hr2 : rho2 = rho2 / mu2 * mu2 := (div_mul_cancel₀ rho2 (ne_of_gt h4)).symm
  have ha : 0 ≤ (1 - g) * (rho1 / mu1) := mul_nonneg hg1' (le_of_lt hA)
  have hb : 0 ≤ g * (rho2 / mu2) := mul_nonneg hg0 (le_of_lt hB)
  have hD : rho1 / mu1 + g * (rho2 / mu2 - rho1 / mu1)
      = (1 - g) * (rho1 / mu1) + g * (rho2 / mu2) := by ring
  have hDpos : 0 < rho1 / mu1 + g * (rho2 / mu2 - rho1 / mu1) := by
    rw [hD]
    rcases eq_or_lt_of_le hg0 with h0 | h0
    · rw [← h0]
      simpa using hA
    · have := mul_pos h0 hB
      linarith
  have hrho : rho1 + g * (rho2 - rho1)
      = (1 - g) * (rho1 / mu1) * mu1 + g * (rho2 / mu2) * mu2 := by
    have e1 : (1 - g) * (rho1 / mu1) * mu1 = (1 - g) * rho1 := by
      rw [mul_assoc, ← hr1]
    have e2 : g * (rho2 / mu2) * mu2 = g * rho2 := by
      rw [mul_assoc, ← hr2]
    rw [e1, e2]
    ring
  refine ⟨?_, ?_, hDpos, ?_, ?_⟩
  · have hm1 : min rho1 rho2 ≤ rho1 := min_le_left _ _
    have hm2 : min rho1 rho2 ≤ rho2 := min_le_right _ _
    nlinarith [mul_nonneg hg1' (sub_nonneg.mpr hm1), mul_nonneg hg0 (sub_nonneg.mpr hm2)]
  · have hm1 : rho1 ≤ max rho1 rho2 := le_max_left _ _
    have hm2 : rho2 ≤ max rho1 rho2 := le_max_right _ _
    nlinarith [mul_nonneg hg1' (sub_nonneg.mpr hm1), mul_nonneg hg0 (sub_nonneg.mpr hm2)]
  · rw [le_div_iff₀ hDpos, hrho, hD]
    have hm1 : min mu1 mu2 ≤ mu1 := min_le_left _ _
    have hm2 : min mu1 mu2 ≤ mu2 := min_le_right _ _
    nlinarith [mul_nonneg ha (sub_nonneg.mpr hm1), mul_nonneg hb (sub_nonneg.mpr hm2)]
  · rw [div_le_iff₀ hDpos, hrho, hD]
    have hm1 : mu1 ≤ max mu1 mu2 := le_max_left _ _
    have hm2 : mu2 ≤ max mu1 mu2 := le_max_right _ _
    nlinarith [mul_nonneg ha (sub_nonneg.mpr hm1), mul_nonneg hb (sub_nonneg.mpr hm2)]

/-- C29. For positive `rho1`, `rho2`, `mu1`, `mu2` and every real `gamma`, also outside
`[0, 1]`, the values computed by `updateProperties` at every cell and every face stay
within the bounds of the pure phases: `min(rho1, rho2) <= rho <= max(rho1, rho2)` and
`min(mu1, mu2) <= mu <= max(mu1, mu2)`; the denominator of `mu` is positive and so is
`mu`. -/
theorem updateProperties_bounds (k : PhaseConstants) (env : PropertyCollaborators)
    (dom : FieldDomain) (st : PropertyState) (timeStep : Scalar) (x : Label)
    (h1 : 0 < k.rho1_) (h2 : 0 < k.rho2_) (h3 : 0 < k.mu1_) (h4 : 0 < k.mu2_) :
    (x ∈ dom.cells →
      min k.rho1_ k.rho2_ ≤ (updateProperties k env dom st timeStep).rho_.cells x
      ∧ (updateProperties k env dom st timeStep).rho_.cells x ≤ max k.rho1_ k.rho2_
      ∧ 0 < k.rho1_ / k.mu1_
          + clamp (st.gamma_.cells x) 0 1 * (k.rho2_ / k.mu2_ - k.rho1_ / k.mu1_)
      ∧ min k.mu1_ k.mu2_ ≤ (updateProperties k env dom st timeStep).mu_.cells x
      ∧ (updateProperties k env dom st timeStep).mu_.cells x ≤ max k.mu1_ k.mu2_
      ∧ 0 < (updateProperties k env dom st timeStep).mu_.cells x)
    ∧ (x ∈ dom.faces →
      min k.rho1_ k.rho2_ ≤ (updateProperties k env dom st timeStep).rho_.faces x
      ∧ (updateProperties k env dom st timeStep).rho_.faces x ≤ max k.rho1_ k.rho2_
      ∧ 0 < k.rho1_ / k.mu1_
          + clamp (st.gamma_.faces x) 0 1 * (k.rho2_ / k.mu2_ - k.rho1_ / k.mu1_)
      ∧ min k.mu1_ k.mu2_ ≤ (updateProperties k env dom st timeStep).mu_.faces x
      ∧ (updateProperties k env dom st timeStep).mu_.faces x ≤ max k.mu1_ k.mu2_
      ∧ 0 < (updateProperties k env dom st timeStep).mu_.faces x) := by
  have hmin : 0 < min k.mu1_ k.mu2_ := lt_min h3 h4
  constructor
  · intro hx
    obtain ⟨hg0, hg1⟩ := clamp_unit_interval (st.gamma_.cells x)
    obtain ⟨b1, b2, b3, b4, b5⟩ :=
      harmonic_blend_bounds k.rho1_ k.rho2_ k.mu1_ k.mu2_ _ h1 h2 h3 h4 hg0 hg1
    have hrho : (updateProperties k env dom st timeStep).rho_.cells x
        = k.rho1_ + clamp (st.gamma_.cells x) 0 1 * (k.rho2_ - k.rho1_) := by
      simp only [updateProperties, computeItems_apply, if_pos hx]
    have hmu : (updateProperties k env dom st timeStep).mu_.cells x
        = (k.rho1_ + clamp (st.gamma_.cells x) 0 1 * (k.rho2_ - k.rho1_))
          / (k.rho1_ / k.mu1_
            + clamp (st.gamma_.cells x) 0 1 * (k.rho2_ / k.mu2_ - k.rho1_ / k.mu1_)) := by
      simp only [updateProperties, computeItems_apply, if_pos hx]
    rw [hrho, hmu]
    exact ⟨b1, b2, b3, b4, b5, lt_of_lt_of_le hmin b4⟩
  · intro hx
    obtain ⟨hg0, hg1⟩ := clamp_unit_interval (st.gamma_.faces x)
    obtain ⟨b1, b2, b3, b4, b5⟩ :=
      harmonic_blend_bounds k.rho1_ k.rho2_ k.mu1_ k.mu2_ _ h1 h2 h3 h4 hg0 hg1
    have hrho : (updateProperties k env dom st timeStep).rho_.faces x
        = k.rho1_ + clamp (st.gamma_.faces x) 0 1 * (k.rho2_ - k.rho1_) := by
      simp only [updateProperties, computeItems_apply, if_pos hx]
    have hmu : (updateProperties k env dom st timeStep).mu_.faces x
        = (k.rho1_ + clamp (st.gamma_.faces x) 0 1 * (k.rho2_ - k.rho1_))
          / (k.rho1_ / k.mu1_
            + clamp (st.gamma_.faces x) 0 1 * (k.rho2_ / k.mu2_ - k.rho1_ / k.mu1_)) := by
      simp only [updateProperties, computeItems_apply, if_pos hx]
    rw [hrho, hmu]
    exact ⟨b1, b2, b3, b4, b5, lt_of_lt_of_le hmin b4⟩

/-- Witness of C29: water and air on the two-cell domain with `gamma = 3/2`, outside
`[0, 1]`, in cell `0`. -/
theorem updateProperties_bounds_witness :
    0 < waterAir.rho1_ ∧ 0 < waterAir.rho2_ ∧ 0 < waterAir.mu1_ ∧ 0 < waterAir.mu2_
    ∧ min waterAir.mu1_ waterAir.mu2_
        ≤ (updateProperties waterAir zeroOperators twoCellDomain (uniformPhase (3 / 2)) 1).mu_.cells 0
    ∧ (updateProperties waterAir zeroOperators twoCellDomain (uniformPhase (3 / 2)) 1).mu_.cells 0
        ≤ max waterAir.mu1_ waterAir.mu2_ :=
  have h := (updateProperties_bounds waterAir zeroOperators twoCellDomain (uniformPhase (3 / 2))
    1 0 (by norm_num [waterAir]) (by norm_num [waterAir]) (by norm_num [waterAir])
    (by norm_num [waterAir])).1 (by simp [twoCellDomain])
  ⟨by norm_num [waterAir], by norm_num [waterAir], by norm_num [waterAir],
    by norm_num [waterAir], h.2.2.2.1, h.2.2.2.2.1⟩

end ParPhase

namespace ParPhase

/-- The distance between two points does not depend on their order. -/
theorem Vector2D.mag_sub_comm (u v : Vector2D) : (u - v).mag = (v - u).mag := by
  simp only [Vector2D.mag, Vector2D.sub_x, Vector2D.sub_y]
  congr 1
  ring

/-- C30. The pure-spring pair force obeys action and reaction: for every two circular
bodies `P` and `Q` and every parameter setting with `eps_particle` other than zero,
both calls return a force and `CollisionModel::force(P, Q) = -CollisionModel::force(Q, P)`. -/
theorem collision_force_action_reaction (m : CollisionModel) (P Q : ImmersedBoundaryObject)
    (hP : P.shape.isCircle = true) (hQ : Q.shape.isCircle = true)
    (_heps : m.eps_particle_ ≠ 0) :
    ∃ f : Vector2D, m.force P Q = Except.ok f ∧ m.force Q P = Except.ok (-f) := by
  cases hsP : P.shape with
  | other inside nearest =>
    rw [hsP] at hP
    exact absurd hP (by simp [Shape2D.isCircle])
  | circle c1 =>
    cases hsQ : Q.shape with
    | other inside nearest =>
      rw [hsQ] at hQ
      exact absurd hQ (by simp [Shape2D.isCircle])
    | circle c2 =>
      have hmag := Vector2D.mag_sub_comm c1.centroid c2.centroid
      have hsum : c2.radius + c1.radius = c1.radius + c2.radius := add_comm _ _
      by_cases hd : (c1.centroid - c2.centroid).mag > c1.radius + c2.radius + m.range_particle_
      · refine ⟨⟨0, 0⟩, ?_, ?_⟩
        · simp only [CollisionModel.force, hsP, hsQ, if_pos hd]
        · simp only [CollisionModel.force, hsP, hsQ, ← hmag, hsum, if_pos hd]
          congr 1
          ext <;> simp
      · refine ⟨(c1.centroid - c2.centroid) / m.eps_particle_
          * (c1.radius + c2.radius + m.range_particle_ - (c1.centroid - c2.centroid).mag) ^ (2 : ℕ),
          ?_, ?_⟩
        · simp only [CollisionModel.force, hsP, hsQ, if_neg hd]
        · simp only [CollisionModel.force, hsP, hsQ, ← hmag, hsum, if_neg hd]
          congr 1
          ext
          · simp only [Vector2D.mul_scalar_x, Vector2D.div_scalar_x, Vector2D.sub_x,
              Vector2D.neg_x]
            ring
          · simp only [Vector2D.mul_scalar_y, Vector2D.div_scalar_y, Vector2D.sub_y,
              Vector2D.neg_y]
            ring

/-- Witness of C30: two unit circles with centres `(2, 0)` and `(0, 0)`, all four
parameters equal to one. -/
theorem collision_force_action_reaction_witness :
    ∃ f : Vector2D,
      unitCollision.force (circleBody ⟨2, 0⟩ 1 driftVelocity) (circleBody ⟨0, 0⟩ 1 restVelocity)
        = Except.ok f
      ∧ unitCollision.force (circleBody ⟨0, 0⟩ 1 restVelocity) (circleBody ⟨2, 0⟩ 1 driftVelocity)
        = Except.ok (-f) :=
  collision_force_action_reaction unitCollision (circleBody ⟨2, 0⟩ 1 driftVelocity)
    (circleBody ⟨0, 0⟩ 1 restVelocity) rfl rfl (by norm_num [unitCollision])

end ParPhase
